import Mathlib

/-!
# The montage event router (`engine/router.go`, `engine/misc.go`)

A shallow embedding of the router of vizicist/montage and proofs about it.

Conventions of the embedding.

* A Go `string` is a Lean `String`.  The separators, prefixes and region letters the
  router works with are ASCII, so the byte offsets of the source and the character
  offsets used here denote the same places.
* A Go `map[string]string` is an association list `GoMap` whose keys are kept distinct by
  `GoMap.set`.
* A Go `error` is `Option String`: `none` is `nil`, `some msg` carries `err.Error()`.
* A function that can hit a Go runtime panic returns `Option`; `none` is the panic.
* Calls into collaborators that live outside the two source files (the Reactors, the
  publish/subscribe bus, the audio engine) are appended to the `trace` of the router, and
  the recordings directory is the `files` field.  Both are ghost state: the Go struct has
  no such fields.
* Library and environment behaviour the router depends on (the JSON token stream,
  `strconv.ParseFloat`, the clock, the own NUID, file creation) is supplied by `Ext`.
* Every entry point is first embedded from just after its `Lock()` of the `eventMutex`
  to just before the deferred `Unlock()`; the namespace `Locked` then adds the lock, as
  a held/free flag, around these bodies.
-/

namespace Montage

/-! ## Go strings -/

/-- Scan for `sub` in a string, `i` being the offset of the part still to scan. -/
def indexAux (sub : List Char) : List Char → Nat → Int
  | [], i => if sub = [] then (i : Int) else -1
  | c :: cs, i => if sub.isPrefixOf (c :: cs) then (i : Int) else indexAux sub cs (i + 1)

/-- Go `strings.Index(s, substr)`: offset of the first occurrence of `substr` in `s`,
or `-1`.  The empty `substr` occurs at offset `0`. -/
def Index (s substr : String) : Int := indexAux substr.data s.data 0

/-- Go `s[i:j]` for offsets within the string. -/
def slice (s : String) (i j : Nat) : String := String.mk ((s.data.drop i).take (j - i))

/-- Split a character list at each `sep` into at most `n + 1` pieces. -/
def splitAux (sep : Char) : Nat → List Char → List Char → List (List Char)
  | _, acc, [] => [acc.reverse]
  | 0, acc, cs => [acc.reverse ++ cs]
  | n + 1, acc, c :: cs =>
    if c = sep then acc.reverse :: splitAux sep n [] cs else splitAux sep (n + 1) (c :: acc) cs

/-- Go `strings.SplitN(s, sep, n)` for a one-character separator and `n > 0`: at most `n`
substrings, the last of them the unsplit remainder. -/
def SplitN (s : String) (sep : Char) (n : Nat) : List String :=
  (splitAux sep (n - 1) [] s.data).map String.mk

/-! ## Go maps -/

/-- A `map[string]string`. -/
abbrev GoMap := List (String × String)

namespace GoMap

/-- The lookup `v, ok := m[k]`. -/
def get : GoMap → String → Option String
  | [], _ => none
  | (k', v) :: rest, k => if k' = k then some v else get rest k

/-- The assignment `m[k] = v`. -/
def set : GoMap → String → String → GoMap
  | [], k, v => [(k, v)]
  | (k', v') :: rest, k, v => if k' = k then (k, v) :: rest else (k', v') :: set rest k v

/-- The builtin `delete(m, k)`. -/
def delete (m : GoMap) (k : String) : GoMap := m.filter (fun e => decide (e.1 ≠ k))

/-- The values `range m` visits. -/
def values (m : GoMap) : List String := m.map Prod.snd

/-- The keys of the map. -/
def keys (m : GoMap) : List String := m.map Prod.fst

end GoMap

/-! ## Values exchanged with the collaborators -/

/-- A `float32`/`float64` obtained from `strconv.ParseFloat`, kept symbolically as the text
it was parsed from. -/
structure GoFloat where
  text : String
deriving DecidableEq, Repr

/-- The `GestureDeviceEvent` of the engine (`Area` is always `0.0` here). -/
structure GestureDeviceEvent where
  NUID : String
  Region : String
  ID : String
  Timestamp : Int
  DownDragUp : String
  X : GoFloat
  Y : GoFloat
  Z : GoFloat
deriving DecidableEq, Repr

/-- The `portmidi.Event` built by `makeMIDIEvent`. -/
structure MIDIEvent where
  Timestamp : Int
  Status : Int
  Data1 : Int
  Data2 : Int
deriving DecidableEq, Repr

/-- The `PlaybackEvent` of `router.go`: one line of a recording. -/
structure PlaybackEvent where
  time : GoFloat
  eventType : String
  pad : String
  method : String
  args : GoMap
  rawargs : String
deriving DecidableEq, Repr

/-- A Go `interface{}` result of an API call: `nil` or a string. -/
inductive Value where
  | nil
  | str (s : String)
deriving DecidableEq, Repr

/-- The operations the router invokes on a Reactor. -/
inductive ReactorOp where
  | handleGestureDeviceEvent (ce : GestureDeviceEvent)
  | generateSprite (id : String) (x y z : GoFloat)
  | HandleMIDITimeReset
  | sendANO
  | HandleMIDIDeviceInput (e : MIDIEvent)
  | ExecuteAPI (api : String) (args : GoMap) (rawargs : String)
  | checkGestureUp
  | AdvanceByOneClick
  | StartPhrase (channel : String) (source : String)
deriving DecidableEq, Repr

/-- What the router does to the world outside the two source files. -/
inductive Effect where
  | reactor (region : String) (op : ReactorOp)
  | publishGesture (ce : GestureDeviceEvent)
  | audioReset
  | setDebug (dtype : String) (b : Bool)
  | changeClicksPerSecond (v : GoFloat)
  | startPlayback (events : List PlaybackEvent)
deriving DecidableEq, Repr

/-! ## The router state -/

/-- The fields of the Go `Router` that the embedded functions read or write, with the
ghost fields `files` and `trace`.  `reactors` holds the keys of the Reactor directory. -/
structure Router where
  regionLetters : String
  reactors : List String
  lastClick : Int
  killPlayback : Bool
  recordingOn : Bool
  recordingFile : Option String
  publishGesture : Bool
  publishMIDI : Bool
  regionAssignedToNUID : GoMap
  files : GoMap
  trace : List Effect
deriving DecidableEq, Repr

/-- The state `TheRouter()` builds: letters `"ABCD"`, one Reactor per letter, empty
assignment table, recording off.  The two publish flags come from the configuration. -/
def TheRouter (publishGesture publishMIDI : Bool) : Router where
  regionLetters := "ABCD"
  reactors := ["A", "B", "C", "D"]
  lastClick := 0
  killPlayback := false
  recordingOn := false
  recordingFile := none
  publishGesture := publishGesture
  publishMIDI := publishMIDI
  regionAssignedToNUID := []
  files := []
  trace := []

/-- Append one effect to the trace. -/
def Router.emit (r : Router) (e : Effect) : Router := { r with trace := r.trace ++ [e] }

/-! ## Region assignment (`availableRegion`, `getRegionForNUID`) -/

/-- One step of the first loop of `availableRegion`: mark the offset of value `v`. -/
def markAssigned (letters : String) (alreadyAssigned : List Bool) (v : String) : List Bool :=
  let i := Index letters v
  if i ≥ 0 then alreadyAssigned.set i.toNat true else alreadyAssigned

/-- The second loop of `availableRegion`: the one-letter slice at the first unmarked
offset, `""` when there is none. -/
def firstUnused (letters : String) : List Bool → Nat → String
  | [], _ => ""
  | used :: rest, i => if !used then slice letters i (i + 1) else firstUnused letters rest (i + 1)

/-- The method `Router.availableRegion`.  The values of the table are visited in the
order of the list; the marks do not depend on the order.  For a non-empty `regionLetters`
the offset `strings.Index` returns is always within `alreadyAssigned`. -/
def Router.availableRegion (r : Router) (_source : String) : String :=
  let nregions := r.regionLetters.length
  let alreadyAssigned :=
    r.regionAssignedToNUID.values.foldl (markAssigned r.regionLetters)
      (List.replicate nregions false)
  firstUnused r.regionLetters alreadyAssigned 0

/-- The method `Router.getRegionForNUID`: the region and the router after the call. -/
def Router.getRegionForNUID (r : Router) (nuid : String) : String × Router :=
  match r.regionAssignedToNUID.get nuid with
  | some region => (region, r)
  | none =>
    let region := r.availableRegion nuid
    (region, { r with regionAssignedToNUID := r.regionAssignedToNUID.set nuid region })

/-- The router after a sequence of `getRegionForNUID` calls. -/
def Router.afterCalls (r : Router) (nuids : List String) : Router :=
  nuids.foldl (fun s n => (s.getRegionForNUID n).2) r

/-- What the `i`-th call of a sequence of `getRegionForNUID` calls returns. -/
def Router.regionOfCall (r : Router) (nuids : List String) (i : Nat) : String :=
  ((r.afterCalls (nuids.take i)).getRegionForNUID (nuids.getD i "")).1

/-! ## Specification-side notions for region assignment -/

/-- The first letter of `"ABCD"` that is not among `vals`, `""` when all four are. -/
def firstFreeLetter (vals : List String) : String :=
  match ["A", "B", "C", "D"].find? (fun l => decide (l ∉ vals)) with
  | some l => l
  | none => ""

/-- The tables `getRegionForNUID` builds: every value is a region letter or `""`, an
empty value is there only once all four letters are taken, and no letter is held by two
NUIDs. -/
structure TableOK (t : GoMap) : Prop where
  allowed : ∀ v ∈ t.values, v = "A" ∨ v = "B" ∨ v = "C" ∨ v = "D" ∨ v = ""
  full : "" ∈ t.values → "A" ∈ t.values ∧ "B" ∈ t.values ∧ "C" ∈ t.values ∧ "D" ∈ t.values
  inj : ∀ k1 k2 v, t.get k1 = some v → t.get k2 = some v → v ≠ "" → k1 = k2


/-- A router whose table holds the empty region for NUID `x` while every letter is free. -/
def routerWithEmptyRegion : Router :=
  { TheRouter false false with regionAssignedToNUID := [("x", "")] }

/-! ## Library and environment -/

/-- A token of `encoding/json`'s `Decoder.Token`. -/
inductive JToken where
  | delim (c : Char)
  | str (s : String)
  | num (shown : String)
  | bool (b : Bool)
  | null
deriving DecidableEq, Repr

/-- The text `fmt.Sprintf("%v", t)` gives for a token; a number carries its rendering. -/
def JToken.fmtV : JToken → String
  | .delim c => String.singleton c
  | .str s => s
  | .num shown => shown
  | .bool true => "true"
  | .bool false => "false"
  | .null => "<nil>"

/-- The loops that `range` over the Reactor directory. -/
inductive RangeSite where
  | advance (clk : Int)
  | sendANO
deriving DecidableEq, Repr

/-- What the router takes from libraries and from its environment during one call.

* `jsonTokens s`: the run of a `json.Decoder` over `s`: the tokens that successive
  `Token()` calls yield, each paired with what `More()` reports right after it, and the
  error message of the `Token()` call that ends the run (a syntax error or `EOF`).
* `jsonMarshal`: `json.Marshal` of an API result.
* `ParseFloat s bits`: whether `strconv.ParseFloat(s, bits)` succeeds.
* `millisOf s`: `int64(f * 1000.0)` for the float parsed from `s`.
* `MyNUID`, `CurrentMilli`, `oneBeat`: the package-level `MyNUID()`, `CurrentMilli` and
  `oneBeat`, which are declared outside the two source files.
* `rangeOrder site keys`: the order in which the `range` over the Reactor directory at
  `site` visits the keys (Go leaves it unspecified).
* `reactorExecuteAPI region api args rawargs`: what the Reactor's own `ExecuteAPI` returns.
* `midiChannels file`: the outcome of `NewMIDIFile`, and for channels 1 to 4 whether the
  cut phrase has notes.
* `recordingsFile nm`: the path `recordingsFile(nm)`.
* `createError path`: the error of `os.Create(path)`, if it fails.
* `openError path`: the error message of `os.Open(path)` for a file that is not there.
* `elapsed`: the clock reading `time.Since(r.recordingBegun)` as the `%.6f` verb rounds
  it, in microseconds. -/
structure Ext where
  jsonTokens : String → List (JToken × Bool) × String
  jsonMarshal : Value → Except String String
  ParseFloat : String → Nat → Bool
  millisOf : String → Int
  MyNUID : String
  CurrentMilli : Int
  oneBeat : Int
  rangeOrder : RangeSite → List String → List String
  reactorExecuteAPI : String → String → GoMap → String → Value × Option String
  midiChannels : String → Except String (Bool × Bool × Bool × Bool)
  recordingsFile : String → String
  createError : String → Option String
  openError : String → String
  elapsed : Nat

/-! ## `misc.go` -/

/-- The loop of `StringMap`: `more` is what `dec.More()` reports now, `toks` the tokens
still to come and `err` the error that ends the token run. -/
def StringMapLoop (err : String) : Bool → List (JToken × Bool) → GoMap → Except String GoMap
  | false, _, values => .ok values
  | true, [], _ => .error err
  | true, [(_, more)], _ => if !more then .error "Incomplete JSON?" else .error err
  | true, (name, more) :: (value, more2) :: rest, values =>
    if !more then .error "Incomplete JSON?"
    else StringMapLoop err more2 rest (values.set name.fmtV value.fmtV)

/-- The function `StringMap` of `misc.go`. -/
def StringMap (x : Ext) (params : String) : Except String GoMap :=
  match x.jsonTokens params with
  | ([], err) => .error err
  | ((t, more) :: rest, err) =>
    if t ≠ .delim '{' then .error "Expected \x27\x7b\x27 delimiter"
    else StringMapLoop err more rest []

/-- Go `strings.ReplaceAll(s, old, new)` for a one-character `old`. -/
def ReplaceAll (s : String) (old : Char) (new : String) : String :=
  String.mk (s.data.flatMap (fun c => if c = old then new.data else [c]))

/-- The function `jsonEscape`. -/
def jsonEscape (s : String) : String :=
  let s := ReplaceAll s '\\' "\\\\"
  let s := ReplaceAll s (Char.ofNat 8) "\\b"
  let s := ReplaceAll s (Char.ofNat 12) "\\f"
  let s := ReplaceAll s '\n' "\\n"
  let s := ReplaceAll s '\r' "\\r"
  let s := ReplaceAll s '\t' "\\t"
  let s := ReplaceAll s '"' "\\\""
  s

/-- The function `ErrorResponse`, applied to the message of the error. -/
def ErrorResponse (err : String) : String :=
  "\x7b \"error\": \x7b \"code\": 999, \"message\": \"" ++ jsonEscape err ++ "\" \x7d \x7d"

/-- The function `ResultResponse`. -/
def ResultResponse (x : Ext) (resultObj : Value) : String :=
  match x.jsonMarshal resultObj with
  | .error _ => ""
  | .ok bytes =>
    let result := if bytes = "" then "\"0\"" else bytes
    "\x7b \"result\": " ++ result ++ " \x7d"

/-- The function `IsTrueValue`. -/
def IsTrueValue (value : String) : Except String Bool :=
  if value = "True" then .ok true
  else if value = "true" then .ok true
  else if value = "1" then .ok true
  else if value = "on" then .ok true
  else if value = "False" then .ok false
  else if value = "false" then .ok false
  else if value = "0" then .ok false
  else if value = "off" then .ok false
  else .error ("IsTrueValue: invalid boolean value (" ++ value ++ "), assuming false")

/-- The function `OptionalStringArg`. -/
def OptionalStringArg (nm : String) (args : GoMap) (dflt : String) : String :=
  match args.get nm with
  | none => dflt
  | some val => val

/-- The function `NeedStringArg`. -/
def NeedStringArg (nm api : String) (args : GoMap) : Except String String :=
  match args.get nm with
  | none => .error ("api/event=" ++ api ++ " missing value for " ++ nm)
  | some val => .ok val

/-- The function `NeedFloatArg`. -/
def NeedFloatArg (x : Ext) (nm api : String) (args : GoMap) : Except String GoFloat :=
  match args.get nm with
  | none => .error ("api/event=" ++ api ++ " missing value for " ++ nm)
  | some val =>
    if x.ParseFloat val 32 then .ok ⟨val⟩
    else .error ("api/event=" ++ api ++ " bad value, expecting float for " ++ nm ++ ", got " ++ val)

/-- The function `NeedBoolArg`. -/
def NeedBoolArg (nm api : String) (args : GoMap) : Except String Bool :=
  match args.get nm with
  | none => .error ("api/event=" ++ api ++ " missing value for " ++ nm)
  | some val =>
    match IsTrueValue val with
    | .error _ => .error ("api/event=" ++ api ++ " bad value for " ++ val)
    | .ok b => .ok b

/-- The function `GetXYZ`. -/
def GetXYZ (x : Ext) (api : String) (args : GoMap) : Except String (GoFloat × GoFloat × GoFloat) :=
  match NeedFloatArg x "x" api args with
  | .error e => .error e
  | .ok xv =>
    match NeedFloatArg x "y" api args with
    | .error e => .error e
    | .ok yv =>
      match NeedFloatArg x "z" api args with
      | .error e => .error e
      | .ok zv => .ok (xv, yv, zv)

/-! ## `makeMIDIEvent` -/

/-- The digit value `encoding/hex` gives a character, if it is a hexadecimal digit. -/
def fromHexChar (c : Char) : Option Nat :=
  if '0' ≤ c ∧ c ≤ '9' then some (c.toNat - '0'.toNat)
  else if 'a' ≤ c ∧ c ≤ 'f' then some (c.toNat - 'a'.toNat + 10)
  else if 'A' ≤ c ∧ c ≤ 'F' then some (c.toNat - 'A'.toNat + 10)
  else none

/-- Go `hex.Decode`: the bytes of a string of digit pairs; `none` is its error (a
character that is no hexadecimal digit, or an odd length). -/
def hexDecode : List Char → Option (List Nat)
  | [] => some []
  | [_] => none
  | a :: b :: rest =>
    match fromHexChar a, fromHexChar b with
    | some hi, some lo =>
      match hexDecode rest with
      | some bytes => some ((hi * 16 + lo) :: bytes)
      | none => none
    | _, _ => none

/-- The decimal text of a number, as the `%d` verb prints it (`fuel` bounds the digits). -/
def decimalAux : Nat → Nat → List Char
  | 0, _ => []
  | fuel + 1, n =>
    if n < 10 then [Nat.digitChar n] else decimalAux fuel (n / 10) ++ [Nat.digitChar (n % 10)]

/-- The decimal text of a natural number. -/
def decimal (n : Nat) : String := String.mk (decimalAux (n + 1) n)

/-- The part of `makeMIDIEvent` after the timestamp: check the `0x`, decode, build.
The source compares the first two bytes with `0x` and decodes the bytes that follow; as
`0x` and the hexadecimal digits are ASCII, the first two characters and the characters
that follow give the same outcome. -/
def makeMIDIEventBytes (timestamp : Int) (bytes : String) : Except String MIDIEvent :=
  if bytes.length < 2 ∨ slice bytes 0 2 ≠ "0x" then
    .error ("makeMIDIEvent: invalid bytes value - " ++ bytes)
  else
    match hexDecode (bytes.data.drop 2) with
    | none => .error ("makeMIDIEvent: unable to decode hex bytes = " ++ bytes)
    | some bytearr =>
      match bytearr with
      | [status, data1, data2] =>
        .ok { Timestamp := timestamp, Status := status, Data1 := data1, Data2 := data2 }
      | _ => .error ("makeMIDIEvent: unable to handle midi bytes len=" ++ decimal bytearr.length)

/-- The method `Router.makeMIDIEvent`. -/
def makeMIDIEvent (x : Ext) (_subEvent : String) (bytes : String) (args : GoMap) :
    Except String MIDIEvent :=
  let s := OptionalStringArg "time" args ""
  if s ≠ "" then
    if x.ParseFloat s 64 then makeMIDIEventBytes (x.millisOf s) bytes
    else .error ("makeMIDIEvent: unable to parse time value (" ++ s ++ ")")
  else makeMIDIEventBytes 0 bytes

/-! ## `router.go` -/

/-- The event name split as `HandleSubscribedEventArgs` splits it: main and sub event. -/
def splitEvent (event : String) : String × String :=
  let eventWords := SplitN event '_' 2
  if eventWords.length > 1 then (eventWords.getD 0 "", eventWords.getD 1 "") else (event, "")

/-- The `cursor` case of `HandleSubscribedEventArgs`. -/
def handleCursorEvent (x : Ext) (r : Router) (nuid region subEvent : String) (args : GoMap) :
    Option String × Router :=
  if r.publishGesture ∧ nuid = x.MyNUID then (none, r)
  else
    let id := OptionalStringArg "id" args "UnspecifiedID"
    if subEvent ≠ "down" ∧ subEvent ≠ "drag" ∧ subEvent ≠ "up" then
      (some ("handleSubscribedEvent: Unexpected cursor event type: " ++ subEvent), r)
    else
      match GetXYZ x "handleSubscribedEvent" args with
      | .error e => (some e, r)
      | .ok (xv, yv, zv) =>
        let ce : GestureDeviceEvent :=
          { NUID := nuid, Region := region, ID := id, Timestamp := x.CurrentMilli,
            DownDragUp := subEvent, X := xv, Y := yv, Z := zv }
        let r1 := if r.publishGesture then r.emit (.publishGesture ce) else r
        (none, r1.emit (.reactor region (.handleGestureDeviceEvent ce)))

/-- The `sprite` case of `HandleSubscribedEventArgs`. -/
def handleSpriteEvent (x : Ext) (r : Router) (region : String) (args : GoMap) :
    Option String × Router :=
  match GetXYZ x "event.sprite" args with
  | .error _ => (none, r)
  | .ok (xv, yv, zv) => (none, r.emit (.reactor region (.generateSprite "dummy" xv yv zv)))

/-- The `midi` case of `HandleSubscribedEventArgs`. -/
def handleMIDIEvent (x : Ext) (r : Router) (nuid region subEvent : String) (args : GoMap) :
    Option String × Router :=
  if r.publishMIDI ∧ nuid = x.MyNUID then (none, r)
  else if subEvent = "time_reset" then
    (none, (r.emit (.reactor region .HandleMIDITimeReset)).emit (.reactor region .sendANO))
  else if subEvent = "audio_reset" then (none, r.emit .audioReset)
  else
    match NeedStringArg "bytes" "HandleMIDIEvent" args with
    | .error e => (some e, r)
    | .ok bytes =>
      match makeMIDIEvent x subEvent bytes args with
      | .error e => (some e, r)
      | .ok me => (none, r.emit (.reactor region (.HandleMIDIDeviceInput me)))

/-- The method `Router.HandleSubscribedEventArgs`: the error returned and the router after
the call. -/
def HandleSubscribedEventArgs (x : Ext) (r : Router) (args : GoMap) : Option String × Router :=
  match NeedStringArg "nuid" "HandleSubscribeEvent" args with
  | .error e => (some e, r)
  | .ok nuid =>
    match NeedStringArg "event" "HandleSubscribeEvent" args with
    | .error e => (some e, r)
    | .ok event =>
      let region0 := OptionalStringArg "region" args ""
      let region := if region0 = "" then (r.getRegionForNUID nuid).1 else region0
      let r1 := if region0 = "" then (r.getRegionForNUID nuid).2 else r
      let args1 := if region0 = "" then args else args.delete "region"
      if region ∉ r1.reactors then (some ("there is no region named " ++ region), r1)
      else
        let mainEvent := (splitEvent event).1
        let subEvent := (splitEvent event).2
        if mainEvent = "cursor" then handleCursorEvent x r1 nuid region subEvent args1
        else if mainEvent = "sprite" then handleSpriteEvent x r1 region args1
        else if mainEvent = "midi" then handleMIDIEvent x r1 nuid region subEvent args1
        else (none, r1)

/-- The type `APIExecutorFunc`, acting on the router state; `none` is a panic. -/
abbrev APIExecutorFunc := Router → String → String → String → Option ((Value × Option String) × Router)

/-- The method `Router.HandleAPIInput`. -/
def HandleAPIInput (x : Ext) (executor : APIExecutorFunc) (r : Router) (data : String) :
    Option (String × Router) :=
  match StringMap x data with
  | .error err => some (ErrorResponse err, r)
  | .ok smap =>
    match smap.get "api" with
    | none => some (ErrorResponse "Missing api parameter", r)
    | some api =>
      match smap.get "nuid" with
      | none => some (ErrorResponse "Missing nuid parameter", r)
      | some nuid =>
        match smap.get "params" with
        | none => some (ErrorResponse "Missing params parameter", r)
        | some rawargs =>
          match executor r api nuid rawargs with
          | none => none
          | some ((_, some err), r1) => some (ErrorResponse err, r1)
          | some ((result, none), r1) => some (ResultResponse x result, r1)

/-- The last `width` decimal digits of a number, zero padded. -/
def fixedDigits : Nat → Nat → List Char
  | 0, _ => []
  | width + 1, n => fixedDigits width (n / 10) ++ [Nat.digitChar (n % 10)]

/-- The text `fmt.Sprintf("%.6f", dt)` for a time of `us` microseconds. -/
def fmtSeconds6 (us : Nat) : String :=
  decimal (us / 1000000) ++ "." ++ String.mk (fixedDigits 6 (us % 1000000))

/-- The line `recordEvent` writes. -/
def recordLine (dt : Nat) (eventType pad method args : String) : String :=
  fmtSeconds6 dt ++ " " ++ eventType ++ " " ++ pad ++ " " ++ method ++ " " ++ args ++ "\n"

/-- The method `Router.recordEvent`, `dt` being the clock reading in microseconds.
`none` is the index panic of `args[0]` on an empty `args`. -/
def recordEvent (r : Router) (dt : Nat) (eventType pad method args : String) : Option Router :=
  if r.recordingOn = false then some r
  else
    match r.recordingFile with
    | none => some r
    | some path =>
      match args.data with
      | [] => none
      | c :: _ =>
        if c ≠ '{' then some r
        else
          let content := (r.files.get path).getD "" ++ recordLine dt eventType pad method args
          some { r with files := r.files.set path content }

/-- The method `Router.recordPadAPI`. -/
def recordPadAPI (r : Router) (dt : Nat) (data : String) : Option Router :=
  if r.recordingOn then recordEvent r dt "pad" "*" "api" data else some r

/-- The method `Router.recordingSave`. -/
def recordingSave (x : Ext) (r : Router) (name : String) : Option String × Router :=
  let r1 := { r with recordingFile := none }
  match r1.files.get (x.recordingsFile "LastRecording.json") with
  | none => (some (x.openError (x.recordingsFile "LastRecording.json")), r1)
  | some _ =>
    match x.createError (x.recordingsFile (name ++ ".json")) with
    | some err => (some err, r1)
    | none =>
      let r2 := { r1 with files := r1.files.set (x.recordingsFile (name ++ ".json")) "" }
      let content := (r2.files.get (x.recordingsFile "LastRecording.json")).getD ""
      (none, { r2 with files := r2.files.set (x.recordingsFile (name ++ ".json")) content })

/-- The method `Router.sendANO`. -/
def sendANO (x : Ext) (r : Router) : Router :=
  (x.rangeOrder .sendANO r.reactors).foldl (fun s region => s.emit (.reactor region .sendANO)) r

/-- The method `Router.recordingPlaybackStop`. -/
def recordingPlaybackStop (x : Ext) (r : Router) : Router :=
  sendANO x { r with killPlayback := true }

/-- The lines `reader.ReadString('\n')` returns before it reports `EOF`: each ends with
its newline; an unterminated rest of the file is not among them. -/
def readLines : List Char → List Char → List String
  | _, [] => []
  | acc, c :: cs =>
    if c = '\n' then String.mk (acc.reverse ++ ['\n']) :: readLines [] cs
    else readLines (c :: acc) cs

/-- The event types `recordingLoad` accepts. -/
def playbackTypes : List String := ["cursor", "sound", "visual", "effect", "global", "perform"]

/-- The loop body of `recordingLoad` over the lines of the file.  `none` is the index
panic of `words[4]` on a line of four words. -/
def loadLines (x : Ext) : List String → Option (List PlaybackEvent)
  | [] => some []
  | line :: rest =>
    let words := SplitN line ' ' 5
    if words.length < 4 then loadLines x rest
    else if x.ParseFloat (words.getD 0 "") 64 = false then loadLines x rest
    else if words.getD 1 "" ∈ playbackTypes then
      match words.get? 4 with
      | none => none
      | some rawargs =>
        match StringMap x rawargs with
        | .error _ => loadLines x rest
        | .ok args =>
          match loadLines x rest with
          | none => none
          | some events =>
            some ({ time := ⟨words.getD 0 ""⟩, eventType := words.getD 1 "", pad := words.getD 2 "",
                    method := words.getD 3 "", args := args, rawargs := rawargs } :: events)
    else loadLines x rest

/-- The method `Router.recordingLoad`. -/
def recordingLoad (x : Ext) (r : Router) (name : String) :
    Option (Except String (List PlaybackEvent)) :=
  match r.files.get (x.recordingsFile (name ++ ".json")) with
  | none => some (.error (x.openError (x.recordingsFile (name ++ ".json"))))
  | some content =>
    match loadLines x (readLines [] content.data) with
    | none => none
    | some events => some (.ok events)

/-- `r.reactors[region].StartPhrase(...)` when the cut phrase has notes; `none` is the nil
dereference for a region without Reactor. -/
def startPhraseIf (r : Router) (hasNotes : Bool) (region channel source : String) : Option Router :=
  if hasNotes then
    if region ∈ r.reactors then some (r.emit (.reactor region (.StartPhrase channel source)))
    else none
  else some r

/-- The `global` cases of `Router.ExecuteAPI`. -/
def executeGlobalAPI (x : Ext) (r : Router) (api apisuffix : String) (args : GoMap) :
    Option ((Value × Option String) × Router) :=
  if apisuffix = "midi_midifile" then
    match NeedStringArg "file" api args with
    | .error _ => some ((.str "0", none), r)
    | .ok filename =>
      match x.midiChannels filename with
      | .error _ => some ((.str "0", none), r)
      | .ok (n1, n2, n3, n4) =>
        match startPhraseIf r n1 "A" "channel1" "midiplaych1" with
        | none => none
        | some r1 =>
          match startPhraseIf r1 n2 "B" "channel2" "midiplaych2" with
          | none => none
          | some r2 =>
            match startPhraseIf r2 n3 "C" "channel3" "midiplaych3" with
            | none => none
            | some r3 =>
              match startPhraseIf r3 n4 "D" "channel4" "midiplaych4" with
              | none => none
              | some r4 => some ((.str "0", none), r4)
  else if apisuffix = "echo" then
    match args.get "value" with
    | none => some ((.str "ECHO!", none), r)
    | some value => some ((.str value, none), r)
  else if apisuffix = "debug" then
    match NeedStringArg "debug" api args with
    | .error _ => some ((.str "0", none), r)
    | .ok s =>
      match NeedBoolArg "onoff" api args with
      | .error _ => some ((.str "0", none), r)
      | .ok b => some ((.str "0", none), r.emit (.setDebug s b))
  else if apisuffix = "set_tempo_factor" then
    match NeedFloatArg x "value" api args with
    | .error _ => some ((.str "0", none), r)
    | .ok v => some ((.str "0", none), r.emit (.changeClicksPerSecond v))
  else if apisuffix = "audio_reset" then some ((.str "0", none), r.emit .audioReset)
  else if apisuffix = "recordingStart" then
    let r1 := { r with recordingOn := true }
    match x.createError (x.recordingsFile "LastRecording.json") with
    | some err => some ((.nil, some err), { r1 with recordingFile := none })
    | none =>
      let r2 := { r1 with recordingFile := some (x.recordingsFile "LastRecording.json"),
                          files := r1.files.set (x.recordingsFile "LastRecording.json") "" }
      match (if r2.recordingOn then recordEvent r2 x.elapsed "global" "*" "start" "\x7b\x7d"
             else some r2) with
      | none => none
      | some r3 => some ((.str "0", none), r3)
  else if apisuffix = "recordingSave" then
    match NeedStringArg "name" api args with
    | .error _ => some ((.str "0", none), r)
    | .ok name => some ((.str "0", none), (recordingSave x r name).2)
  else if apisuffix = "recordingStop" then
    match (if r.recordingOn then recordEvent r x.elapsed "global" "*" "stop" "\x7b\x7d"
           else some r) with
    | none => none
    | some r1 => some ((.str "0", none), { r1 with recordingFile := none, recordingOn := false })
  else if apisuffix = "recordingPlay" then
    match NeedStringArg "name" api args with
    | .error _ => some ((.str "0", none), r)
    | .ok name =>
      match recordingLoad x r name with
      | none => none
      | some (.error _) => some ((.str "0", none), r)
      | some (.ok events) => some ((.str "0", none), (sendANO x r).emit (.startPlayback events))
  else if apisuffix = "recordingPlaybackStop" then
    some ((.str "0", none), recordingPlaybackStop x r)
  else some ((.str "", some ("Router.ExecuteAPI unrecognized api=" ++ api)), r)

/-- The method `Router.ExecuteAPI`: the result, the error and the router after the call;
`none` is a panic. -/
def ExecuteAPI (x : Ext) (r : Router) (api nuid rawargs : String) :
    Option ((Value × Option String) × Router) :=
  match StringMap x rawargs with
  | .error _ =>
    some ((.str (ErrorResponse ("Router.ExecuteAPI: Unable to interpret value - " ++ rawargs)),
      none), r)
  | .ok args =>
    let words := SplitN api '.' 2
    if words.length ≠ 2 then
      some ((.nil, some ("Router.ExecuteAPI: api=" ++ api ++ " is badly formatted, needs a dot")), r)
    else
      let apifirst := words.getD 0 ""
      let apisuffix := words.getD 1 ""
      if apifirst = "region" then
        let region0 := OptionalStringArg "region" args ""
        let region := if region0 = "" then (r.getRegionForNUID nuid).1 else region0
        let r1 := if region0 = "" then (r.getRegionForNUID nuid).2 else r
        let args1 := if region0 = "" then args else args.delete "region"
        if region ∉ r1.reactors then
          some ((.nil, some ("api/event=" ++ api ++ " there is no region named " ++ region)), r1)
        else
          some (x.reactorExecuteAPI region apisuffix args1 rawargs,
            r1.emit (.reactor region (.ExecuteAPI apisuffix args1 rawargs)))
      else if apifirst ≠ "global" then
        some ((.nil, some ("ExecuteAPI: api=" ++ api ++ " unknown apiprefix=" ++ apifirst)), r)
      else executeGlobalAPI x r api apisuffix args

/-- One pass of the inner loop of `advanceClickTo` over the Reactors, for click `clk`.
`none` is the division panic of `clk % oneBeat` for a zero `oneBeat`. -/
def advanceReactors (oneBeat clk : Int) : List String → Router → Option Router
  | [], r => some r
  | region :: rest, r =>
    if oneBeat = 0 then none
    else
      let r1 := if clk.tmod oneBeat = 0 then r.emit (.reactor region .checkGestureUp) else r
      advanceReactors oneBeat clk rest (r1.emit (.reactor region .AdvanceByOneClick))

/-- The outer loop of `advanceClickTo`, from `clk` on; `fuel` bounds the iterations. -/
def advanceLoop (x : Ext) (toClick : Int) : Nat → Int → Router → Option Router
  | 0, _, r => some r
  | fuel + 1, clk, r =>
    if clk < toClick then
      match advanceReactors x.oneBeat clk (x.rangeOrder (.advance clk) r.reactors) r with
      | none => none
      | some r1 => advanceLoop x toClick fuel (clk + 1) r1
    else some r

/-- The method `Router.advanceClickTo`.  The loop runs `toClick - lastClick` times at
most, which is the fuel it gets. -/
def advanceClickTo (x : Ext) (r : Router) (toClick : Int) : Option Router :=
  match advanceLoop x toClick (toClick - r.lastClick).toNat r.lastClick r with
  | none => none
  | some r1 => some { r1 with lastClick := toClick }

/-! ## Specification-side notions -/

/-- The text `s` contains `substr`. -/
def Contains (s substr : String) : Prop := ∃ pre post, s = pre ++ substr ++ post

/-- The suffixes `ExecuteAPI` handles for the prefix `global`. -/
def globalSuffixes : List String :=
  ["midi_midifile", "echo", "debug", "set_tempo_factor", "audio_reset", "recordingStart",
   "recordingSave", "recordingStop", "recordingPlay", "recordingPlaybackStop"]

/-- What one click does to the Reactors: in the order of the `range`, each Reactor gets
`checkGestureUp` if the click is a multiple of `oneBeat`, then `AdvanceByOneClick`. -/
def clickBlock (x : Ext) (dir : List String) (clk : Int) : List Effect :=
  (x.rangeOrder (.advance clk) dir).flatMap (fun region =>
    (if clk.tmod x.oneBeat = 0 then [Effect.reactor region .checkGestureUp] else []) ++
      [Effect.reactor region .AdvanceByOneClick])

/-- The effects of the clicks `L`, `L + 1`, ..., `L + k - 1`, in this order. -/
def clickBlocks (x : Ext) (dir : List String) (L : Int) (k : Nat) : List Effect :=
  (List.range k).flatMap (fun i => clickBlock x dir (L + (i : Int)))

/-- Whether a character is a hexadecimal digit. -/
def isHexDigit (c : Char) : Bool :=
  decide (('0' ≤ c ∧ c ≤ '9') ∨ ('a' ≤ c ∧ c ≤ 'f') ∨ ('A' ≤ c ∧ c ≤ 'F'))

/-- One call of `recordEvent`: the clock reading in microseconds and the four arguments. -/
structure Recorded where
  dt : Nat
  eventType : String
  pad : String
  method : String
  args : String
deriving DecidableEq, Repr

/-- A sequence of `recordEvent` calls, one after the other. -/
def recordAll (r : Router) : List Recorded → Option Router
  | [] => some r
  | e :: rest =>
    match recordEvent r e.dt e.eventType e.pad e.method e.args with
    | none => none
    | some r1 => recordAll r1 rest

/-- The `PlaybackEvent` that stands for a recorded event: the time as written, the same
event type, pad and method, and the arguments as `StringMap` reads them from the rest of
the line (the written `args` and the newline). -/
def expectedPlayback (x : Ext) (e : Recorded) : PlaybackEvent :=
  { time := ⟨fmtSeconds6 e.dt⟩, eventType := e.eventType, pad := e.pad, method := e.method,
    args := match StringMap x (e.args ++ "\n") with
            | .ok m => m
            | .error _ => [],
    rawargs := e.args ++ "\n" }

/-- A recorded event that `recordingLoad` reads back: an event type it accepts, no space
or newline in pad and method, arguments that start with an opening brace, hold no newline
and are read by `StringMap`, and a time text that `strconv.ParseFloat` accepts. -/
structure Loadable (x : Ext) (e : Recorded) : Prop where
  type_ok : e.eventType ∈ playbackTypes
  pad_ok : ' ' ∉ e.pad.data ∧ '\n' ∉ e.pad.data
  method_ok : ' ' ∉ e.method.data ∧ '\n' ∉ e.method.data
  brace : ∃ rest, e.args.data = '{' :: rest
  args_line : '\n' ∉ e.args.data
  args_ok : ∃ m, StringMap x (e.args ++ "\n") = .ok m
  time_ok : x.ParseFloat (fmtSeconds6 e.dt) 64 = true

/-- A recorded event that `recordingLoad` passes over: an event type outside the ones it
accepts (such as `pad`), the fields free of spaces and newlines as far as the line format
needs it, and arguments that start with an opening brace. -/
structure Skipped (e : Recorded) : Prop where
  type_no : e.eventType ∉ playbackTypes
  type_plain : ' ' ∉ e.eventType.data ∧ '\n' ∉ e.eventType.data
  pad_ok : ' ' ∉ e.pad.data ∧ '\n' ∉ e.pad.data
  method_ok : ' ' ∉ e.method.data ∧ '\n' ∉ e.method.data
  brace : ∃ rest, e.args.data = '{' :: rest
  args_line : '\n' ∉ e.args.data

/-- The events of a recording that `recordingLoad` gives back. -/
def loadedOf (x : Ext) (evs : List Recorded) : List PlaybackEvent :=
  (evs.filter (fun e => decide (e.eventType ∈ playbackTypes))).map (expectedPlayback x)

/-- A router that is recording into a fresh `LastRecording.json`, the state
`recordingStart` leaves before it writes its marker. -/
def recordingRouter (x : Ext) : Router :=
  { TheRouter false false with
    recordingOn := true
    recordingFile := some (x.recordingsFile "LastRecording.json")
    files := [(x.recordingsFile "LastRecording.json", "")] }

/-- The content of a recording file: the lines `recordEvent` wrote for the events. -/
def fileContent : List Recorded → String
  | [] => ""
  | e :: rest => recordLine e.dt e.eventType e.pad e.method e.args ++ fileContent rest

/-- The token runs of a few small objects, as `encoding/json` produces them. -/
def sampleTokens (s : String) : List (JToken × Bool) × String :=
  if s = "\x7b\x7d" ∨ s = "\x7b\x7d\n" then
    ([(.delim '{', false), (.delim '}', false)], "EOF")
  else if s = "\x7b\"value\":\"hi\"\x7d" then
    ([(.delim '{', true), (.str "value", true), (.str "hi", false), (.delim '}', false)], "EOF")
  else if s = "\x7b\"api\":\"global.echo\",\"params\":\"\x7b\x7d\"\x7d" then
    ([(.delim '{', true), (.str "api", true), (.str "global.echo", true), (.str "params", true),
      (.str "\x7b\x7d", false), (.delim '}', false)], "EOF")
  else if s = "\x7b\"name\":\"t1\"\x7d" then
    ([(.delim '{', true), (.str "name", true), (.str "t1", false), (.delim '}', false)], "EOF")
  else if s = "\x7b\"value\":\"hi\"\x7d\n" then
    ([(.delim '{', true), (.str "value", true), (.str "hi", false), (.delim '}', false)], "EOF")
  else ([], "invalid character looking for beginning of value")

/-- A small environment on which the statements below are evaluated: the own NUID is
`me`, a beat has 96 clicks, a `range` visits the directory in its listed order, every file
can be created, and decimal texts parse as floats. -/
def sampleExt : Ext where
  jsonTokens := sampleTokens
  jsonMarshal := fun v =>
    match v with
    | .nil => .ok "null"
    | .str s => .ok ("\"" ++ s ++ "\"")
  ParseFloat := fun s _ => s.data.all (fun c => c.isDigit || c == '.') && !s.data.isEmpty
  millisOf := fun _ => 0
  MyNUID := "me"
  CurrentMilli := 0
  oneBeat := 96
  rangeOrder := fun _ keys => keys
  reactorExecuteAPI := fun _ _ _ _ => (.str "0", none)
  midiChannels := fun _ => .error "no such file"
  recordingsFile := fun nm => "recordings/" ++ nm
  createError := fun _ => none
  openError := fun path => "open " ++ path ++ ": no such file or directory"
  elapsed := 0

/-- The sample environment at a later clock reading. -/
def sampleExtAt (us : Nat) : Ext := { sampleExt with elapsed := us }

/-- A recording session driven through the API: start, one recorded API call half a
second in, stop after a second and a half, save as `t1`; then `t1` is loaded. -/
def sampleRun : Option (Except String (List PlaybackEvent)) :=
  match ExecuteAPI sampleExt (TheRouter false false) "global.recordingStart" "me" "\x7b\x7d" with
  | none => none
  | some (_, r1) =>
    match recordPadAPI r1 500000 "\x7b\"value\":\"hi\"\x7d" with
    | none => none
    | some r2 =>
      match ExecuteAPI (sampleExtAt 1500000) r2 "global.recordingStop" "me" "\x7b\x7d" with
      | none => none
      | some (_, r3) =>
        match ExecuteAPI sampleExt r3 "global.recordingSave" "me" "\x7b\"name\":\"t1\"\x7d" with
        | none => none
        | some (_, r4) => recordingLoad sampleExt r4 "t1"

/-- A router whose four regions are all taken. -/
def fullRouter : Router :=
  { TheRouter false false with
    regionAssignedToNUID := [("a", "A"), ("b", "B"), ("c", "C"), ("d", "D")] }

/-- A recording of a second and a half: the start marker, one API call as `recordPadAPI`
writes it, the stop marker. -/
def sampleSession : List Recorded :=
  [⟨0, "global", "*", "start", "\x7b\x7d"⟩,
   ⟨500000, "pad", "*", "api", "\x7b\"value\":\"hi\"\x7d"⟩,
   ⟨1500000, "global", "*", "stop", "\x7b\x7d"⟩]

/-! ## The clock loop (`StartRealtime`) -/

/-- What the loop of `StartRealtime` works on: the router, the package-level
`currentClick` (declared outside the two source files) and the local
`lastPrintedClick`. -/
structure Realtime where
  r : Router
  currentClick : Int
  lastPrintedClick : Int
deriving DecidableEq, Repr

/-- One wake of the loop of `StartRealtime`, `newclick` being `Seconds2Clicks(secs)` for
the time of the wake.  The assignments to `r.time` and `CurrentMilli`, the debug print
and the poll of the control channel touch nothing of this state.  `none` is a panic: of
`advanceClickTo`, or the division of `currentClick % everySoOften` for a zero `oneBeat`. -/
def StartRealtimeWake (x : Ext) (s : Realtime) (newclick : Int) : Option Realtime :=
  let advanced : Option Realtime :=
    if newclick > s.currentClick then
      match advanceClickTo x s.r s.currentClick with
      | none => none
      | some r1 => some { s with r := r1, currentClick := newclick }
    else some s
  match advanced with
  | none => none
  | some s1 =>
    let everySoOften := x.oneBeat * 4
    if everySoOften = 0 then none
    else if s1.currentClick.tmod everySoOften = 0 ∧ s1.currentClick ≠ s1.lastPrintedClick then
      some { s1 with lastPrintedClick := s1.currentClick }
    else some s1

/-! ## The event lock -/

/-- The `eventMutex` as a flag, with the number of `Lock()` calls that went through. -/
structure Mutex where
  held : Bool
  acquired : Nat
deriving DecidableEq, Repr

/-- The call `Lock()`: `none` when the mutex is held, in which case the caller waits. -/
def Mutex.Lock (m : Mutex) : Option Mutex :=
  if m.held then none else some { held := true, acquired := m.acquired + 1 }

/-- The call `Unlock()`. -/
def Mutex.Unlock (m : Mutex) : Mutex := { m with held := false }

/-- How a call of an entry point ends: it returns (with its result and the mutex as it
leaves it), it waits for ever in a `Lock()` on the mutex that its own goroutine holds, or
it panics. -/
inductive Ending (α : Type) where
  | returned (a : α) (m : Mutex)
  | blocked
  | panicked
deriving DecidableEq, Repr

/-- An argument of an OSC message. -/
inductive OSCArg where
  | string (s : String)
  | int (i : Int)
  | float (f : GoFloat)
deriving DecidableEq, Repr

/-- An `osc.Message`: address and arguments. -/
structure OSCMessage where
  Address : String
  Arguments : List OSCArg
deriving DecidableEq, Repr

/-- The type `OSCEvent`. -/
structure OSCEvent where
  Msg : OSCMessage
  Source : String
deriving DecidableEq, Repr

/-- The argument map `handleOSCEvent` hands to `HandleSubscribedEventArgs`; `none` when
it returns before (no argument, a first argument that is no string, or one that does not
start with an opening brace).  A `StringMap` error is ignored by the source and leaves
the nil map. -/
def oscEventArgs (x : Ext) (msg : OSCMessage) : Option GoMap :=
  match msg.Arguments with
  | [] => none
  | .string rawargs :: _ =>
    match rawargs.data with
    | [] => none
    | c :: rest =>
      if c ≠ '{' then none
      else
        let newrawargs := "\x7b \"nuid\": \"" ++ x.MyNUID ++ "\", " ++ String.mk rest
        match StringMap x newrawargs with
        | .ok args => some args
        | .error _ => some []
  | _ :: _ => none

namespace Locked

/-- The method `Router.HandleSubscribedEventArgs` with its `Lock()` and deferred
`Unlock()`. -/
def HandleSubscribedEventArgs (x : Ext) (r : Router) (args : GoMap) (m : Mutex) :
    Ending (Option String × Router) :=
  match m.Lock with
  | none => .blocked
  | some m1 => .returned (Montage.HandleSubscribedEventArgs x r args) m1.Unlock

/-- The method `Router.handleOSCEvent`, which takes no lock itself and calls
`HandleSubscribedEventArgs`. -/
def handleOSCEvent (x : Ext) (r : Router) (msg : OSCMessage) (m : Mutex) : Ending Router :=
  match oscEventArgs x msg with
  | none => .returned r m
  | some args =>
    match HandleSubscribedEventArgs x r args m with
    | .returned out m1 => .returned out.2 m1
    | .blocked => .blocked
    | .panicked => .panicked

/-- The method `Router.HandleOSCInput`. -/
def HandleOSCInput (x : Ext) (r : Router) (e : OSCEvent) (m : Mutex) : Ending Router :=
  match m.Lock with
  | none => .blocked
  | some m1 =>
    if e.Msg.Address = "/api" then .returned r m1.Unlock
    else if e.Msg.Address = "/event" then
      match handleOSCEvent x r e.Msg m1 with
      | .returned r1 m2 => .returned r1 m2.Unlock
      | .blocked => .blocked
      | .panicked => .panicked
    else .returned r m1.Unlock

/-- The method `Router.HandleAPIInput` with its `Lock()` and deferred `Unlock()`; the
executor takes no lock. -/
def HandleAPIInput (x : Ext) (executor : APIExecutorFunc) (r : Router) (data : String)
    (m : Mutex) : Ending (String × Router) :=
  match m.Lock with
  | none => .blocked
  | some m1 =>
    match Montage.HandleAPIInput x executor r data with
    | none => .panicked
    | some out => .returned out m1.Unlock

/-- The method `Router.advanceClickTo` with its `Lock()` and deferred `Unlock()`. -/
def advanceClickTo (x : Ext) (r : Router) (toClick : Int) (m : Mutex) : Ending Router :=
  match m.Lock with
  | none => .blocked
  | some m1 =>
    match Montage.advanceClickTo x r toClick with
    | none => .panicked
    | some r1 => .returned r1 m1.Unlock

/-- The method `Router.handleGestureDeviceInput`.  `callbacks` is what the functions in
`r.cursorCallbacks` do to the router; they are registered by code outside the two source
files and are taken not to call back into the router's entry points. -/
def handleGestureDeviceInput (r : Router) (callbacks : List (GestureDeviceEvent → Router → Router))
    (e : GestureDeviceEvent) (m : Mutex) : Ending Router :=
  match m.Lock with
  | none => .blocked
  | some m1 =>
    let r1 := callbacks.foldl (fun s cb => cb e s) r
    let r2 := if r1.publishGesture then r1.emit (.publishGesture e) else r1
    if e.Region ∉ r2.reactors then .returned r2 m1.Unlock
    else .returned (r2.emit (.reactor e.Region (.handleGestureDeviceEvent e))) m1.Unlock

end Locked

/-- The free mutex before any call. -/
def freeMutex : Mutex := { held := false, acquired := 0 }

/-! ## More sample inputs -/

/-- The token runs of three more objects: a request for `global.set_tempo_factor` with
empty params, a request whose params are no JSON, and an object with an empty `region`. -/
def requestTokens (s : String) : List (JToken × Bool) × String :=
  if s = "\x7b\"api\":\"global.set_tempo_factor\",\"nuid\":\"n1\",\"params\":\"\x7b\x7d\"\x7d" then
    ([(.delim '{', true), (.str "api", true), (.str "global.set_tempo_factor", true),
      (.str "nuid", true), (.str "n1", true), (.str "params", true), (.str "\x7b\x7d", false),
      (.delim '}', false)], "EOF")
  else if s = "\x7b\"api\":\"global.echo\",\"nuid\":\"n1\",\"params\":\"oops\"\x7d" then
    ([(.delim '{', true), (.str "api", true), (.str "global.echo", true),
      (.str "nuid", true), (.str "n1", true), (.str "params", true), (.str "oops", false),
      (.delim '}', false)], "EOF")
  else if s = "\x7b\"region\":\"\"\x7d" then
    ([(.delim '{', true), (.str "region", true), (.str "", false), (.delim '}', false)], "EOF")
  else sampleTokens s

/-- The text `json.Marshal` gives for a string that holds no control character and none
of the characters it writes as `\u` escapes: the string in quotes, with a backslash
before every quote and backslash. -/
def marshalPlain (v : Value) : Except String String :=
  match v with
  | .nil => .ok "null"
  | .str s => .ok ("\"" ++ ReplaceAll (ReplaceAll s '\\' "\\\\") '"' "\\\"" ++ "\"")

/-- The sample environment with these token runs and this `json.Marshal` added. -/
def requestExt : Ext :=
  { sampleExt with jsonTokens := requestTokens, jsonMarshal := marshalPlain }

/-! ## JSON string literals -/

/-- What `jsonEscape` writes for one character. -/
def escapeChar (c : Char) : List Char :=
  if c = '\\' then ['\\', '\\']
  else if c = Char.ofNat 8 then ['\\', 'b']
  else if c = Char.ofNat 12 then ['\\', 'f']
  else if c = '\n' then ['\\', 'n']
  else if c = '\r' then ['\\', 'r']
  else if c = '\t' then ['\\', 't']
  else if c = '"' then ['\\', '"']
  else [c]

/-- The character a two-character escape of JSON stands for. -/
def unescapeChar (c : Char) : Option Char :=
  if c = '"' then some '"'
  else if c = '\\' then some '\\'
  else if c = '/' then some '/'
  else if c = 'b' then some (Char.ofNat 8)
  else if c = 'f' then some (Char.ofNat 12)
  else if c = 'n' then some '\n'
  else if c = 'r' then some '\r'
  else if c = 't' then some '\t'
  else none

/-- Reading the inside of a JSON string literal: the text it stands for, or `none` when it
is not well formed: a double quote with no backslash before it, a backslash that starts
no two-character escape, and, when `strict`, a raw character below U+0020.  (The
`\u` form, which `jsonEscape` never writes, is not read.) -/
def jsonStringBody (strict : Bool) : List Char → Option (List Char)
  | [] => some []
  | c :: rest =>
    if c = '\\' then
      match rest with
      | [] => none
      | d :: rest2 =>
        match unescapeChar d, jsonStringBody strict rest2 with
        | some u, some tl => some (u :: tl)
        | _, _ => none
    else if c = '"' ∨ (strict = true ∧ c.toNat < 32) then none
    else
      match jsonStringBody strict rest with
      | some tl => some (c :: tl)
      | none => none

/-! ## Lines of a recording -/

/-- A line on which `recordingLoad` panics: exactly four fields, a time that parses and
an accepted event type, so that `words[4]` is read beyond the end of `words`. -/
def faultLine (x : Ext) (line : String) : Bool :=
  decide ((SplitN line ' ' 5).length = 4) &&
    x.ParseFloat ((SplitN line ' ' 5).getD 0 "") 64 &&
    decide ((SplitN line ' ' 5).getD 1 "" ∈ playbackTypes)

/-- The event of a valid line: five fields, a time that parses, an accepted event type
and args that `StringMap` reads; `none` for any other line. -/
def validLine (x : Ext) (line : String) : Option PlaybackEvent :=
  let words := SplitN line ' ' 5
  if 5 ≤ words.length ∧ x.ParseFloat (words.getD 0 "") 64 = true ∧
      words.getD 1 "" ∈ playbackTypes then
    match StringMap x (words.getD 4 "") with
    | .ok args =>
      some { time := ⟨words.getD 0 ""⟩, eventType := words.getD 1 "", pad := words.getD 2 "",
             method := words.getD 3 "", args := args, rawargs := words.getD 4 "" }
    | .error _ => none
  else none

/-- A saved recording `t1` whose one line has four fields: the time, `global`, `*` and
`start`, with no args. -/
def fourFieldRouter : Router :=
  { TheRouter false false with files := [("recordings/t1.json", "1.0 global * start\n")] }

/-! ## Effects on one region -/

/-- Every Reactor operation among the effects goes to the Reactor of `region`. -/
def TargetsOnly (region : String) (added : List Effect) : Prop :=
  ∀ e ∈ added, ∀ rg op, e = Effect.reactor rg op → rg = region

/-- The router `r1` is `r` with `added` appended to its trace, and else unchanged. -/
def Extends (r r1 : Router) (added : List Effect) : Prop :=
  r1 = { r with trace := r.trace ++ added }

/-! ## Local OSC events -/

/-- The keys that the loop of `StringMap` can write for a run of tokens: the tokens at the
even places, each followed by its value. -/
def tokenKeys : List (JToken × Bool) → List String
  | name :: _ :: rest => name.1.fmtV :: tokenKeys rest
  | _ => []

/-- The token runs of the two texts that `handleOSCEvent` builds, for the own NUID `me`,
from a cursor event without a `nuid` key and from one that has its own `nuid` key. -/
def oscTokens (s : String) : List (JToken × Bool) × String :=
  if s = "\x7b \"nuid\": \"me\", \"event\":\"cursor_down\",\"x\":\"0.5\",\"y\":\"0.5\",\"z\":\"0.1\"\x7d" then
    ([(.delim '{', true), (.str "nuid", true), (.str "me", true),
      (.str "event", true), (.str "cursor_down", true), (.str "x", true), (.str "0.5", true),
      (.str "y", true), (.str "0.5", true), (.str "z", true), (.str "0.1", false),
      (.delim '}', false)], "EOF")
  else if s = "\x7b \"nuid\": \"me\", \"nuid\":\"other\",\"event\":\"cursor_down\",\"x\":\"0.5\",\"y\":\"0.5\",\"z\":\"0.1\"\x7d" then
    ([(.delim '{', true), (.str "nuid", true), (.str "me", true),
      (.str "nuid", true), (.str "other", true),
      (.str "event", true), (.str "cursor_down", true), (.str "x", true), (.str "0.5", true),
      (.str "y", true), (.str "0.5", true), (.str "z", true), (.str "0.1", false),
      (.delim '}', false)], "EOF")
  else sampleTokens s

/-- The sample environment with these token runs added. -/
def oscExt : Ext := { sampleExt with jsonTokens := oscTokens }

/-- A cursor event as a local OSC message, with no `nuid` key in its argument. -/
def cursorMessage : OSCMessage :=
  ⟨"/event", [.string "\x7b\"event\":\"cursor_down\",\"x\":\"0.5\",\"y\":\"0.5\",\"z\":\"0.1\"\x7d"]⟩

/-- A cursor event as a local OSC message whose argument has a `nuid` key of its own. -/
def cursorMessageWithNuid : OSCMessage :=
  ⟨"/event", [.string "\x7b\"nuid\":\"other\",\"event\":\"cursor_down\",\"x\":\"0.5\",\"y\":\"0.5\",\"z\":\"0.1\"\x7d"]⟩

/-! ## Runs of API calls -/

/-- API calls made one after the other through `ExecuteAPI`, each with the environment of
its time, the API name, the NUID and the raw arguments; `none` when one of them panics. -/
def executeAPIs (r : Router) : List (Ext × String × String × String) → Option Router
  | [] => some r
  | (x, api, nuid, rawargs) :: rest =>
    match ExecuteAPI x r api nuid rawargs with
    | none => none
    | some (_, r1) => executeAPIs r1 rest

/-- The sample environment in which no file can be created. -/
def readOnlyExt : Ext :=
  { sampleExt with createError := fun path => some ("open " ++ path ++ ": permission denied") }

/-! ## Arguments with nested values, and the caller's map -/

/-- The token run of an object with an array as value, `\x7b"a":[1]\x7d`: the brace, the
key, the bracket, the number, the closing bracket and brace, with `More()` false from
the number on. -/
def nestedTokens (s : String) : List (JToken × Bool) × String :=
  if s = "\x7b\"a\":[1]\x7d" then
    ([(.delim '{', true), (.str "a", true), (.delim '[', true), (.num "1", false),
      (.delim ']', false), (.delim '}', false)], "EOF")
  else sampleTokens s

/-- The sample environment with this token run added. -/
def nestedExt : Ext := { sampleExt with jsonTokens := nestedTokens }

/-- The map `args` as `HandleSubscribedEventArgs` leaves it to its caller (a Go map is
shared with the caller): once the `nuid` and the `event` are found, a `region` key with
a non-empty value is deleted in place; nothing else is written to the map. -/
def subscribedArgsAfter (args : GoMap) : GoMap :=
  match NeedStringArg "nuid" "HandleSubscribeEvent" args with
  | .error _ => args
  | .ok _ =>
    match NeedStringArg "event" "HandleSubscribeEvent" args with
    | .error _ => args
    | .ok _ =>
      if OptionalStringArg "region" args "" = "" then args else args.delete "region"

/-! ## Theorems -/

/-! ### Association lists -/

theorem GoMap.get_set_self (m : GoMap) (k v : String) : (m.set k v).get k = some v := by
  induction m with
  | nil => simp [GoMap.set, GoMap.get]
  | cons e rest ih =>
    obtain ⟨k', v'⟩ := e
    by_cases h : k' = k
    · simp [GoMap.set, GoMap.get, h]
    · simp [GoMap.set, GoMap.get, h, ih]

theorem GoMap.get_set_other (m : GoMap) (k v k2 : String) (h2 : k2 ≠ k) :
    (m.set k v).get k2 = m.get k2 := by
  induction m with
  | nil => simp [GoMap.set, GoMap.get, Ne.symm h2]
  | cons e rest ih =>
    obtain ⟨k', v'⟩ := e
    by_cases h : k' = k
    · subst h
      simp [GoMap.set, GoMap.get, Ne.symm h2]
    · by_cases h3 : k' = k2
      · subst h3
        simp [GoMap.set, GoMap.get, h]
      · simp [GoMap.set, GoMap.get, h, h3, ih]

theorem GoMap.set_of_get_none (m : GoMap) (k v : String) (h : m.get k = none) :
    m.set k v = m ++ [(k, v)] := by
  induction m with
  | nil => rfl
  | cons e rest ih =>
    obtain ⟨k', v'⟩ := e
    by_cases hk : k' = k
    · simp [GoMap.get, hk] at h
    · simp only [GoMap.get, hk, if_false] at h
      simp [GoMap.set, hk, ih h]

theorem GoMap.mem_values_of_get (m : GoMap) (k v : String) (h : m.get k = some v) :
    v ∈ m.values := by
  induction m with
  | nil => simp [GoMap.get] at h
  | cons e rest ih =>
    obtain ⟨k', v'⟩ := e
    by_cases hk : k' = k
    · simp [GoMap.get, hk] at h
      simp [GoMap.values, h]
    · simp only [GoMap.get, hk, if_false] at h
      have := ih h
      simp only [GoMap.values, List.map_cons, List.mem_cons]
      exact Or.inr this

theorem GoMap.get_none_iff (m : GoMap) (k : String) : m.get k = none ↔ k ∉ m.keys := by
  induction m with
  | nil => simp [GoMap.get, GoMap.keys]
  | cons e rest ih =>
    obtain ⟨k', v'⟩ := e
    by_cases hk : k' = k
    · simp [GoMap.get, GoMap.keys, hk]
    · simp only [GoMap.get, hk, if_false, ih]
      simp [GoMap.keys, Ne.symm hk]

/-! ### Region assignment -/

theorem foldl_markAssigned (vals : List String) :
    ∀ (a b c d : Bool),
    (∀ v ∈ vals, v = "A" ∨ v = "B" ∨ v = "C" ∨ v = "D" ∨ v = "") →
    vals.foldl (markAssigned "ABCD") [a, b, c, d] =
      [a || decide ("A" ∈ vals) || decide ("" ∈ vals), b || decide ("B" ∈ vals),
       c || decide ("C" ∈ vals), d || decide ("D" ∈ vals)] := by
  induction vals with
  | nil => intro a b c d _; simp
  | cons v vs ih =>
    intro a b c d h
    have hv := h v (List.mem_cons_self _ _)
    have hvs : ∀ w ∈ vs, w = "A" ∨ w = "B" ∨ w = "C" ∨ w = "D" ∨ w = "" :=
      fun w hw => h w (List.mem_cons_of_mem _ hw)
    rw [List.foldl_cons]
    rcases hv with rfl | rfl | rfl | rfl | rfl
    · have : markAssigned "ABCD" [a, b, c, d] "A" = [true, b, c, d] := by
        cases a <;> cases b <;> cases c <;> cases d <;> decide
      rw [this, ih _ _ _ _ hvs]
      simp
    · have : markAssigned "ABCD" [a, b, c, d] "B" = [a, true, c, d] := by
        cases a <;> cases b <;> cases c <;> cases d <;> decide
      rw [this, ih _ _ _ _ hvs]
      simp
    · have : markAssigned "ABCD" [a, b, c, d] "C" = [a, b, true, d] := by
        cases a <;> cases b <;> cases c <;> cases d <;> decide
      rw [this, ih _ _ _ _ hvs]
      simp
    · have : markAssigned "ABCD" [a, b, c, d] "D" = [a, b, c, true] := by
        cases a <;> cases b <;> cases c <;> cases d <;> decide
      rw [this, ih _ _ _ _ hvs]
      simp
    · have : markAssigned "ABCD" [a, b, c, d] "" = [true, b, c, d] := by
        cases a <;> cases b <;> cases c <;> cases d <;> decide
      rw [this, ih _ _ _ _ hvs]
      simp

/-- On a table of the kind `getRegionForNUID` builds, `availableRegion` is the first
letter of `"ABCD"` that no NUID holds. -/
theorem availableRegion_eq_firstFreeLetter (r : Router) (source : String)
    (hl : r.regionLetters = "ABCD") (hok : TableOK r.regionAssignedToNUID) :
    r.availableRegion source = firstFreeLetter r.regionAssignedToNUID.values := by
  unfold Router.availableRegion
  rw [hl]
  have hrep : List.replicate ("ABCD" : String).length false = [false, false, false, false] := by
    decide
  simp only [hrep]
  rw [foldl_markAssigned _ _ _ _ _ hok.allowed]
  have hfull := hok.full
  generalize r.regionAssignedToNUID.values = vals at hfull ⊢
  unfold firstFreeLetter
  by_cases hA : "A" ∈ vals <;> by_cases hB : "B" ∈ vals <;> by_cases hC : "C" ∈ vals <;>
    by_cases hD : "D" ∈ vals <;> by_cases hE : "" ∈ vals <;>
    first
      | (exfalso; have := hfull hE; tauto)
      | (simp [hA, hB, hC, hD, hE, firstUnused]; try decide)

theorem firstFreeLetter_cases (vals : List String) :
    (firstFreeLetter vals = "" ∧
      "A" ∈ vals ∧ "B" ∈ vals ∧ "C" ∈ vals ∧ "D" ∈ vals) ∨
    (firstFreeLetter vals ∉ vals ∧
      (firstFreeLetter vals = "A" ∨ firstFreeLetter vals = "B" ∨
        firstFreeLetter vals = "C" ∨ firstFreeLetter vals = "D")) := by
  unfold firstFreeLetter
  by_cases hA : "A" ∈ vals <;> by_cases hB : "B" ∈ vals <;> by_cases hC : "C" ∈ vals <;>
    by_cases hD : "D" ∈ vals <;> simp [hA, hB, hC, hD]

theorem firstFreeLetter_ne_empty_of_missing (vals : List String)
    (h : ¬ ("A" ∈ vals ∧ "B" ∈ vals ∧ "C" ∈ vals ∧ "D" ∈ vals)) :
    firstFreeLetter vals ≠ "" := by
  rcases firstFreeLetter_cases vals with ⟨_, h4⟩ | ⟨_, h1 | h1 | h1 | h1⟩
  · exact absurd h4 h
  all_goals (rw [h1]; decide)

/-- A call for an unseen NUID on a well-formed table appends the first free letter. -/
theorem getRegionForNUID_new (r : Router) (nuid : String)
    (hl : r.regionLetters = "ABCD") (hok : TableOK r.regionAssignedToNUID)
    (hnew : r.regionAssignedToNUID.get nuid = none) :
    r.getRegionForNUID nuid =
      (firstFreeLetter r.regionAssignedToNUID.values,
        { r with regionAssignedToNUID :=
            r.regionAssignedToNUID ++ [(nuid, firstFreeLetter r.regionAssignedToNUID.values)] }) := by
  unfold Router.getRegionForNUID
  rw [hnew]
  simp only [availableRegion_eq_firstFreeLetter r nuid hl hok,
    GoMap.set_of_get_none _ _ _ hnew]

theorem getRegionForNUID_seen (r : Router) (nuid region : String)
    (h : r.regionAssignedToNUID.get nuid = some region) :
    r.getRegionForNUID nuid = (region, r) := by
  unfold Router.getRegionForNUID
  rw [h]

theorem getRegionForNUID_letters (r : Router) (nuid : String) :
    (r.getRegionForNUID nuid).2.regionLetters = r.regionLetters := by
  unfold Router.getRegionForNUID
  cases r.regionAssignedToNUID.get nuid <;> rfl

/-- After the call the table maps the NUID to the region returned. -/
theorem getRegionForNUID_get (r : Router) (nuid : String) :
    (r.getRegionForNUID nuid).2.regionAssignedToNUID.get nuid = some (r.getRegionForNUID nuid).1 := by
  unfold Router.getRegionForNUID
  cases h : r.regionAssignedToNUID.get nuid with
  | none => simp [GoMap.get_set_self]
  | some v => simpa using h

/-- An assignment, once made, is kept by every later call. -/
theorem getRegionForNUID_keeps (r : Router) (nuid k v : String)
    (h : r.regionAssignedToNUID.get k = some v) :
    (r.getRegionForNUID nuid).2.regionAssignedToNUID.get k = some v := by
  unfold Router.getRegionForNUID
  cases hn : r.regionAssignedToNUID.get nuid with
  | some w => simpa using h
  | none =>
    have hne : k ≠ nuid := by
      rintro rfl
      rw [h] at hn
      cases hn
    simp [GoMap.get_set_other _ _ _ _ hne, h]

theorem get_append_single (t : GoMap) (n w k : String) (hn : t.get n = none) :
    GoMap.get (t ++ [(n, w)]) k = if k = n then some w else t.get k := by
  rw [← GoMap.set_of_get_none t n w hn]
  by_cases hk : k = n
  · subst hk
    simp [GoMap.get_set_self]
  · simp [hk, GoMap.get_set_other _ _ _ _ hk]

theorem getRegionForNUID_ok (r : Router) (nuid : String)
    (hl : r.regionLetters = "ABCD") (hok : TableOK r.regionAssignedToNUID) :
    TableOK (r.getRegionForNUID nuid).2.regionAssignedToNUID := by
  cases hn : r.regionAssignedToNUID.get nuid with
  | some w => rw [getRegionForNUID_seen r nuid w hn]; exact hok
  | none =>
    rw [getRegionForNUID_new r nuid hl hok hn]
    simp only
    generalize hw : firstFreeLetter r.regionAssignedToNUID.values = w
    have hc := firstFreeLetter_cases r.regionAssignedToNUID.values
    rw [hw] at hc
    have hvals : GoMap.values (r.regionAssignedToNUID ++ [(nuid, w)]) =
        r.regionAssignedToNUID.values ++ [w] := by simp [GoMap.values]
    refine ⟨?_, ?_, ?_⟩
    · intro v hv
      rw [hvals, List.mem_append, List.mem_singleton] at hv
      rcases hv with hv | rfl
      · exact hok.allowed v hv
      · rcases hc with ⟨h0, _⟩ | ⟨_, h1 | h1 | h1 | h1⟩ <;> simp [*]
    · intro hE
      rw [hvals] at hE ⊢
      simp only [List.mem_append, List.mem_singleton] at hE ⊢
      rcases hE with hE | hE
      · obtain ⟨a, b, c, d⟩ := hok.full hE
        exact ⟨Or.inl a, Or.inl b, Or.inl c, Or.inl d⟩
      · rcases hc with ⟨_, a, b, c, d⟩ | ⟨_, h1 | h1 | h1 | h1⟩
        · exact ⟨Or.inl a, Or.inl b, Or.inl c, Or.inl d⟩
        all_goals (rw [h1] at hE; exact absurd hE (by decide))
    · intro k1 k2 v h1 h2 hv
      rw [get_append_single _ _ _ _ hn] at h1 h2
      by_cases e1 : k1 = nuid <;> by_cases e2 : k2 = nuid
      · rw [e1, e2]
      · simp only [e1, e2, if_true, if_false] at h1 h2
        have hmem := GoMap.mem_values_of_get _ _ _ h2
        cases h1
        rcases hc with ⟨h0, _⟩ | ⟨hnot, _⟩
        · exact absurd h0 hv
        · exact absurd hmem hnot
      · simp only [e1, e2, if_true, if_false] at h1 h2
        have hmem := GoMap.mem_values_of_get _ _ _ h1
        cases h2
        rcases hc with ⟨h0, _⟩ | ⟨hnot, _⟩
        · exact absurd h0 hv
        · exact absurd hmem hnot
      · simp only [e1, e2, if_false] at h1 h2
        exact hok.inj k1 k2 v h1 h2 hv

theorem tableOK_nil : TableOK ([] : GoMap) :=
  ⟨by simp [GoMap.values], by simp [GoMap.values], by simp [GoMap.get]⟩

theorem afterCalls_cons (r : Router) (n : String) (l : List String) :
    r.afterCalls (n :: l) = (r.getRegionForNUID n).2.afterCalls l := rfl

theorem afterCalls_letters (l : List String) : ∀ (r : Router),
    (r.afterCalls l).regionLetters = r.regionLetters := by
  induction l with
  | nil => intro r; rfl
  | cons n l ih => intro r; rw [afterCalls_cons, ih, getRegionForNUID_letters]

theorem afterCalls_ok (l : List String) : ∀ (r : Router),
    r.regionLetters = "ABCD" → TableOK r.regionAssignedToNUID →
    TableOK (r.afterCalls l).regionAssignedToNUID := by
  induction l with
  | nil => intro r _ h; exact h
  | cons n l ih =>
    intro r hl hok
    rw [afterCalls_cons]
    exact ih _ (by rw [getRegionForNUID_letters, hl]) (getRegionForNUID_ok r n hl hok)

theorem afterCalls_keeps (l : List String) : ∀ (r : Router) (k v : String),
    r.regionAssignedToNUID.get k = some v →
    (r.afterCalls l).regionAssignedToNUID.get k = some v := by
  induction l with
  | nil => intro r k v h; exact h
  | cons n l ih =>
    intro r k v h
    rw [afterCalls_cons]
    exact ih _ k v (getRegionForNUID_keeps r n k v h)

theorem regionOfCall_zero (r : Router) (n : String) (l : List String) :
    r.regionOfCall (n :: l) 0 = (r.getRegionForNUID n).1 := rfl

theorem regionOfCall_succ (r : Router) (n : String) (l : List String) (i : Nat) :
    r.regionOfCall (n :: l) (i + 1) = (r.getRegionForNUID n).2.regionOfCall l i := rfl

/-- After a sequence of calls, the table holds for each call's NUID what that call
returned. -/
theorem afterCalls_get (l : List String) : ∀ (r : Router) (i : Nat), i < l.length →
    (r.afterCalls l).regionAssignedToNUID.get (l.getD i "") = some (r.regionOfCall l i) := by
  induction l with
  | nil => intro r i hi; simp at hi
  | cons n l ih =>
    intro r i hi
    cases i with
    | zero =>
      rw [afterCalls_cons, regionOfCall_zero]
      exact afterCalls_keeps l _ _ _ (getRegionForNUID_get r n)
    | succ i =>
      rw [afterCalls_cons, regionOfCall_succ]
      have hi2 : i < l.length := by simpa using hi
      simpa using ih (r.getRegionForNUID n).2 i hi2

theorem regionOfCall_take (r : Router) (l : List String) (i j : Nat) (hij : i < j) :
    r.regionOfCall (l.take j) i = r.regionOfCall l i := by
  unfold Router.regionOfCall
  have h1 : (l.take j).take i = l.take i := by
    rw [List.take_take, Nat.min_eq_left (Nat.le_of_lt hij)]
  have h2 : (l.take j).getD i "" = l.getD i "" := by
    simp [List.getD, List.getElem?_take, hij]
  rw [h1, h2]

/-! ### C1 and C10: region assignment -/

/-- C1: starting from an empty assignment table with region letters `"ABCD"`, after any
sequence of `getRegionForNUID` calls, two calls with distinct NUIDs that each returned a
non-empty region returned different regions, and a later call with an NUID seen before
returns what the earlier call returned and leaves the router (so the table) unchanged. -/
theorem C1_regions_distinct_and_stable (r0 : Router) (nuids : List String)
    (hl : r0.regionLetters = "ABCD") (h0 : r0.regionAssignedToNUID = []) :
    (∀ i j, i < nuids.length → j < nuids.length → nuids.getD i "" ≠ nuids.getD j "" →
        r0.regionOfCall nuids i ≠ "" → r0.regionOfCall nuids j ≠ "" →
        r0.regionOfCall nuids i ≠ r0.regionOfCall nuids j) ∧
    (∀ i j, i < j → j < nuids.length → nuids.getD i "" = nuids.getD j "" →
        r0.regionOfCall nuids j = r0.regionOfCall nuids i ∧
        ((r0.afterCalls (nuids.take j)).getRegionForNUID (nuids.getD j "")).2 =
          r0.afterCalls (nuids.take j)) := by
  have hok0 : TableOK r0.regionAssignedToNUID := by rw [h0]; exact tableOK_nil
  constructor
  · intro i j hi hj hne hri hrj heq
    have hok := afterCalls_ok nuids r0 hl hok0
    have gi := afterCalls_get nuids r0 i hi
    have gj := afterCalls_get nuids r0 j hj
    rw [← heq] at gj
    exact hne (hok.inj _ _ _ gi gj hri)
  · intro i j hij hj hsame
    have hlen : i < (nuids.take j).length := by
      rw [List.length_take]
      exact lt_min hij (lt_trans hij hj)
    have g := afterCalls_get (nuids.take j) r0 i hlen
    have hget : (nuids.take j).getD i "" = nuids.getD j "" := by
      rw [← hsame]
      simp [List.getD, List.getElem?_take, hij]
    rw [hget, regionOfCall_take r0 nuids i j hij] at g
    have hseen := getRegionForNUID_seen _ _ _ g
    constructor
    · show ((r0.afterCalls (nuids.take j)).getRegionForNUID (nuids.getD j "")).1 = _
      rw [hseen]
    · rw [hseen]

theorem C1_regions_distinct_and_stable_witness :
    (TheRouter false false).regionLetters = "ABCD" ∧
    (TheRouter false false).regionAssignedToNUID = [] ∧
    ((∀ i j, i < ["x", "y", "x"].length → j < ["x", "y", "x"].length →
        ["x", "y", "x"].getD i "" ≠ ["x", "y", "x"].getD j "" →
        (TheRouter false false).regionOfCall ["x", "y", "x"] i ≠ "" →
        (TheRouter false false).regionOfCall ["x", "y", "x"] j ≠ "" →
        (TheRouter false false).regionOfCall ["x", "y", "x"] i ≠
          (TheRouter false false).regionOfCall ["x", "y", "x"] j) ∧
    (∀ i j, i < j → j < ["x", "y", "x"].length →
        ["x", "y", "x"].getD i "" = ["x", "y", "x"].getD j "" →
        (TheRouter false false).regionOfCall ["x", "y", "x"] j =
          (TheRouter false false).regionOfCall ["x", "y", "x"] i ∧
        (((TheRouter false false).afterCalls (["x", "y", "x"].take j)).getRegionForNUID
            (["x", "y", "x"].getD j "")).2 =
          (TheRouter false false).afterCalls (["x", "y", "x"].take j))) :=
  ⟨rfl, rfl, C1_regions_distinct_and_stable (TheRouter false false) ["x", "y", "x"] rfl rfl⟩

/-- A table that `getRegionForNUID` never builds (`TableOK.full`): it holds an empty
region for some NUID while letters are free.  `strings.Index("ABCD", "")` is `0`, so
the empty value marks `A` as taken and a new NUID gets `B`. -/
theorem availableRegion_with_empty_value :
    "y" ∉ routerWithEmptyRegion.regionAssignedToNUID.keys ∧
    "A" ∉ routerWithEmptyRegion.regionAssignedToNUID.values ∧
    firstFreeLetter routerWithEmptyRegion.regionAssignedToNUID.values = "A" ∧
    (routerWithEmptyRegion.getRegionForNUID "y").1 = "B" ∧
    ¬ TableOK routerWithEmptyRegion.regionAssignedToNUID := by
  refine ⟨by decide, by decide, by decide, by decide, ?_⟩
  intro h
  have hfull := h.full (by decide)
  exact absurd hfull.1 (by decide)

/-- C10: on every assignment table the router holds, which is one built from the empty
table by `getRegionForNUID` calls, the only code that writes it (letters `"ABCD"`), a call
for an NUID that is not a key returns the first letter of `"ABCD"` that is no value of the
table, records it for the NUID (changing nothing else), and returns `""` exactly when all
four letters are values. -/
theorem C10_first_free_letter (r0 : Router) (calls : List String) (nuid : String)
    (hl : r0.regionLetters = "ABCD") (h0 : r0.regionAssignedToNUID = [])
    (hnew : nuid ∉ (r0.afterCalls calls).regionAssignedToNUID.keys) :
    ((r0.afterCalls calls).getRegionForNUID nuid).1 =
        firstFreeLetter (r0.afterCalls calls).regionAssignedToNUID.values ∧
    ((r0.afterCalls calls).getRegionForNUID nuid).2 =
        { r0.afterCalls calls with
          regionAssignedToNUID := (r0.afterCalls calls).regionAssignedToNUID.set nuid
            (firstFreeLetter (r0.afterCalls calls).regionAssignedToNUID.values) } ∧
    (((r0.afterCalls calls).getRegionForNUID nuid).2.regionAssignedToNUID.get nuid =
        some (firstFreeLetter (r0.afterCalls calls).regionAssignedToNUID.values)) ∧
    (((r0.afterCalls calls).getRegionForNUID nuid).1 = "" ↔
        ("A" ∈ (r0.afterCalls calls).regionAssignedToNUID.values ∧
         "B" ∈ (r0.afterCalls calls).regionAssignedToNUID.values ∧
         "C" ∈ (r0.afterCalls calls).regionAssignedToNUID.values ∧
         "D" ∈ (r0.afterCalls calls).regionAssignedToNUID.values)) := by
  have hok0 : TableOK r0.regionAssignedToNUID := by rw [h0]; exact tableOK_nil
  have hok := afterCalls_ok calls r0 hl hok0
  have hl2 : (r0.afterCalls calls).regionLetters = "ABCD" := by rw [afterCalls_letters, hl]
  have hn := (GoMap.get_none_iff _ _).mpr hnew
  generalize r0.afterCalls calls = r at *
  have hnewEq := getRegionForNUID_new r nuid hl2 hok hn
  have hget := getRegionForNUID_get r nuid
  rw [hnewEq] at hget ⊢
  refine ⟨rfl, ?_, hget, ?_⟩
  · simp only [GoMap.set_of_get_none _ _ _ hn]
  · constructor
    · intro he
      by_contra hmiss
      exact firstFreeLetter_ne_empty_of_missing _ hmiss he
    · intro hall
      rcases firstFreeLetter_cases r.regionAssignedToNUID.values with ⟨h, _⟩ | ⟨hnot, h1 | h1 | h1 | h1⟩
      · exact h
      all_goals (rw [h1] at hnot; tauto)

theorem C10_first_free_letter_witness :
    (TheRouter false false).regionLetters = "ABCD" ∧
    (TheRouter false false).regionAssignedToNUID = [] ∧
    "z" ∉ ((TheRouter false false).afterCalls ["x", "y"]).regionAssignedToNUID.keys ∧
    (((TheRouter false false).afterCalls ["x", "y"]).getRegionForNUID "z").1 = "C" ∧
    (((TheRouter false false).afterCalls ["x", "y"]).getRegionForNUID "z").2.regionAssignedToNUID
      = [("x", "A"), ("y", "B"), ("z", "C")] :=
  have h := C10_first_free_letter (TheRouter false false) ["x", "y"] "z" rfl rfl (by decide)
  ⟨rfl, rfl, by decide, h.1.trans (by decide), (congrArg Router.regionAssignedToNUID h.2.1).trans (by decide)⟩

/-! ### Splitting -/

theorem splitAux_no_sep (sep : Char) (cs : List Char) (h : sep ∉ cs) :
    ∀ (n : Nat) (acc : List Char), splitAux sep n acc cs = [acc.reverse ++ cs] := by
  induction cs with
  | nil => intro n acc; cases n <;> simp [splitAux]
  | cons c cs ih =>
    intro n acc
    have hc : c ≠ sep := fun e => h (by simp [e])
    have hcs : sep ∉ cs := fun e => h (List.mem_cons_of_mem _ e)
    cases n with
    | zero => simp [splitAux]
    | succ n => simp [splitAux, hc, ih hcs]

theorem splitAux_first (sep : Char) (pre rest : List Char) (h : sep ∉ pre) :
    ∀ (n : Nat) (acc : List Char),
      splitAux sep (n + 1) acc (pre ++ sep :: rest) =
        (acc.reverse ++ pre) :: splitAux sep n [] rest := by
  induction pre with
  | nil => intro n acc; simp [splitAux]
  | cons c cs ih =>
    intro n acc
    have hc : c ≠ sep := fun e => h (by simp [e])
    have hcs : sep ∉ cs := fun e => h (List.mem_cons_of_mem _ e)
    simp [splitAux, hc, ih hcs]

theorem splitAux_zero (sep : Char) (cs : List Char) : splitAux sep 0 [] cs = [cs] := by
  cases cs <;> simp [splitAux]

theorem SplitN_no_sep (s : String) (sep : Char) (n : Nat) (h : sep ∉ s.data) :
    SplitN s sep n = [s] := by
  simp [SplitN, splitAux_no_sep sep s.data h]

theorem SplitN_two (pre rest : String) (sep : Char) (h : sep ∉ pre.data) :
    SplitN (pre ++ String.singleton sep ++ rest) sep 2 = [pre, rest] := by
  have hd : (pre ++ String.singleton sep ++ rest).data = pre.data ++ sep :: rest.data := by
    simp [String.data_append, String.singleton]
  simp [SplitN, hd, splitAux_first sep pre.data rest.data h, splitAux_zero]

/-! ### C5 and C6: the API dispatcher -/

theorem ExecuteAPI_global (x : Ext) (r : Router) (suffix nuid rawargs : String) (args : GoMap)
    (hargs : StringMap x rawargs = .ok args) :
    ExecuteAPI x r ("global." ++ suffix) nuid rawargs =
      executeGlobalAPI x r ("global." ++ suffix) suffix args := by
  have hs : SplitN ("global." ++ suffix) '.' 2 = ["global", suffix] :=
    SplitN_two "global" suffix '.' (by decide)
  unfold ExecuteAPI
  rw [hargs]
  simp only [hs]
  simp

/-- C5: for the API `global.echo`, any NUID and any `rawargs` that `StringMap` reads as an
object, `ExecuteAPI` returns, with a nil error and without touching the router, the
`value` argument when there is one and the string `ECHO!` when there is none. -/
theorem C5_echo (x : Ext) (r : Router) (nuid rawargs : String) (args : GoMap)
    (hargs : StringMap x rawargs = .ok args) :
    ExecuteAPI x r "global.echo" nuid rawargs =
      some ((.str (match args.get "value" with
                   | some value => value
                   | none => "ECHO!"), none), r) := by
  have h := ExecuteAPI_global x r "echo" nuid rawargs args hargs
  have he : ("global." ++ "echo" : String) = "global.echo" := by decide
  rw [he] at h
  rw [h]
  unfold executeGlobalAPI
  cases args.get "value" <;> simp

/-- C6 (what the code does): for every `rawargs` that `StringMap` reads, `ExecuteAPI`
returns a non-nil error and leaves the router as it was (so no Reactor is invoked) (a) for
an api name without a dot, (b) for `<first>.<suffix>` whose first segment is neither
`region` nor `global`, and (c) for `global.<suffix>` with a suffix that is not a recognized
one.  For every `rawargs` that `StringMap` does not read, among them the JSON object
whose one value is the array `[1]`, `ExecuteAPI` returns for every api name the text of
the error response as its result, with a nil error, and leaves the router as it was. -/
theorem C6_unknown_api_errors (x : Ext) (r : Router) (nuid rawargs : String) (args : GoMap)
    (hargs : StringMap x rawargs = .ok args) :
    (∀ api : String, '.' ∉ api.data →
      ExecuteAPI x r api nuid rawargs =
        some ((.nil, some ("Router.ExecuteAPI: api=" ++ api ++ " is badly formatted, needs a dot")),
          r)) ∧
    (∀ first suffix : String, '.' ∉ first.data → first ≠ "region" → first ≠ "global" →
      ExecuteAPI x r (first ++ "." ++ suffix) nuid rawargs =
        some ((.nil, some ("ExecuteAPI: api=" ++ (first ++ "." ++ suffix) ++
          " unknown apiprefix=" ++ first)), r)) ∧
    (∀ suffix : String, suffix ∉ globalSuffixes →
      ExecuteAPI x r ("global." ++ suffix) nuid rawargs =
        some ((.str "", some ("Router.ExecuteAPI unrecognized api=" ++ ("global." ++ suffix))),
          r)) ∧
    (∀ unread e : String, StringMap x unread = .error e → ∀ api : String,
      ExecuteAPI x r api nuid unread =
        some ((.str (ErrorResponse ("Router.ExecuteAPI: Unable to interpret value - " ++ unread)),
          none), r)) := by
  refine ⟨?_, ?_, ?_, ?_⟩
  rotate_left 3
  · intro unread e he api
    unfold ExecuteAPI
    rw [he]
  · intro api hdot
    unfold ExecuteAPI
    rw [hargs]
    simp [SplitN_no_sep api '.' 2 hdot]
  · intro first suffix hdot hr hg
    have hs : SplitN (first ++ "." ++ suffix) '.' 2 = [first, suffix] :=
      SplitN_two first suffix '.' hdot
    unfold ExecuteAPI
    rw [hargs]
    simp only [hs]
    simp [hr, hg]
  · intro suffix hs
    rw [ExecuteAPI_global x r suffix nuid rawargs args hargs]
    simp only [globalSuffixes, List.mem_cons, List.mem_singleton, not_or, List.not_mem_nil,
      not_false_eq_true, and_true] at hs
    obtain ⟨h1, h2, h3, h4, h5, h6, h7, h8, h9, h10⟩ := hs
    unfold executeGlobalAPI
    simp [h1, h2, h3, h4, h5, h6, h7, h8, h9, h10]

/-! ### C2: the exhausted pool -/

theorem markAssigned_step (a b c d : Bool) (v : String) :
    ∃ a1 b1 c1 d1, markAssigned "ABCD" [a, b, c, d] v = [a1, b1, c1, d1] ∧
      (a = true → a1 = true) ∧ (b = true → b1 = true) ∧
      (c = true → c1 = true) ∧ (d = true → d1 = true) ∧
      (v = "A" → a1 = true) ∧ (v = "B" → b1 = true) ∧
      (v = "C" → c1 = true) ∧ (v = "D" → d1 = true) := by
  by_cases hA : v = "A"
  · subst hA
    refine ⟨true, b, c, d, ?_, by simp, by simp, by simp, by simp, by simp, ?_, ?_, ?_⟩
    · cases a <;> cases b <;> cases c <;> cases d <;> decide
    all_goals (intro h; exact absurd h (by decide))
  by_cases hB : v = "B"
  · subst hB
    refine ⟨a, true, c, d, ?_, by simp, by simp, by simp, by simp, ?_, by simp, ?_, ?_⟩
    · cases a <;> cases b <;> cases c <;> cases d <;> decide
    all_goals (intro h; exact absurd h (by decide))
  by_cases hC : v = "C"
  · subst hC
    refine ⟨a, b, true, d, ?_, by simp, by simp, by simp, by simp, ?_, ?_, by simp, ?_⟩
    · cases a <;> cases b <;> cases c <;> cases d <;> decide
    all_goals (intro h; exact absurd h (by decide))
  by_cases hD : v = "D"
  · subst hD
    refine ⟨a, b, c, true, ?_, by simp, by simp, by simp, by simp, ?_, ?_, ?_, by simp⟩
    · cases a <;> cases b <;> cases c <;> cases d <;> decide
    all_goals (intro h; exact absurd h (by decide))
  unfold markAssigned
  simp only
  split
  · rcases (Index "ABCD" v).toNat with _ | _ | _ | _ | n
    · exact ⟨true, b, c, d, by simp, by simp, by simp, by simp, by simp, by simp [hA],
        by simp [hB], by simp [hC], by simp [hD]⟩
    · exact ⟨a, true, c, d, by simp, by simp, by simp, by simp, by simp, by simp [hA],
        by simp [hB], by simp [hC], by simp [hD]⟩
    · exact ⟨a, b, true, d, by simp, by simp, by simp, by simp, by simp, by simp [hA],
        by simp [hB], by simp [hC], by simp [hD]⟩
    · exact ⟨a, b, c, true, by simp, by simp, by simp, by simp, by simp, by simp [hA],
        by simp [hB], by simp [hC], by simp [hD]⟩
    · exact ⟨a, b, c, d, by simp, by simp, by simp, by simp, by simp, by simp [hA],
        by simp [hB], by simp [hC], by simp [hD]⟩
  · exact ⟨a, b, c, d, rfl, by simp, by simp, by simp, by simp, by simp [hA],
      by simp [hB], by simp [hC], by simp [hD]⟩

theorem foldl_markAssigned_any (vals : List String) : ∀ (a b c d : Bool),
    ∃ a1 b1 c1 d1, vals.foldl (markAssigned "ABCD") [a, b, c, d] = [a1, b1, c1, d1] ∧
      (a = true ∨ "A" ∈ vals → a1 = true) ∧ (b = true ∨ "B" ∈ vals → b1 = true) ∧
      (c = true ∨ "C" ∈ vals → c1 = true) ∧ (d = true ∨ "D" ∈ vals → d1 = true) := by
  induction vals with
  | nil => intro a b c d; exact ⟨a, b, c, d, rfl, by simp, by simp, by simp, by simp⟩
  | cons v vs ih =>
    intro a b c d
    obtain ⟨a1, b1, c1, d1, h1, ha, hb, hc, hd, hA, hB, hC, hD⟩ := markAssigned_step a b c d v
    obtain ⟨a2, b2, c2, d2, h2, ha2, hb2, hc2, hd2⟩ := ih a1 b1 c1 d1
    refine ⟨a2, b2, c2, d2, ?_, ?_, ?_, ?_, ?_⟩
    · rw [List.foldl_cons, h1, h2]
    · rintro (h | h)
      · exact ha2 (Or.inl (ha h))
      · rcases List.mem_cons.mp h with h | h
        · exact ha2 (Or.inl (hA h.symm))
        · exact ha2 (Or.inr h)
    · rintro (h | h)
      · exact hb2 (Or.inl (hb h))
      · rcases List.mem_cons.mp h with h | h
        · exact hb2 (Or.inl (hB h.symm))
        · exact hb2 (Or.inr h)
    · rintro (h | h)
      · exact hc2 (Or.inl (hc h))
      · rcases List.mem_cons.mp h with h | h
        · exact hc2 (Or.inl (hC h.symm))
        · exact hc2 (Or.inr h)
    · rintro (h | h)
      · exact hd2 (Or.inl (hd h))
      · rcases List.mem_cons.mp h with h | h
        · exact hd2 (Or.inl (hD h.symm))
        · exact hd2 (Or.inr h)

/-- With all four letters among the values of the table, whatever else it holds, no
region is available. -/
theorem availableRegion_exhausted (r : Router) (source : String)
    (hl : r.regionLetters = "ABCD")
    (hA : "A" ∈ r.regionAssignedToNUID.values) (hB : "B" ∈ r.regionAssignedToNUID.values)
    (hC : "C" ∈ r.regionAssignedToNUID.values) (hD : "D" ∈ r.regionAssignedToNUID.values) :
    r.availableRegion source = "" := by
  unfold Router.availableRegion
  rw [hl]
  have hrep : List.replicate ("ABCD" : String).length false = [false, false, false, false] := by
    decide
  simp only [hrep]
  obtain ⟨a1, b1, c1, d1, h, ha, hb, hc, hd⟩ :=
    foldl_markAssigned_any r.regionAssignedToNUID.values false false false false
  rw [h, ha (Or.inr hA), hb (Or.inr hB), hc (Or.inr hC), hd (Or.inr hD)]
  rfl

theorem getRegionForNUID_exhausted (r : Router) (nuid : String)
    (hl : r.regionLetters = "ABCD")
    (hA : "A" ∈ r.regionAssignedToNUID.values) (hB : "B" ∈ r.regionAssignedToNUID.values)
    (hC : "C" ∈ r.regionAssignedToNUID.values) (hD : "D" ∈ r.regionAssignedToNUID.values)
    (hnew : nuid ∉ r.regionAssignedToNUID.keys) :
    r.getRegionForNUID nuid =
      ("", { r with regionAssignedToNUID := r.regionAssignedToNUID.set nuid "" }) := by
  unfold Router.getRegionForNUID
  rw [(GoMap.get_none_iff _ _).mpr hnew]
  simp only [availableRegion_exhausted r nuid hl hA hB hC hD]

theorem contains_mid (pre substr post : String) : Contains (pre ++ substr ++ post) substr :=
  ⟨pre, post, rfl⟩

/-- C2: when all four letters of `"ABCD"` are values of the assignment table and `nuid`
is not a key of it, `getRegionForNUID nuid` returns `""`; and for that NUID, with no
`region` argument, `ExecuteAPI` of every `region.<suffix>` API and
`HandleSubscribedEventArgs` return an error containing `there is no region named` and add
nothing to the trace, so that no Reactor operation is invoked. -/
theorem C2_exhausted_pool (x : Ext) (r : Router) (nuid : String)
    (hl : r.regionLetters = "ABCD") (hdir : "" ∉ r.reactors)
    (hA : "A" ∈ r.regionAssignedToNUID.values) (hB : "B" ∈ r.regionAssignedToNUID.values)
    (hC : "C" ∈ r.regionAssignedToNUID.values) (hD : "D" ∈ r.regionAssignedToNUID.values)
    (hnew : nuid ∉ r.regionAssignedToNUID.keys) :
    (r.getRegionForNUID nuid).1 = "" ∧
    (∀ (suffix rawargs : String) (args : GoMap),
      StringMap x rawargs = .ok args → args.get "region" = none →
      ∃ msg r1, ExecuteAPI x r ("region." ++ suffix) nuid rawargs = some ((.nil, some msg), r1) ∧
        Contains msg "there is no region named" ∧ r1.trace = r.trace) ∧
    (∀ (args : GoMap) (event : String),
      args.get "nuid" = some nuid → args.get "event" = some event → args.get "region" = none →
      ∃ msg r1, HandleSubscribedEventArgs x r args = (some msg, r1) ∧
        Contains msg "there is no region named" ∧ r1.trace = r.trace) := by
  have hg := getRegionForNUID_exhausted r nuid hl hA hB hC hD hnew
  refine ⟨by rw [hg], ?_, ?_⟩
  · intro suffix rawargs args hargs hreg
    have hs : SplitN ("region." ++ suffix) '.' 2 = ["region", suffix] :=
      SplitN_two "region" suffix '.' (by decide)
    refine ⟨"api/event=" ++ ("region." ++ suffix) ++ " there is no region named " ++ "",
      { r with regionAssignedToNUID := r.regionAssignedToNUID.set nuid "" }, ?_, ?_, rfl⟩
    · unfold ExecuteAPI
      rw [hargs]
      simp only [hs]
      simp [OptionalStringArg, hreg, hg, hdir]
    · exact ⟨"api/event=" ++ ("region." ++ suffix) ++ " ", " " ++ "", by
        simp [String.append_assoc]⟩
  · intro args event hnuid hevent hreg
    refine ⟨"there is no region named " ++ "",
      { r with regionAssignedToNUID := r.regionAssignedToNUID.set nuid "" }, ?_, ?_, rfl⟩
    · unfold HandleSubscribedEventArgs
      simp [NeedStringArg, OptionalStringArg, hnuid, hevent, hreg, hg, hdir]
    · exact ⟨"", " ", by decide⟩

/-! ### C8 and C9: requests and notifications -/

/-- C8: for every request that `StringMap` reads as an object with an `api` key and no
`nuid` key, `HandleAPIInput` returns, whatever the executor is (so without invoking it),
exactly `ErrorResponse` of `Missing nuid parameter`, which is the error object with code
999 and that message; it returns normally and leaves the router as it was, so a following
request is processed as it would have been without this one. -/
theorem C8_missing_nuid (x : Ext) (executor : APIExecutorFunc) (r : Router) (data api : String)
    (smap : GoMap) (hparse : StringMap x data = .ok smap)
    (hapi : smap.get "api" = some api) (hnuid : smap.get "nuid" = none) :
    HandleAPIInput x executor r data = some (ErrorResponse "Missing nuid parameter", r) ∧
    ErrorResponse "Missing nuid parameter" =
      "\x7b \"error\": \x7b \"code\": 999, \"message\": \"Missing nuid parameter\" \x7d \x7d" ∧
    (∀ (x2 : Ext) (executor2 : APIExecutorFunc) (data2 : String),
      (HandleAPIInput x executor r data).bind (fun out => HandleAPIInput x2 executor2 out.2 data2) =
        HandleAPIInput x2 executor2 r data2) := by
  have h : HandleAPIInput x executor r data = some (ErrorResponse "Missing nuid parameter", r) := by
    unfold HandleAPIInput
    rw [hparse]
    simp only [hapi, hnuid]
  refine ⟨h, by decide, ?_⟩
  intro x2 executor2 data2
  rw [h]
  rfl

theorem splitEvent_main (main sub : String) (h : '_' ∉ main.data) :
    splitEvent (main ++ "_" ++ sub) = (main, sub) := by
  have hs : SplitN (main ++ "_" ++ sub) '_' 2 = [main, sub] := SplitN_two main sub '_' h
  unfold splitEvent
  simp [hs]

theorem splitEvent_plain (event : String) (h : '_' ∉ event.data) :
    splitEvent event = (event, "") := by
  unfold splitEvent
  simp [SplitN_no_sep event '_' 2 h]

theorem getRegionForNUID_trace (r : Router) (nuid : String) :
    (r.getRegionForNUID nuid).2.trace = r.trace := by
  unfold Router.getRegionForNUID
  cases r.regionAssignedToNUID.get nuid <;> rfl

theorem getRegionForNUID_publishGesture (r : Router) (nuid : String) :
    (r.getRegionForNUID nuid).2.publishGesture = r.publishGesture := by
  unfold Router.getRegionForNUID
  cases r.regionAssignedToNUID.get nuid <;> rfl

theorem getRegionForNUID_publishMIDI (r : Router) (nuid : String) :
    (r.getRegionForNUID nuid).2.publishMIDI = r.publishMIDI := by
  unfold Router.getRegionForNUID
  cases r.regionAssignedToNUID.get nuid <;> rfl

theorem handleCursorEvent_self (x : Ext) (r : Router) (region subEvent : String) (args : GoMap)
    (hpub : r.publishGesture = true) :
    handleCursorEvent x r x.MyNUID region subEvent args = (none, r) := by
  unfold handleCursorEvent
  simp [hpub]

theorem handleMIDIEvent_self (x : Ext) (r : Router) (region subEvent : String) (args : GoMap)
    (hpub : r.publishMIDI = true) :
    handleMIDIEvent x r x.MyNUID region subEvent args = (none, r) := by
  unfold handleMIDIEvent
  simp [hpub]

/-- C9: with gesture publishing enabled, for every notification whose `event` is `cursor`
or `cursor_<sub>` and whose `nuid` is the own NUID, `HandleSubscribedEventArgs` adds
nothing to the trace: no Reactor operation is invoked and nothing is published; and the
same for every `midi` or `midi_<sub>` notification carrying the own NUID when MIDI
publishing is enabled. -/
theorem C9_self_echo_dropped (x : Ext) (r : Router) (args : GoMap) (event : String)
    (hnuid : args.get "nuid" = some x.MyNUID) (hevent : args.get "event" = some event) :
    (r.publishGesture = true → (event = "cursor" ∨ ∃ sub, event = "cursor_" ++ sub) →
      (HandleSubscribedEventArgs x r args).2.trace = r.trace) ∧
    (r.publishMIDI = true → (event = "midi" ∨ ∃ sub, event = "midi_" ++ sub) →
      (HandleSubscribedEventArgs x r args).2.trace = r.trace) := by
  constructor
  · intro hpub hkind
    have hmain : (splitEvent event).1 = "cursor" := by
      rcases hkind with rfl | ⟨sub, rfl⟩
      · decide
      · rw [show ("cursor_" ++ sub : String) = "cursor" ++ "_" ++ sub from rfl,
          splitEvent_main "cursor" sub (by decide)]
    unfold HandleSubscribedEventArgs
    simp only [NeedStringArg, hnuid, hevent, hmain, if_true]
    by_cases hreg : OptionalStringArg "region" args "" = ""
    · simp only [hreg, if_true]
      split
      · exact getRegionForNUID_trace r x.MyNUID
      · rw [handleCursorEvent_self x _ _ _ _
          ((getRegionForNUID_publishGesture r x.MyNUID).trans hpub)]
        exact getRegionForNUID_trace r x.MyNUID
    · simp only [hreg, if_false]
      split
      · rfl
      · rw [handleCursorEvent_self x _ _ _ _ hpub]
  · intro hpub hkind
    have hmain : (splitEvent event).1 = "midi" := by
      rcases hkind with rfl | ⟨sub, rfl⟩
      · decide
      · rw [show ("midi_" ++ sub : String) = "midi" ++ "_" ++ sub from rfl,
          splitEvent_main "midi" sub (by decide)]
    have h1 : ("midi" : String) ≠ "cursor" := by decide
    have h2 : ("midi" : String) ≠ "sprite" := by decide
    unfold HandleSubscribedEventArgs
    simp only [NeedStringArg, hnuid, hevent, hmain, h1, h2, if_true, if_false]
    by_cases hreg : OptionalStringArg "region" args "" = ""
    · simp only [hreg, if_true]
      split
      · exact getRegionForNUID_trace r x.MyNUID
      · rw [handleMIDIEvent_self x _ _ _ _
          ((getRegionForNUID_publishMIDI r x.MyNUID).trans hpub)]
        exact getRegionForNUID_trace r x.MyNUID
    · simp only [hreg, if_false]
      split
      · rfl
      · rw [handleMIDIEvent_self x _ _ _ _ hpub]

/-! ### C3: advancing the clock -/

theorem advanceReactors_eq (oneBeat clk : Int) (hbeat : oneBeat ≠ 0) (l : List String) :
    ∀ r : Router, advanceReactors oneBeat clk l r =
      some { r with trace := r.trace ++ l.flatMap (fun region =>
        (if clk.tmod oneBeat = 0 then [Effect.reactor region .checkGestureUp] else []) ++
          [Effect.reactor region .AdvanceByOneClick]) } := by
  induction l with
  | nil => intro r; simp [advanceReactors]
  | cons region rest ih =>
    intro r
    unfold advanceReactors
    simp only [hbeat, if_false]
    rw [ih]
    by_cases hb : clk.tmod oneBeat = 0 <;> simp [hb, Router.emit, List.append_assoc]

theorem clickBlocks_succ (x : Ext) (dir : List String) (L : Int) (k : Nat) :
    clickBlocks x dir L (k + 1) = clickBlock x dir L ++ clickBlocks x dir (L + 1) k := by
  unfold clickBlocks
  rw [List.range_succ_eq_map]
  simp only [List.flatMap_cons, List.flatMap_map, Nat.cast_zero, add_zero]
  congr 1
  apply congrArg (fun f => List.flatMap (List.range k) f)
  funext i
  simp only [Function.comp, Nat.cast_succ]
  congr 1
  ring

theorem advanceLoop_eq (x : Ext) (hbeat : x.oneBeat ≠ 0) (fuel : Nat) :
    ∀ (clk : Int) (r : Router), advanceLoop x (clk + (fuel : Int)) fuel clk r =
      some { r with trace := r.trace ++ clickBlocks x r.reactors clk fuel } := by
  induction fuel with
  | zero => intro clk r; simp [advanceLoop, clickBlocks]
  | succ fuel ih =>
    intro clk r
    unfold advanceLoop
    have hlt : clk < clk + ((fuel + 1 : Nat) : Int) := by
      have : (0 : Int) < ((fuel + 1 : Nat) : Int) := by exact_mod_cast Nat.succ_pos fuel
      linarith
    simp only [hlt, if_true]
    rw [advanceReactors_eq x.oneBeat clk hbeat]
    simp only
    have hto : clk + ((fuel + 1 : Nat) : Int) = (clk + 1) + (fuel : Int) := by
      push_cast
      ring
    rw [hto, ih, clickBlocks_succ]
    simp [clickBlock, List.append_assoc]

theorem count_clickBlock (x : Ext) (dir : List String) (clk : Int) (region : String)
    (hperm : (x.rangeOrder (.advance clk) dir).Perm dir) (hnodup : dir.Nodup)
    (hmem : region ∈ dir) :
    (clickBlock x dir clk).count (.reactor region .AdvanceByOneClick) = 1 := by
  have key : ∀ l : List String,
      (l.flatMap (fun rg =>
        (if clk.tmod x.oneBeat = 0 then [Effect.reactor rg .checkGestureUp] else []) ++
          [Effect.reactor rg .AdvanceByOneClick])).count (.reactor region .AdvanceByOneClick) =
        l.count region := by
    intro l
    induction l with
    | nil => simp
    | cons a rest ih =>
      rw [List.flatMap_cons, List.count_append, ih, List.count_cons]
      by_cases hb : clk.tmod x.oneBeat = 0 <;> by_cases ha : a = region <;>
        simp [hb, ha, List.count_cons, Nat.add_comm]
  unfold clickBlock
  rw [key, hperm.count_eq]
  exact List.count_eq_one_of_mem hnodup hmem

theorem count_clickBlocks (x : Ext) (dir : List String) (L : Int) (k : Nat) (e : Effect)
    (h : ∀ i, i < k → (clickBlock x dir (L + (i : Int))).count e = 1) :
    (clickBlocks x dir L k).count e = k := by
  induction k with
  | zero => simp [clickBlocks]
  | succ k ih =>
    have hk := ih (fun i hi => h i (Nat.lt_succ_of_lt hi))
    unfold clickBlocks at hk ⊢
    rw [List.range_succ, List.flatMap_append, List.count_append, hk]
    simp [h k (Nat.lt_succ_self k)]

/-- C3: for every `lastClick` `L` and every `k`, `advanceClickTo (L + k)` returns, leaves
`lastClick` equal to `L + k`, and adds to the trace exactly the blocks of the clicks `L`,
`L + 1`, ..., `L + k - 1` in increasing order, the block of a click holding exactly one
`AdvanceByOneClick` for every Reactor of the directory; so that every Reactor is advanced
exactly `k` times. -/
theorem C3_advanceClickTo (x : Ext) (r : Router) (k : Nat) (hbeat : x.oneBeat ≠ 0)
    (hperm : ∀ clk, (x.rangeOrder (.advance clk) r.reactors).Perm r.reactors)
    (hnodup : r.reactors.Nodup) :
    advanceClickTo x r (r.lastClick + (k : Int)) =
      some { r with lastClick := r.lastClick + (k : Int),
                    trace := r.trace ++ clickBlocks x r.reactors r.lastClick k } ∧
    (∀ i, i < k → ∀ region ∈ r.reactors,
      (clickBlock x r.reactors (r.lastClick + (i : Int))).count
        (.reactor region .AdvanceByOneClick) = 1) ∧
    (∀ region ∈ r.reactors,
      (clickBlocks x r.reactors r.lastClick k).count (.reactor region .AdvanceByOneClick) = k) := by
  have hone : ∀ i, i < k → ∀ region ∈ r.reactors,
      (clickBlock x r.reactors (r.lastClick + (i : Int))).count
        (.reactor region .AdvanceByOneClick) = 1 :=
    fun i _ region hmem => count_clickBlock x r.reactors _ region (hperm _) hnodup hmem
  refine ⟨?_, hone, ?_⟩
  · unfold advanceClickTo
    have hfuel : (r.lastClick + (k : Int) - r.lastClick).toNat = k := by simp
    rw [hfuel, advanceLoop_eq x hbeat k r.lastClick r]
  · intro region hmem
    exact count_clickBlocks x r.reactors r.lastClick k _ (fun i hi => hone i hi region hmem)

/-! ### C4: decoding raw MIDI bytes -/

theorem isHexDigit_iff (c : Char) : isHexDigit c = true ↔ ∃ v, fromHexChar c = some v := by
  unfold isHexDigit fromHexChar
  by_cases h1 : '0' ≤ c ∧ c ≤ '9'
  · simp [h1]
  · by_cases h2 : 'a' ≤ c ∧ c ≤ 'f'
    · simp [h1, h2]
    · by_cases h3 : 'A' ≤ c ∧ c ≤ 'F'
      · simp [h1, h2, h3]
      · simp [h1, h2, h3]

theorem hexDecode_some (n : Nat) : ∀ (cs : List Char) (bs : List Nat),
    cs.length ≤ n → hexDecode cs = some bs →
      cs.length = 2 * bs.length ∧ ∀ c ∈ cs, isHexDigit c = true := by
  induction n with
  | zero =>
    intro cs bs hlen h
    have : cs = [] := List.length_eq_zero.mp (Nat.le_zero.mp hlen)
    subst this
    simp [hexDecode] at h
    simp [← h]
  | succ n ih =>
    intro cs bs hlen h
    match cs, h with
    | [], h =>
      simp [hexDecode] at h
      simp [← h]
    | [_], h => simp [hexDecode] at h
    | a :: b :: rest, h =>
      unfold hexDecode at h
      cases ha : fromHexChar a with
      | none => simp [ha] at h
      | some hi =>
        cases hb : fromHexChar b with
        | none => simp [ha, hb] at h
        | some lo =>
          cases hr : hexDecode rest with
          | none => simp [ha, hb, hr] at h
          | some bytes =>
            simp only [ha, hb, hr, Option.some.injEq] at h
            have hlen2 : rest.length ≤ n := by
              simp only [List.length_cons] at hlen
              omega
            obtain ⟨h1, h2⟩ := ih rest bytes hlen2 hr
            subst h
            refine ⟨by simp [h1]; omega, ?_⟩
            intro c hc
            rcases List.mem_cons.mp hc with rfl | hc
            · exact (isHexDigit_iff _).mpr ⟨hi, ha⟩
            rcases List.mem_cons.mp hc with rfl | hc
            · exact (isHexDigit_iff _).mpr ⟨lo, hb⟩
            · exact h2 c hc

theorem hexDecode_of_hex (n : Nat) : ∀ (cs : List Char),
    cs.length = 2 * n → (∀ c ∈ cs, isHexDigit c = true) →
      ∃ bs, hexDecode cs = some bs ∧ bs.length = n := by
  induction n with
  | zero =>
    intro cs hlen _
    have : cs = [] := List.length_eq_zero.mp (by simpa using hlen)
    subst this
    exact ⟨[], rfl, rfl⟩
  | succ n ih =>
    intro cs hlen hhex
    match cs, hlen, hhex with
    | [], hlen, _ => simp at hlen
    | [_], hlen, _ => simp at hlen; omega
    | a :: b :: rest, hlen, hhex =>
      obtain ⟨hi, ha⟩ := (isHexDigit_iff a).mp (hhex a (by simp))
      obtain ⟨lo, hb⟩ := (isHexDigit_iff b).mp (hhex b (by simp))
      have hlen2 : rest.length = 2 * n := by
        simp only [List.length_cons] at hlen
        omega
      obtain ⟨bs, hbs, hl⟩ := ih rest hlen2 (fun c hc => hhex c (by simp [hc]))
      exact ⟨(hi * 16 + lo) :: bs, by simp [hexDecode, ha, hb, hbs], by simp [hl]⟩

theorem makeMIDIEvent_no_time (x : Ext) (subEvent bytes : String) (args : GoMap)
    (htime : args.get "time" = none) :
    makeMIDIEvent x subEvent bytes args = makeMIDIEventBytes 0 bytes := by
  unfold makeMIDIEvent
  simp [OptionalStringArg, htime]

theorem makeMIDIEventBytes_0x (timestamp : Int) (ds : List Char) :
    makeMIDIEventBytes timestamp ("0x" ++ String.mk ds) =
      match hexDecode ds with
      | none => .error ("makeMIDIEvent: unable to decode hex bytes = " ++ ("0x" ++ String.mk ds))
      | some bytearr =>
        match bytearr with
        | [status, data1, data2] =>
          .ok { Timestamp := timestamp, Status := status, Data1 := data1, Data2 := data2 }
        | _ => .error ("makeMIDIEvent: unable to handle midi bytes len=" ++ decimal bytearr.length) := by
  have hd : ("0x" ++ String.mk ds).data = '0' :: 'x' :: ds := by
    simp [String.data_append]
  have hlen : ¬ (("0x" ++ String.mk ds).length < 2) := by
    have hl : ("0x" ++ String.mk ds).length = ("0x" ++ String.mk ds).data.length := rfl
    rw [hl, hd]
    simp
  have hsl : slice ("0x" ++ String.mk ds) 0 2 = "0x" := by
    simp [slice, hd]
  unfold makeMIDIEventBytes
  simp only [hlen, hsl, hd, List.drop_succ_cons, List.drop_zero, ne_eq, not_true_eq_false,
    or_self, if_false]

theorem starts_0x_of_slice (bytes : String)
    (hsl : slice bytes 0 2 = "0x") : bytes = "0x" ++ String.mk (bytes.data.drop 2) := by
  apply String.ext
  have h1 : (slice bytes 0 2).data = bytes.data.take 2 := by simp [slice]
  rw [hsl] at h1
  have h2 : bytes.data = bytes.data.take 2 ++ bytes.data.drop 2 := (List.take_append_drop 2 _).symm
  rw [String.data_append]
  rw [← h1] at h2
  exact h2

/-- C4: with no `time` argument, `makeMIDIEvent` succeeds exactly on `0x` followed by six
hexadecimal digits, and then status, data1 and data2 are the values of the three digit
pairs (`0x904000` gives 0x90, 0x40, 0x00); a string that does not start with `0x` gives
the `invalid bytes value` error, and `0x` followed by `2 * n` hexadecimal digits with
`n ≠ 3` gives the `unable to handle midi bytes len` error. -/
theorem C4_makeMIDIEvent (x : Ext) (subEvent : String) (args : GoMap)
    (htime : args.get "time" = none) :
    (∀ bytes : String, (∃ me, makeMIDIEvent x subEvent bytes args = .ok me) ↔
      ∃ ds : List Char, ds.length = 6 ∧ (∀ c ∈ ds, isHexDigit c = true) ∧
        bytes = "0x" ++ String.mk ds) ∧
    (∀ (a b c d e f : Char) (va vb vc vd ve vf : Nat),
      fromHexChar a = some va → fromHexChar b = some vb → fromHexChar c = some vc →
      fromHexChar d = some vd → fromHexChar e = some ve → fromHexChar f = some vf →
      makeMIDIEvent x subEvent ("0x" ++ String.mk [a, b, c, d, e, f]) args =
        .ok { Timestamp := 0, Status := va * 16 + vb, Data1 := vc * 16 + vd,
              Data2 := ve * 16 + vf }) ∧
    makeMIDIEvent x subEvent "0x904000" args =
      .ok { Timestamp := 0, Status := 0x90, Data1 := 0x40, Data2 := 0x00 } ∧
    (∀ bytes : String, (¬ ∃ rest : String, bytes = "0x" ++ rest) →
      makeMIDIEvent x subEvent bytes args =
        .error ("makeMIDIEvent: invalid bytes value - " ++ bytes)) ∧
    (∀ (ds : List Char) (n : Nat), ds.length = 2 * n → (∀ c ∈ ds, isHexDigit c = true) → n ≠ 3 →
      makeMIDIEvent x subEvent ("0x" ++ String.mk ds) args =
        .error ("makeMIDIEvent: unable to handle midi bytes len=" ++ decimal n)) ∧
    makeMIDIEvent x subEvent "0x9040" args =
      .error "makeMIDIEvent: unable to handle midi bytes len=2" := by
  have hpairs : ∀ (a b c d e f : Char) (va vb vc vd ve vf : Nat),
      fromHexChar a = some va → fromHexChar b = some vb → fromHexChar c = some vc →
      fromHexChar d = some vd → fromHexChar e = some ve → fromHexChar f = some vf →
      makeMIDIEvent x subEvent ("0x" ++ String.mk [a, b, c, d, e, f]) args =
        .ok { Timestamp := 0, Status := va * 16 + vb, Data1 := vc * 16 + vd,
              Data2 := ve * 16 + vf } := by
    intro a b c d e f va vb vc vd ve vf ha hb hc hd he hf
    rw [makeMIDIEvent_no_time x _ _ _ htime, makeMIDIEventBytes_0x]
    simp [hexDecode, ha, hb, hc, hd, he, hf]
  refine ⟨?_, hpairs, ?_, ?_, ?_, ?_⟩
  · intro bytes
    constructor
    · rintro ⟨me, hme⟩
      rw [makeMIDIEvent_no_time x _ _ _ htime] at hme
      by_cases hbad : bytes.length < 2 ∨ slice bytes 0 2 ≠ "0x"
      · simp [makeMIDIEventBytes, hbad] at hme
      · have hsl : slice bytes 0 2 = "0x" := by
          by_contra h
          exact hbad (Or.inr h)
        have hb := starts_0x_of_slice bytes hsl
        rw [hb, makeMIDIEventBytes_0x] at hme
        cases hdec : hexDecode (bytes.data.drop 2) with
        | none => simp [hdec] at hme
        | some bytearr =>
          obtain ⟨h1, h2⟩ := hexDecode_some _ _ bytearr (le_refl _) hdec
          rw [hdec] at hme
          match bytearr, hme, h1 with
          | [_, _, _], _, h1 => exact ⟨bytes.data.drop 2, by simpa using h1, h2, hb⟩
          | [], hme, _ => simp at hme
          | [_], hme, _ => simp at hme
          | [_, _], hme, _ => simp at hme
          | _ :: _ :: _ :: _ :: _, hme, _ => simp at hme
    · rintro ⟨ds, hlen, hhex, rfl⟩
      match ds, hlen, hhex with
      | [a, b, c, d, e, f], _, hhex =>
        obtain ⟨va, ha⟩ := (isHexDigit_iff a).mp (hhex a (by simp))
        obtain ⟨vb, hb⟩ := (isHexDigit_iff b).mp (hhex b (by simp))
        obtain ⟨vc, hc⟩ := (isHexDigit_iff c).mp (hhex c (by simp))
        obtain ⟨vd, hd⟩ := (isHexDigit_iff d).mp (hhex d (by simp))
        obtain ⟨ve, he⟩ := (isHexDigit_iff e).mp (hhex e (by simp))
        obtain ⟨vf, hf⟩ := (isHexDigit_iff f).mp (hhex f (by simp))
        exact ⟨_, hpairs a b c d e f va vb vc vd ve vf ha hb hc hd he hf⟩
  · rw [makeMIDIEvent_no_time x _ _ _ htime]
    rfl
  · intro bytes hno
    rw [makeMIDIEvent_no_time x _ _ _ htime]
    have hbad : bytes.length < 2 ∨ slice bytes 0 2 ≠ "0x" := by
      by_contra h
      have hsl : slice bytes 0 2 = "0x" := by
        by_contra h2
        exact h (Or.inr h2)
      exact hno ⟨_, starts_0x_of_slice bytes hsl⟩
    simp [makeMIDIEventBytes, hbad]
  · intro ds n hlen hhex hn
    rw [makeMIDIEvent_no_time x _ _ _ htime, makeMIDIEventBytes_0x]
    obtain ⟨bs, hbs, hl⟩ := hexDecode_of_hex n ds hlen hhex
    rw [hbs]
    match bs, hl with
    | [], hl => simp [← hl]
    | [_], hl => simp [← hl]
    | [_, _], hl => simp [← hl]
    | [_, _, _], hl => exact absurd hl.symm hn
    | _ :: _ :: _ :: _ :: _, hl => simp [← hl]
  · rw [makeMIDIEvent_no_time x _ _ _ htime]
    rfl

/-! ### C7: recording, saving and loading -/

theorem digitChar_plain (d : Nat) (h : d < 10) :
    Nat.digitChar d ≠ ' ' ∧ Nat.digitChar d ≠ '\n' := by
  interval_cases d <;> decide

theorem fixedDigits_plain (width : Nat) : ∀ (n : Nat) (c : Char), c ∈ fixedDigits width n →
    c ≠ ' ' ∧ c ≠ '\n' := by
  induction width with
  | zero => intro n c h; simp [fixedDigits] at h
  | succ w ih =>
    intro n c h
    simp only [fixedDigits, List.mem_append, List.mem_singleton] at h
    rcases h with h | rfl
    · exact ih _ _ h
    · exact digitChar_plain _ (Nat.mod_lt _ (by decide))

theorem decimalAux_plain (fuel : Nat) : ∀ (n : Nat) (c : Char), c ∈ decimalAux fuel n →
    c ≠ ' ' ∧ c ≠ '\n' := by
  induction fuel with
  | zero => intro n c h; simp [decimalAux] at h
  | succ f ih =>
    intro n c h
    unfold decimalAux at h
    split at h
    · rename_i hlt
      rw [List.mem_singleton] at h
      subst h
      exact digitChar_plain _ hlt
    · simp only [List.mem_append, List.mem_singleton] at h
      rcases h with h | rfl
      · exact ih _ _ h
      · exact digitChar_plain _ (Nat.mod_lt _ (by decide))

theorem fmtSeconds6_plain (us : Nat) : ' ' ∉ (fmtSeconds6 us).data ∧ '\n' ∉ (fmtSeconds6 us).data := by
  have key : ∀ c ∈ (fmtSeconds6 us).data, c ≠ ' ' ∧ c ≠ '\n' := by
    intro c hc
    simp only [fmtSeconds6, decimal, String.data_append, List.mem_append] at hc
    rcases hc with (hc | hc) | hc
    · exact decimalAux_plain _ _ _ hc
    · have : c = '.' := by simpa using hc
      subst this
      decide
    · exact fixedDigits_plain _ _ _ hc
  exact ⟨fun h => (key _ h).1 rfl, fun h => (key _ h).2 rfl⟩

theorem playbackTypes_plain (t : String) (h : t ∈ playbackTypes) :
    ' ' ∉ t.data ∧ '\n' ∉ t.data := by
  simp only [playbackTypes, List.mem_cons, List.mem_singleton, List.not_mem_nil, or_false] at h
  rcases h with rfl | rfl | rfl | rfl | rfl | rfl <;> decide

theorem recordLine_data (dt : Nat) (eventType pad method args : String) :
    (recordLine dt eventType pad method args).data =
      (fmtSeconds6 dt).data ++ ' ' :: (eventType.data ++ ' ' :: (pad.data ++ ' ' ::
        (method.data ++ ' ' :: (args.data ++ ['\n'])))) := by
  simp [recordLine, String.data_append, List.append_assoc]

theorem SplitN_recordLine (dt : Nat) (eventType pad method args : String)
    (ht : ' ' ∉ eventType.data) (hp : ' ' ∉ pad.data) (hm : ' ' ∉ method.data) :
    SplitN (recordLine dt eventType pad method args) ' ' 5 =
      [fmtSeconds6 dt, eventType, pad, method, args ++ "\n"] := by
  unfold SplitN
  rw [recordLine_data]
  rw [splitAux_first ' ' _ _ (fmtSeconds6_plain dt).1, splitAux_first ' ' _ _ ht,
    splitAux_first ' ' _ _ hp, splitAux_first ' ' _ _ hm, splitAux_zero]
  simp only [List.reverse_nil, List.nil_append, List.map_cons, List.map_nil]
  rfl

theorem readLines_line (body rest : List Char) (h : '\n' ∉ body) :
    ∀ acc : List Char, readLines acc (body ++ '\n' :: rest) =
      String.mk (acc.reverse ++ body ++ ['\n']) :: readLines [] rest := by
  induction body with
  | nil => intro acc; simp [readLines]
  | cons c cs ih =>
    intro acc
    have hc : c ≠ '\n' := fun e => h (by simp [e])
    have hcs : '\n' ∉ cs := fun e => h (List.mem_cons_of_mem _ e)
    simp [readLines, hc, ih hcs]

theorem recordLine_body (e : Recorded)
    (ht : '\n' ∉ e.eventType.data) (hp : '\n' ∉ e.pad.data) (hm : '\n' ∉ e.method.data)
    (ha : '\n' ∉ e.args.data) :
    ∃ body : List Char, '\n' ∉ body ∧
      (recordLine e.dt e.eventType e.pad e.method e.args).data = body ++ ['\n'] := by
  refine ⟨(fmtSeconds6 e.dt).data ++ ' ' :: (e.eventType.data ++ ' ' :: (e.pad.data ++ ' ' ::
        (e.method.data ++ ' ' :: e.args.data))), ?_, ?_⟩
  · have h1 := (fmtSeconds6_plain e.dt).2
    have hs : ('\n' : Char) ≠ ' ' := by decide
    simp [h1, ht, hp, hm, ha, hs]
  · rw [recordLine_data]
    simp [List.append_assoc]

theorem written_body (x : Ext) (e : Recorded) (h : Loadable x e ∨ Skipped e) :
    ∃ body : List Char, '\n' ∉ body ∧
      (recordLine e.dt e.eventType e.pad e.method e.args).data = body ++ ['\n'] := by
  rcases h with h | h
  · exact recordLine_body e (playbackTypes_plain _ h.type_ok).2 h.pad_ok.2 h.method_ok.2
      h.args_line
  · exact recordLine_body e h.type_plain.2 h.pad_ok.2 h.method_ok.2 h.args_line

theorem readLines_fileContent (x : Ext) (evs : List Recorded)
    (h : ∀ e ∈ evs, Loadable x e ∨ Skipped e) :
    readLines [] (fileContent evs).data =
      evs.map (fun e => recordLine e.dt e.eventType e.pad e.method e.args) := by
  induction evs with
  | nil => rfl
  | cons e rest ih =>
    obtain ⟨body, hb, hd⟩ := written_body x e (h e (List.mem_cons_self _ _))
    have hrest := ih (fun e' he' => h e' (List.mem_cons_of_mem _ he'))
    simp only [fileContent, String.data_append, hd, List.map_cons]
    rw [List.append_assoc, List.singleton_append, readLines_line body _ hb, hrest]
    simp only [List.reverse_nil, List.nil_append]
    rw [← hd]

theorem loadLines_recorded (x : Ext) (evs : List Recorded)
    (h : ∀ e ∈ evs, Loadable x e ∨ Skipped e) :
    loadLines x (evs.map (fun e => recordLine e.dt e.eventType e.pad e.method e.args)) =
      some (loadedOf x evs) := by
  induction evs with
  | nil => rfl
  | cons e rest ih =>
    have hrest := ih (fun e' he' => h e' (List.mem_cons_of_mem _ he'))
    simp only [List.map_cons]
    unfold loadLines
    rcases h e (List.mem_cons_self _ _) with he | he
    · obtain ⟨m, hm⟩ := he.args_ok
      simp only [SplitN_recordLine e.dt e.eventType e.pad e.method e.args
        (playbackTypes_plain _ he.type_ok).1 he.pad_ok.1 he.method_ok.1]
      simp [he.time_ok, he.type_ok, hm, hrest, expectedPlayback, loadedOf]
    · simp only [SplitN_recordLine e.dt e.eventType e.pad e.method e.args
        he.type_plain.1 he.pad_ok.1 he.method_ok.1]
      by_cases hp : x.ParseFloat (fmtSeconds6 e.dt) 64 = false
      · simp [hp, he.type_no, hrest, loadedOf]
      · simp [hp, he.type_no, hrest, loadedOf]

theorem GoMap.set_set (m : GoMap) (k v w : String) : (m.set k v).set k w = m.set k w := by
  induction m with
  | nil => simp [GoMap.set]
  | cons e rest ih =>
    obtain ⟨k', v'⟩ := e
    by_cases h : k' = k
    · simp [GoMap.set, h]
    · simp [GoMap.set, h, ih]

theorem GoMap.set_of_get_some (m : GoMap) (k c : String) (hc : m.get k = some c) :
    m.set k c = m := by
  induction m with
  | nil => simp [GoMap.get] at hc
  | cons e rest ih =>
    obtain ⟨k', v'⟩ := e
    by_cases h : k' = k
    · simp [GoMap.get, h] at hc
      simp [GoMap.set, h, hc]
    · simp only [GoMap.get, h, if_false] at hc
      simp [GoMap.set, h, ih hc]

theorem recordEvent_appends (r : Router) (dt : Nat) (eventType pad method args path c : String)
    (hon : r.recordingOn = true) (hfile : r.recordingFile = some path)
    (hc : r.files.get path = some c) (hbrace : ∃ rest, args.data = '{' :: rest) :
    recordEvent r dt eventType pad method args =
      some { r with files := r.files.set path (c ++ recordLine dt eventType pad method args) } := by
  obtain ⟨rest, hrest⟩ := hbrace
  unfold recordEvent
  simp [hon, hfile, hc, hrest]

theorem recordAll_appends (path : String) (evs : List Recorded) : ∀ (r : Router) (c : String),
    r.recordingOn = true → r.recordingFile = some path → r.files.get path = some c →
    (∀ e ∈ evs, ∃ rest, e.args.data = '{' :: rest) →
    recordAll r evs = some { r with files := r.files.set path (c ++ fileContent evs) } := by
  induction evs with
  | nil =>
    intro r c _ _ hc _
    have hcc : c ++ "" = c := by
      apply String.ext
      simp [String.data_append]
    simp [recordAll, fileContent, hcc, GoMap.set_of_get_some _ _ _ hc]
  | cons e rest ih =>
    intro r c hon hfile hc hbrace
    unfold recordAll
    rw [recordEvent_appends r e.dt e.eventType e.pad e.method e.args path c hon hfile hc
      (hbrace e (List.mem_cons_self _ _))]
    simp only
    rw [ih { r with files := r.files.set path (c ++ recordLine e.dt e.eventType e.pad e.method e.args) }
      (c ++ recordLine e.dt e.eventType e.pad e.method e.args) hon hfile
      (GoMap.get_set_self _ _ _) (fun e' he' => hbrace e' (List.mem_cons_of_mem _ he'))]
    simp [GoMap.set_set, fileContent, String.append_assoc]

theorem recordingSave_copies (x : Ext) (r : Router) (name content : String)
    (hc : r.files.get (x.recordingsFile "LastRecording.json") = some content)
    (hcreate : x.createError (x.recordingsFile (name ++ ".json")) = none)
    (hname : x.recordingsFile (name ++ ".json") ≠ x.recordingsFile "LastRecording.json") :
    (recordingSave x r name).1 = none ∧
    (recordingSave x r name).2.files.get (x.recordingsFile (name ++ ".json")) = some content := by
  unfold recordingSave
  simp only [hc, hcreate]
  refine ⟨trivial, ?_⟩
  simp only [GoMap.get_set_self, GoMap.get_set_other _ _ _ _ hname.symm, hc, Option.getD_some]

theorem recordingLoad_of_content (x : Ext) (r : Router) (name content : String)
    (hc : r.files.get (x.recordingsFile (name ++ ".json")) = some content) :
    recordingLoad x r name =
      match loadLines x (readLines [] content.data) with
      | none => none
      | some events => some (.ok events) := by
  unfold recordingLoad
  rw [hc]

/-- C7 (amended): for every sequence of events written by `recordEvent` into a fresh
`LastRecording.json`, each either of an event type that `recordingLoad` accepts (the
`global` lifecycle markers) or of another type (the `pad` lines of `recordPadAPI`), with
pad and method free of spaces and newlines and args that start with an opening brace and
hold no newline (and, for an accepted line, are read by `StringMap`): saving under a name
other than the default file and loading that name returns exactly one `PlaybackEvent` per
written line of an accepted type, in the same order, with the time as written, the same
event type, pad and method, and the args as parsed; the other lines are skipped. -/
theorem C7_round_trip_recognized (x : Ext) (r : Router) (evs : List Recorded) (name : String)
    (hon : r.recordingOn = true)
    (hfile : r.recordingFile = some (x.recordingsFile "LastRecording.json"))
    (hfresh : r.files.get (x.recordingsFile "LastRecording.json") = some "")
    (hevs : ∀ e ∈ evs, Loadable x e ∨ Skipped e)
    (hcreate : x.createError (x.recordingsFile (name ++ ".json")) = none)
    (hname : x.recordingsFile (name ++ ".json") ≠ x.recordingsFile "LastRecording.json") :
    ∃ r1, recordAll r evs = some r1 ∧
      r1.files.get (x.recordingsFile "LastRecording.json") = some (fileContent evs) ∧
      (recordingSave x r1 name).1 = none ∧
      recordingLoad x (recordingSave x r1 name).2 name =
        some (.ok ((evs.filter (fun e => decide (e.eventType ∈ playbackTypes))).map
          (expectedPlayback x))) := by
  have hbrace : ∀ e ∈ evs, ∃ rest, e.args.data = '{' :: rest := by
    intro e he
    rcases hevs e he with h | h
    · exact h.brace
    · exact h.brace
  have hall := recordAll_appends (x.recordingsFile "LastRecording.json") evs r "" hon hfile hfresh
    hbrace
  have hempty : ("" : String) ++ fileContent evs = fileContent evs := by
    apply String.ext
    simp [String.data_append]
  rw [hempty] at hall
  refine ⟨_, hall, GoMap.get_set_self _ _ _, ?_⟩
  obtain ⟨h1, h2⟩ := recordingSave_copies x
    { r with files := r.files.set (x.recordingsFile "LastRecording.json") (fileContent evs) }
    name (fileContent evs) (GoMap.get_set_self _ _ _) hcreate hname
  refine ⟨h1, ?_⟩
  rw [recordingLoad_of_content x _ name _ h2, readLines_fileContent x evs hevs,
    loadLines_recorded x evs hevs]
  rfl

/-- C7, as stated, fails for the API calls that `recordPadAPI` records: the line it writes
has the event type `pad`, which `recordingLoad` does not accept, so that in every
environment the saved copy of a recording that holds this one line loads as no event. -/
theorem C7_counterexample :
    recordLine 500000 "pad" "*" "api" "\x7b\x7d" = "0.500000 pad * api \x7b\x7d\n" ∧
    ∀ x : Ext, x.createError (x.recordingsFile ("t1" ++ ".json")) = none →
      x.recordingsFile ("t1" ++ ".json") ≠ x.recordingsFile "LastRecording.json" →
      ∃ r1, recordPadAPI (recordingRouter x) 500000 "\x7b\x7d" = some r1 ∧
        r1.files.get (x.recordingsFile "LastRecording.json") =
          some "0.500000 pad * api \x7b\x7d\n" ∧
        (recordingSave x r1 "t1").1 = none ∧
        recordingLoad x (recordingSave x r1 "t1").2 "t1" = some (.ok []) := by
  refine ⟨by decide, ?_⟩
  intro x hcreate hname
  have hrec : recordPadAPI (recordingRouter x) 500000 "\x7b\x7d" =
      some { recordingRouter x with
        files := (recordingRouter x).files.set (x.recordingsFile "LastRecording.json")
          ("" ++ recordLine 500000 "pad" "*" "api" "\x7b\x7d") } := by
    unfold recordPadAPI
    simp only [recordingRouter, if_true]
    exact recordEvent_appends _ 500000 "pad" "*" "api" "\x7b\x7d" _ "" rfl rfl
      (by simp [GoMap.get]) ⟨['}'], rfl⟩
  have hline : ("" ++ recordLine 500000 "pad" "*" "api" "\x7b\x7d" : String) =
      "0.500000 pad * api \x7b\x7d\n" := by decide
  rw [hline] at hrec
  refine ⟨_, hrec, GoMap.get_set_self _ _ _, ?_⟩
  obtain ⟨h1, h2⟩ := recordingSave_copies x
    { recordingRouter x with
        files := (recordingRouter x).files.set (x.recordingsFile "LastRecording.json")
          "0.500000 pad * api \x7b\x7d\n" }
    "t1" "0.500000 pad * api \x7b\x7d\n" (GoMap.get_set_self _ _ _) hcreate hname
  refine ⟨h1, ?_⟩
  rw [recordingLoad_of_content x _ "t1" _ h2]
  have hlines : readLines [] ("0.500000 pad * api \x7b\x7d\n" : String).data =
      ["0.500000 pad * api \x7b\x7d\n"] := by decide
  have hwords : SplitN "0.500000 pad * api \x7b\x7d\n" ' ' 5 =
      ["0.500000", "pad", "*", "api", "\x7b\x7d\n"] := by decide
  have hpad : "pad" ∉ playbackTypes := by decide
  rw [hlines]
  unfold loadLines
  simp only [hwords]
  by_cases hp : x.ParseFloat "0.500000" 64 = false
  · simp [hp, loadLines]
  · simp [hp, hpad, loadLines]

/-! ### The statements at concrete inputs -/

theorem C2_exhausted_pool_witness :
    fullRouter.regionLetters = "ABCD" ∧ "" ∉ fullRouter.reactors ∧
    "A" ∈ fullRouter.regionAssignedToNUID.values ∧ "B" ∈ fullRouter.regionAssignedToNUID.values ∧
    "C" ∈ fullRouter.regionAssignedToNUID.values ∧ "D" ∈ fullRouter.regionAssignedToNUID.values ∧
    "e" ∉ fullRouter.regionAssignedToNUID.keys ∧
    (fullRouter.getRegionForNUID "e").1 = "" ∧
    (∃ msg r1, HandleSubscribedEventArgs sampleExt fullRouter
        [("nuid", "e"), ("event", "cursor_down")] = (some msg, r1) ∧
      Contains msg "there is no region named" ∧ r1.trace = fullRouter.trace) :=
  have h := C2_exhausted_pool sampleExt fullRouter "e" rfl (by decide) (by decide) (by decide)
    (by decide) (by decide) (by decide)
  ⟨rfl, by decide, by decide, by decide, by decide, by decide, by decide, h.1,
    h.2.2 [("nuid", "e"), ("event", "cursor_down")] "cursor_down" rfl rfl rfl⟩

theorem C3_advanceClickTo_witness :
    sampleExt.oneBeat ≠ 0 ∧
    (∀ clk, (sampleExt.rangeOrder (.advance clk) (TheRouter false false).reactors).Perm
      (TheRouter false false).reactors) ∧
    (TheRouter false false).reactors.Nodup ∧
    advanceClickTo sampleExt (TheRouter false false) ((TheRouter false false).lastClick + (2 : Nat)) =
      some { TheRouter false false with
        lastClick := (TheRouter false false).lastClick + (2 : Nat),
        trace := (TheRouter false false).trace ++
          clickBlocks sampleExt (TheRouter false false).reactors (TheRouter false false).lastClick 2 } :=
  ⟨by decide, fun _ => List.Perm.refl _, by decide,
    (C3_advanceClickTo sampleExt (TheRouter false false) 2 (by decide)
      (fun _ => List.Perm.refl _) (by decide)).1⟩

theorem C4_makeMIDIEvent_witness :
    GoMap.get [("bytes", "0x904000")] "time" = none ∧
    makeMIDIEvent sampleExt "note" "0x904000" [("bytes", "0x904000")] =
      .ok { Timestamp := 0, Status := 0x90, Data1 := 0x40, Data2 := 0x00 } ∧
    makeMIDIEvent sampleExt "note" "0x9040" [("bytes", "0x904000")] =
      .error "makeMIDIEvent: unable to handle midi bytes len=2" :=
  have h := C4_makeMIDIEvent sampleExt "note" [("bytes", "0x904000")] rfl
  ⟨rfl, h.2.2.1, h.2.2.2.2.2⟩

theorem C5_echo_witness :
    StringMap sampleExt "\x7b\"value\":\"hi\"\x7d" = .ok [("value", "hi")] ∧
    ExecuteAPI sampleExt (TheRouter false false) "global.echo" "n1" "\x7b\"value\":\"hi\"\x7d" =
      some ((.str "hi", none), TheRouter false false) :=
  ⟨rfl, C5_echo sampleExt (TheRouter false false) "n1" "\x7b\"value\":\"hi\"\x7d"
    [("value", "hi")] rfl⟩

theorem C6_unknown_api_errors_witness :
    StringMap nestedExt "\x7b\x7d" = .ok [] ∧
    StringMap nestedExt "\x7b\"a\":[1]\x7d" = .error "Incomplete JSON?" ∧
    ExecuteAPI nestedExt (TheRouter false false) "noprefix" "n1" "\x7b\"a\":[1]\x7d" =
      some ((.str "\x7b \"error\": \x7b \"code\": 999, \"message\": \"Router.ExecuteAPI: Unable to interpret value - \x7b\\\"a\\\":[1]\x7d\" \x7d \x7d",
        none), TheRouter false false) ∧
    ExecuteAPI nestedExt (TheRouter false false) "noprefix" "n1" "\x7b\x7d" =
      some ((.nil, some "Router.ExecuteAPI: api=noprefix is badly formatted, needs a dot"),
        TheRouter false false) ∧
    ExecuteAPI nestedExt (TheRouter false false) "bogus.thing" "n1" "\x7b\x7d" =
      some ((.nil, some "ExecuteAPI: api=bogus.thing unknown apiprefix=bogus"),
        TheRouter false false) ∧
    ExecuteAPI nestedExt (TheRouter false false) "global.bogus" "n1" "\x7b\x7d" =
      some ((.str "", some "Router.ExecuteAPI unrecognized api=global.bogus"),
        TheRouter false false) :=
  have h := C6_unknown_api_errors nestedExt (TheRouter false false) "n1" "\x7b\x7d" [] rfl
  ⟨rfl, rfl,
    (h.2.2.2 "\x7b\"a\":[1]\x7d" "Incomplete JSON?" rfl "noprefix").trans (by decide),
    h.1 "noprefix" (by decide), h.2.1 "bogus" "thing" (by decide) (by decide) (by decide),
    h.2.2.1 "bogus" (by decide)⟩

theorem sampleSession_written : ∀ e ∈ sampleSession, Loadable sampleExt e ∨ Skipped e := by
  intro e he
  simp only [sampleSession, List.mem_cons, List.mem_singleton, List.not_mem_nil, or_false] at he
  rcases he with rfl | rfl | rfl
  · exact Or.inl ⟨by decide, by decide, by decide, ⟨['}'], rfl⟩, by decide, ⟨[], rfl⟩, by decide⟩
  · exact Or.inr ⟨by decide, by decide, by decide, by decide, ⟨_, rfl⟩, by decide⟩
  · exact Or.inl ⟨by decide, by decide, by decide, ⟨['}'], rfl⟩, by decide, ⟨[], rfl⟩, by decide⟩

theorem C7_round_trip_recognized_witness :
    (recordingRouter sampleExt).recordingOn = true ∧
    (recordingRouter sampleExt).recordingFile = some (sampleExt.recordingsFile "LastRecording.json") ∧
    (recordingRouter sampleExt).files.get (sampleExt.recordingsFile "LastRecording.json") = some "" ∧
    (∀ e ∈ sampleSession, Loadable sampleExt e ∨ Skipped e) ∧
    sampleExt.createError (sampleExt.recordingsFile ("t1" ++ ".json")) = none ∧
    sampleExt.recordingsFile ("t1" ++ ".json") ≠ sampleExt.recordingsFile "LastRecording.json" ∧
    (∃ r1, recordAll (recordingRouter sampleExt) sampleSession = some r1 ∧
      r1.files.get (sampleExt.recordingsFile "LastRecording.json") =
        some (fileContent sampleSession) ∧
      (recordingSave sampleExt r1 "t1").1 = none ∧
      recordingLoad sampleExt (recordingSave sampleExt r1 "t1").2 "t1" =
        some (.ok ((sampleSession.filter (fun e => decide (e.eventType ∈ playbackTypes))).map
          (expectedPlayback sampleExt)))) :=
  ⟨rfl, rfl, rfl, sampleSession_written, rfl, by decide,
    C7_round_trip_recognized sampleExt (recordingRouter sampleExt) sampleSession "t1" rfl rfl rfl
      sampleSession_written rfl (by decide)⟩

theorem C8_missing_nuid_witness :
    StringMap sampleExt "\x7b\"api\":\"global.echo\",\"params\":\"\x7b\x7d\"\x7d" =
      .ok [("api", "global.echo"), ("params", "\x7b\x7d")] ∧
    GoMap.get [("api", "global.echo"), ("params", "\x7b\x7d")] "api" = some "global.echo" ∧
    GoMap.get [("api", "global.echo"), ("params", "\x7b\x7d")] "nuid" = none ∧
    HandleAPIInput sampleExt (ExecuteAPI sampleExt) (TheRouter false false)
        "\x7b\"api\":\"global.echo\",\"params\":\"\x7b\x7d\"\x7d" =
      some ("\x7b \"error\": \x7b \"code\": 999, \"message\": \"Missing nuid parameter\" \x7d \x7d",
        TheRouter false false) :=
  have h := C8_missing_nuid sampleExt (ExecuteAPI sampleExt) (TheRouter false false)
    "\x7b\"api\":\"global.echo\",\"params\":\"\x7b\x7d\"\x7d" "global.echo"
    [("api", "global.echo"), ("params", "\x7b\x7d")] rfl rfl rfl
  ⟨rfl, rfl, rfl, h.1.trans (congrArg (fun s => some (s, TheRouter false false)) h.2.1)⟩

theorem C9_self_echo_dropped_witness :
    GoMap.get [("nuid", "me"), ("event", "cursor_down"), ("x", "0.5"), ("y", "0.5"), ("z", "0.1")]
      "nuid" = some sampleExt.MyNUID ∧
    GoMap.get [("nuid", "me"), ("event", "cursor_down"), ("x", "0.5"), ("y", "0.5"), ("z", "0.1")]
      "event" = some "cursor_down" ∧
    (TheRouter true false).publishGesture = true ∧
    (HandleSubscribedEventArgs sampleExt (TheRouter true false)
      [("nuid", "me"), ("event", "cursor_down"), ("x", "0.5"), ("y", "0.5"), ("z", "0.1")]).2.trace
      = (TheRouter true false).trace :=
  ⟨rfl, rfl, rfl,
    (C9_self_echo_dropped sampleExt (TheRouter true false)
      [("nuid", "me"), ("event", "cursor_down"), ("x", "0.5"), ("y", "0.5"), ("z", "0.1")]
      "cursor_down" rfl rfl).1 rfl (Or.inr ⟨"down", rfl⟩)⟩

/-! ### The embedding at work -/

/-- Without gesture publishing, the own `cursor_down` reaches the Reactor of the region
assigned to the NUID. -/
theorem cursor_delivered_when_not_publishing :
    HandleSubscribedEventArgs sampleExt (TheRouter false false)
      [("nuid", "me"), ("event", "cursor_down"), ("x", "0.5"), ("y", "0.5"), ("z", "0.1")] =
    (none, { TheRouter false false with
      regionAssignedToNUID := [("me", "A")]
      trace := [.reactor "A" (.handleGestureDeviceEvent
        { NUID := "me", Region := "A", ID := "UnspecifiedID", Timestamp := 0,
          DownDragUp := "down", X := ⟨"0.5"⟩, Y := ⟨"0.5"⟩, Z := ⟨"0.1"⟩ })] }) := by
  decide

/-- One click from click 0, a beat boundary: every Reactor is checked for a gesture-up
and advanced once. -/
theorem advance_one_click :
    advanceClickTo sampleExt (TheRouter false false) 1 =
    some { TheRouter false false with
      lastClick := 1
      trace := [.reactor "A" .checkGestureUp, .reactor "A" .AdvanceByOneClick,
                .reactor "B" .checkGestureUp, .reactor "B" .AdvanceByOneClick,
                .reactor "C" .checkGestureUp, .reactor "C" .AdvanceByOneClick,
                .reactor "D" .checkGestureUp, .reactor "D" .AdvanceByOneClick] } := by
  decide

/-- A region API call without a `region` argument goes to the Reactor of the region that
the call assigns to the NUID. -/
theorem region_api_assigned_region :
    ExecuteAPI sampleExt (TheRouter false false) "region.echo" "n1" "\x7b\x7d" =
    some ((.str "0", none), { TheRouter false false with
      regionAssignedToNUID := [("n1", "A")]
      trace := [.reactor "A" (.ExecuteAPI "echo" [] "\x7b\x7d")] }) := by
  decide

/-- The sample recording as a file, and what loading it gives: the two markers. -/
theorem sample_session_file :
    fileContent sampleSession =
      "0.000000 global * start \x7b\x7d\n0.500000 pad * api \x7b\"value\":\"hi\"\x7d\n" ++
        "1.500000 global * stop \x7b\x7d\n" ∧
    loadLines sampleExt (readLines [] (fileContent sampleSession).data) =
      some [{ time := ⟨"0.000000"⟩, eventType := "global", pad := "*", method := "start",
              args := [], rawargs := "\x7b\x7d\n" },
            { time := ⟨"1.500000"⟩, eventType := "global", pad := "*", method := "stop",
              args := [], rawargs := "\x7b\x7d\n" }] := by
  decide

/-- The session driven through the API loads as its two markers; the recorded API call
is not among the loaded events. -/
theorem sample_run_loads_markers :
    sampleRun =
      some (.ok [{ time := ⟨"0.000000"⟩, eventType := "global", pad := "*", method := "start",
                   args := [], rawargs := "\x7b\x7d\n" },
                 { time := ⟨"1.500000"⟩, eventType := "global", pad := "*", method := "stop",
                   args := [], rawargs := "\x7b\x7d\n" }]) := by
  rfl

/-! ### C11: a wake of the clock loop -/

theorem advanceClickTo_eq (x : Ext) (r : Router) (k : Nat) (hbeat : x.oneBeat ≠ 0) :
    advanceClickTo x r (r.lastClick + (k : Int)) =
      some { r with lastClick := r.lastClick + (k : Int),
                    trace := r.trace ++ clickBlocks x r.reactors r.lastClick k } := by
  unfold advanceClickTo
  have hfuel : (r.lastClick + (k : Int) - r.lastClick).toNat = k := by simp
  rw [hfuel, advanceLoop_eq x hbeat k r.lastClick r]

/-- C11 (what the code does): on a wake whose target click `newclick` exceeds
`currentClick`, the one advancement call is `advanceClickTo(currentClick)`, with the
target of the wake before: it covers the clicks from the router's `lastClick` up to the
old `currentClick`, and the router's `lastClick` after the wake is the old `currentClick`,
which is less than the target click. -/
theorem C11_wake_advances_to_previous_target (x : Ext) (s : Realtime) (newclick : Int)
    (hbeat : x.oneBeat ≠ 0) (hle : s.r.lastClick ≤ s.currentClick)
    (hnew : newclick > s.currentClick) :
    ∃ s1, StartRealtimeWake x s newclick = some s1 ∧
      s1.currentClick = newclick ∧
      s1.r.lastClick = s.currentClick ∧
      s1.r.lastClick < newclick ∧
      s1.r.trace = s.r.trace ++
        clickBlocks x s.r.reactors s.r.lastClick (s.currentClick - s.r.lastClick).toNat := by
  have hk : s.currentClick = s.r.lastClick + ((s.currentClick - s.r.lastClick).toNat : Int) := by
    rw [Int.toNat_of_nonneg (by linarith)]
    ring
  have hadv := advanceClickTo_eq x s.r (s.currentClick - s.r.lastClick).toNat hbeat
  rw [← hk] at hadv
  have h4 : x.oneBeat * 4 ≠ 0 := by
    intro h
    rcases mul_eq_zero.mp h with h | h
    · exact hbeat h
    · exact absurd h (by decide)
  unfold StartRealtimeWake
  simp only [hnew, if_true, hadv, h4, if_false]
  split
  · exact ⟨_, rfl, rfl, rfl, hnew, rfl⟩
  · exact ⟨_, rfl, rfl, rfl, hnew, rfl⟩

theorem C11_wake_advances_to_previous_target_witness :
    sampleExt.oneBeat ≠ 0 ∧
    (TheRouter false false).lastClick ≤ (0 : Int) ∧
    (5 : Int) > 0 ∧
    (∃ s1, StartRealtimeWake sampleExt ⟨TheRouter false false, 0, 0⟩ 5 = some s1 ∧
      s1.currentClick = 5 ∧ s1.r.lastClick = 0 ∧ s1.r.lastClick < 5 ∧
      s1.r.trace = (TheRouter false false).trace ++
        clickBlocks sampleExt (TheRouter false false).reactors (TheRouter false false).lastClick
          ((0 : Int) - (TheRouter false false).lastClick).toNat) :=
  ⟨by decide, by decide, by decide,
    C11_wake_advances_to_previous_target sampleExt ⟨TheRouter false false, 0, 0⟩ 5
      (by decide) (by decide) (by decide)⟩

/-- The first wake after start, with target click 5: no Reactor is advanced and the
router's `lastClick` stays 0; the wake after it, with target click 9, advances the
Reactors through the clicks 0 to 4 and leaves `lastClick` at 5. -/
theorem first_two_wakes :
    StartRealtimeWake sampleExt ⟨TheRouter false false, 0, 0⟩ 5 =
      some ⟨TheRouter false false, 5, 0⟩ ∧
    StartRealtimeWake sampleExt ⟨TheRouter false false, 5, 0⟩ 9 =
      some ⟨{ TheRouter false false with
              lastClick := 5
              trace := clickBlocks sampleExt ["A", "B", "C", "D"] 0 5 }, 9, 0⟩ := by
  decide

/-! ### C12: api names with more than one dot -/

theorem ExecuteAPI_global_unrecognized (x : Ext) (r : Router) (suffix nuid rawargs : String)
    (args : GoMap) (hargs : StringMap x rawargs = .ok args) (hs : suffix ∉ globalSuffixes) :
    ExecuteAPI x r ("global." ++ suffix) nuid rawargs =
      some ((.str "", some ("Router.ExecuteAPI unrecognized api=" ++ ("global." ++ suffix))),
        r) := by
  rw [ExecuteAPI_global x r suffix nuid rawargs args hargs]
  simp only [globalSuffixes, List.mem_cons, List.mem_singleton, not_or, List.not_mem_nil,
    not_false_eq_true, and_true] at hs
  obtain ⟨h1, h2, h3, h4, h5, h6, h7, h8, h9, h10⟩ := hs
  unfold executeGlobalAPI
  simp [h1, h2, h3, h4, h5, h6, h7, h8, h9, h10]

theorem globalSuffixes_no_dot : ∀ s ∈ globalSuffixes, '.' ∉ s.data := by
  decide

theorem ExecuteAPI_region_explicit (x : Ext) (r : Router) (suffix nuid rawargs region : String)
    (args : GoMap) (hargs : StringMap x rawargs = .ok args)
    (hreg : args.get "region" = some region) (hne : region ≠ "") :
    ExecuteAPI x r ("region." ++ suffix) nuid rawargs =
      if region ∉ r.reactors then
        some ((.nil, some ("api/event=" ++ ("region." ++ suffix) ++
          " there is no region named " ++ region)), r)
      else
        some (x.reactorExecuteAPI region suffix (args.delete "region") rawargs,
          r.emit (.reactor region (.ExecuteAPI suffix (args.delete "region") rawargs))) := by
  have hs : SplitN ("region." ++ suffix) '.' 2 = ["region", suffix] :=
    SplitN_two "region" suffix '.' (by decide)
  unfold ExecuteAPI
  rw [hargs]
  simp only [hs]
  simp [OptionalStringArg, hreg, hne]

theorem ExecuteAPI_region_assigned (x : Ext) (r : Router) (suffix nuid rawargs : String)
    (args : GoMap) (hargs : StringMap x rawargs = .ok args)
    (hreg : OptionalStringArg "region" args "" = "") :
    ExecuteAPI x r ("region." ++ suffix) nuid rawargs =
      if (r.getRegionForNUID nuid).1 ∉ (r.getRegionForNUID nuid).2.reactors then
        some ((.nil, some ("api/event=" ++ ("region." ++ suffix) ++
          " there is no region named " ++ (r.getRegionForNUID nuid).1)),
          (r.getRegionForNUID nuid).2)
      else
        some (x.reactorExecuteAPI (r.getRegionForNUID nuid).1 suffix args rawargs,
          (r.getRegionForNUID nuid).2.emit
            (.reactor (r.getRegionForNUID nuid).1 (.ExecuteAPI suffix args rawargs))) := by
  have hs : SplitN ("region." ++ suffix) '.' 2 = ["region", suffix] :=
    SplitN_two "region" suffix '.' (by decide)
  unfold ExecuteAPI
  rw [hargs]
  simp only [hs]
  simp [hreg]

theorem contains_no_region (pre region : String) :
    Contains (pre ++ " there is no region named " ++ region) "there is no region named" := by
  refine ⟨pre ++ " ", " " ++ region, ?_⟩
  apply String.ext
  simp [String.data_append]

/-- C12, as stated, fails on names with two dots: `region.a.b` is no format error, the
Reactor of the assigned region is invoked with the suffix `a.b`; and `global.echo.x`
returns the unrecognized-API error, not the format error. -/
theorem C12_counterexample :
    ExecuteAPI sampleExt (TheRouter false false) "region.a.b" "n1" "\x7b\x7d" =
      some ((.str "0", none), { TheRouter false false with
        regionAssignedToNUID := [("n1", "A")]
        trace := [.reactor "A" (.ExecuteAPI "a.b" [] "\x7b\x7d")] }) ∧
    ExecuteAPI sampleExt (TheRouter false false) "global.echo.x" "n1" "\x7b\x7d" =
      some ((.str "", some "Router.ExecuteAPI unrecognized api=global.echo.x"),
        TheRouter false false) := by
  decide

/-- C12 (amended): for every `rawargs` that `StringMap` reads, `ExecuteAPI` returns the
format error for every api name without a dot.  A name with dots is split at its
first dot, the suffix keeping the others.  `global.<suffix>` with a dot in the suffix
returns the unrecognized-API error and leaves the router as it was.  A first segment that
is neither `region` nor `global` returns the unknown-apiprefix error and leaves the router
as it was.  `region.<suffix>`, whatever dots the suffix holds, goes with that suffix to
the `ExecuteAPI` of the Reactor of the resolved region, or fails with
`there is no region named` when no Reactor is registered for it: the resolved region is
the non-empty value of a `region` argument, which is removed from the arguments handed
on, or, without a `region` argument or with an empty one, the region `getRegionForNUID`
gives the NUID, the arguments being handed on as they are.  For every `rawargs` that
`StringMap` does not read, `ExecuteAPI` returns for every api name the text of the error
response as its result, with a nil error, and leaves the router as it was. -/
theorem C12_split_at_first_dot (x : Ext) (r : Router) (nuid rawargs : String) (args : GoMap)
    (hargs : StringMap x rawargs = .ok args) :
    (∀ api : String, '.' ∉ api.data →
      ExecuteAPI x r api nuid rawargs =
        some ((.nil, some ("Router.ExecuteAPI: api=" ++ api ++ " is badly formatted, needs a dot")),
          r)) ∧
    (∀ suffix : String, '.' ∈ suffix.data →
      ExecuteAPI x r ("global." ++ suffix) nuid rawargs =
        some ((.str "", some ("Router.ExecuteAPI unrecognized api=" ++ ("global." ++ suffix))),
          r)) ∧
    (∀ first suffix : String, '.' ∉ first.data → first ≠ "region" → first ≠ "global" →
      ExecuteAPI x r (first ++ "." ++ suffix) nuid rawargs =
        some ((.nil, some ("ExecuteAPI: api=" ++ (first ++ "." ++ suffix) ++
          " unknown apiprefix=" ++ first)), r)) ∧
    (∀ suffix region : String, args.get "region" = some region → region ≠ "" →
      (region ∈ r.reactors →
        ExecuteAPI x r ("region." ++ suffix) nuid rawargs =
          some (x.reactorExecuteAPI region suffix (args.delete "region") rawargs,
            r.emit (.reactor region (.ExecuteAPI suffix (args.delete "region") rawargs)))) ∧
      (region ∉ r.reactors →
        ExecuteAPI x r ("region." ++ suffix) nuid rawargs =
          some ((.nil, some ("api/event=" ++ ("region." ++ suffix) ++
            " there is no region named " ++ region)), r))) ∧
    (∀ suffix : String, args.get "region" = none ∨ args.get "region" = some "" →
      ((r.getRegionForNUID nuid).1 ∈ (r.getRegionForNUID nuid).2.reactors →
        ExecuteAPI x r ("region." ++ suffix) nuid rawargs =
          some (x.reactorExecuteAPI (r.getRegionForNUID nuid).1 suffix args rawargs,
            (r.getRegionForNUID nuid).2.emit
              (.reactor (r.getRegionForNUID nuid).1 (.ExecuteAPI suffix args rawargs)))) ∧
      ((r.getRegionForNUID nuid).1 ∉ (r.getRegionForNUID nuid).2.reactors →
        ExecuteAPI x r ("region." ++ suffix) nuid rawargs =
          some ((.nil, some ("api/event=" ++ ("region." ++ suffix) ++
            " there is no region named " ++ (r.getRegionForNUID nuid).1)),
            (r.getRegionForNUID nuid).2))) ∧
    (∀ unread e : String, StringMap x unread = .error e → ∀ api : String,
      ExecuteAPI x r api nuid unread =
        some ((.str (ErrorResponse ("Router.ExecuteAPI: Unable to interpret value - " ++ unread)),
          none), r)) := by
  refine ⟨?_, ?_, ?_, ?_, ?_, ?_⟩
  · intro api hdot
    unfold ExecuteAPI
    rw [hargs]
    simp [SplitN_no_sep api '.' 2 hdot]
  · intro suffix hdot
    exact ExecuteAPI_global_unrecognized x r suffix nuid rawargs args hargs
      (fun hmem => globalSuffixes_no_dot suffix hmem hdot)
  · intro first suffix hdot hr hg
    have hs : SplitN (first ++ "." ++ suffix) '.' 2 = [first, suffix] :=
      SplitN_two first suffix '.' hdot
    unfold ExecuteAPI
    rw [hargs]
    simp only [hs]
    simp [hr, hg]
  · intro suffix region hreg hne
    rw [ExecuteAPI_region_explicit x r suffix nuid rawargs region args hargs hreg hne]
    constructor
    · intro hmem
      simp [hmem]
    · intro hmem
      simp [hmem]
  · intro suffix hreg
    have hopt : OptionalStringArg "region" args "" = "" := by
      rcases hreg with h | h <;> simp [OptionalStringArg, h]
    rw [ExecuteAPI_region_assigned x r suffix nuid rawargs args hargs hopt]
    constructor
    · intro hmem
      simp [hmem]
    · intro hmem
      simp [hmem]
  · intro unread e he api
    unfold ExecuteAPI
    rw [he]

theorem C12_split_at_first_dot_witness :
    StringMap nestedExt "\x7b\x7d" = .ok [] ∧
    ExecuteAPI nestedExt (TheRouter false false) "noprefix" "n1" "\x7b\x7d" =
      some ((.nil, some "Router.ExecuteAPI: api=noprefix is badly formatted, needs a dot"),
        TheRouter false false) ∧
    ExecuteAPI nestedExt (TheRouter false false) "global.echo.x" "n1" "\x7b\x7d" =
      some ((.str "", some "Router.ExecuteAPI unrecognized api=global.echo.x"),
        TheRouter false false) ∧
    ExecuteAPI nestedExt (TheRouter false false) "bogus.a.b" "n1" "\x7b\x7d" =
      some ((.nil, some "ExecuteAPI: api=bogus.a.b unknown apiprefix=bogus"),
        TheRouter false false) ∧
    ExecuteAPI nestedExt (TheRouter false false) "region.a.b" "n1" "\x7b\x7d" =
      some ((.str "0", none), { TheRouter false false with
        regionAssignedToNUID := [("n1", "A")]
        trace := [.reactor "A" (.ExecuteAPI "a.b" [] "\x7b\x7d")] }) ∧
    ExecuteAPI nestedExt fullRouter "region.a.b" "n1" "\x7b\x7d" =
      some ((.nil, some "api/event=region.a.b there is no region named "),
        { fullRouter with regionAssignedToNUID :=
            [("a", "A"), ("b", "B"), ("c", "C"), ("d", "D"), ("n1", "")] }) ∧
    ExecuteAPI nestedExt (TheRouter false false) "global.echo.x" "n1" "\x7b\"a\":[1]\x7d" =
      some ((.str (ErrorResponse
        "Router.ExecuteAPI: Unable to interpret value - \x7b\"a\":[1]\x7d"), none),
        TheRouter false false) :=
  have h := C12_split_at_first_dot nestedExt (TheRouter false false) "n1" "\x7b\x7d" [] rfl
  have hfull := C12_split_at_first_dot nestedExt fullRouter "n1" "\x7b\x7d" [] rfl
  ⟨rfl, h.1 "noprefix" (by decide), h.2.1 "echo.x" (by decide),
    h.2.2.1 "bogus" "a.b" (by decide) (by decide) (by decide),
    ((h.2.2.2.2.1 "a.b" (Or.inl rfl)).1 (by decide)).trans (by decide),
    ((hfull.2.2.2.2.1 "a.b" (Or.inl rfl)).2 (by decide)).trans (by decide),
    h.2.2.2.2.2 "\x7b\"a\":[1]\x7d" "Incomplete JSON?" rfl "global.echo.x"⟩

/-! ### C13: a required argument that is missing -/

theorem HandleAPIInput_of_result (x : Ext) (r r1 : Router) (data api nuid rawargs : String)
    (smap : GoMap) (result : Value) (hparse : StringMap x data = .ok smap)
    (hapi : smap.get "api" = some api) (hnuid : smap.get "nuid" = some nuid)
    (hparams : smap.get "params" = some rawargs)
    (hexec : ExecuteAPI x r api nuid rawargs = some ((result, none), r1)) :
    HandleAPIInput x (ExecuteAPI x) r data = some (ResultResponse x result, r1) := by
  unfold HandleAPIInput
  rw [hparse]
  simp only [hapi, hnuid, hparams, hexec]

/-- C13 (what the code does): for each global API that needs an argument, a call with an
object that lacks the argument returns the result `0` with a nil error and leaves the
router as it was: the error of `NeedStringArg`, `NeedBoolArg` or `NeedFloatArg` is held
by a variable local to the case and never reaches the returned `err`; so `HandleAPIInput`
answers with `ResultResponse` of `0`, a result and no error object. -/
theorem C13_missing_argument_returns_no_error (x : Ext) (r : Router) (nuid rawargs : String)
    (args : GoMap) (hargs : StringMap x rawargs = .ok args) :
    (args.get "file" = none →
      ExecuteAPI x r "global.midi_midifile" nuid rawargs = some ((.str "0", none), r)) ∧
    (args.get "debug" = none ∨ args.get "onoff" = none →
      ExecuteAPI x r "global.debug" nuid rawargs = some ((.str "0", none), r)) ∧
    (args.get "value" = none →
      ExecuteAPI x r "global.set_tempo_factor" nuid rawargs = some ((.str "0", none), r)) ∧
    (args.get "name" = none →
      ExecuteAPI x r "global.recordingSave" nuid rawargs = some ((.str "0", none), r)) ∧
    (args.get "name" = none →
      ExecuteAPI x r "global.recordingPlay" nuid rawargs = some ((.str "0", none), r)) ∧
    (∀ (data api : String) (smap : GoMap), StringMap x data = .ok smap →
      smap.get "api" = some api → smap.get "nuid" = some nuid →
      smap.get "params" = some rawargs →
      ExecuteAPI x r api nuid rawargs = some ((.str "0", none), r) →
      HandleAPIInput x (ExecuteAPI x) r data = some (ResultResponse x (.str "0"), r)) := by
  have hg : ∀ suffix api : String, api = "global." ++ suffix →
      ExecuteAPI x r api nuid rawargs = executeGlobalAPI x r api suffix args := by
    intro suffix api h
    rw [h]
    exact ExecuteAPI_global x r suffix nuid rawargs args hargs
  refine ⟨?_, ?_, ?_, ?_, ?_, ?_⟩
  · intro h
    rw [hg "midi_midifile" _ (by decide)]
    unfold executeGlobalAPI
    simp [NeedStringArg, h]
  · intro h
    rw [hg "debug" _ (by decide)]
    unfold executeGlobalAPI
    rcases h with h | h
    · simp [NeedStringArg, h]
    · cases hd : args.get "debug" <;> simp [NeedStringArg, NeedBoolArg, h, hd]
  · intro h
    rw [hg "set_tempo_factor" _ (by decide)]
    unfold executeGlobalAPI
    simp [NeedFloatArg, h]
  · intro h
    rw [hg "recordingSave" _ (by decide)]
    unfold executeGlobalAPI
    simp [NeedStringArg, h]
  · intro h
    rw [hg "recordingPlay" _ (by decide)]
    unfold executeGlobalAPI
    simp [NeedStringArg, h]
  · intro data api smap hparse hapi hnuid hparams hexec
    exact HandleAPIInput_of_result x r r data api nuid rawargs smap _ hparse hapi hnuid hparams
      hexec

theorem C13_missing_argument_returns_no_error_witness :
    StringMap requestExt "\x7b\x7d" = .ok [] ∧
    ExecuteAPI requestExt (TheRouter false false) "global.set_tempo_factor" "n1" "\x7b\x7d" =
      some ((.str "0", none), TheRouter false false) ∧
    HandleAPIInput requestExt (ExecuteAPI requestExt) (TheRouter false false)
        "\x7b\"api\":\"global.set_tempo_factor\",\"nuid\":\"n1\",\"params\":\"\x7b\x7d\"\x7d" =
      some ("\x7b \"result\": \"0\" \x7d", TheRouter false false) :=
  have h := C13_missing_argument_returns_no_error requestExt (TheRouter false false) "n1"
    "\x7b\x7d" [] rfl
  ⟨rfl, h.2.2.1 rfl,
    h.2.2.2.2.2
      "\x7b\"api\":\"global.set_tempo_factor\",\"nuid\":\"n1\",\"params\":\"\x7b\x7d\"\x7d"
      "global.set_tempo_factor"
      [("api", "global.set_tempo_factor"), ("nuid", "n1"), ("params", "\x7b\x7d")]
      rfl rfl rfl rfl (h.2.2.1 rfl)⟩

/-! ### C14: params that are no JSON object -/

theorem ErrorResponse_fourth (e : String) : (ErrorResponse e).data.get? 3 = some 'e' := by
  have hlit : ("\x7b \"error\": \x7b \"code\": 999, \"message\": \"" : String).data =
      '{' :: ' ' :: '"' :: 'e' :: ("rror\": \x7b \"code\": 999, \"message\": \"" : String).data := by
    decide
  simp only [ErrorResponse, String.data_append, hlit]
  rfl

theorem ResultResponse_shape (x : Ext) (v : Value) :
    ResultResponse x v = "" ∨ ∃ body, ResultResponse x v = "\x7b \"result\": " ++ body ++ " \x7d" := by
  unfold ResultResponse
  cases x.jsonMarshal v with
  | error _ => exact Or.inl rfl
  | ok bytes => exact Or.inr ⟨_, rfl⟩

theorem ResultResponse_ne_ErrorResponse (x : Ext) (v : Value) (e : String) :
    ResultResponse x v ≠ ErrorResponse e := by
  intro h
  have h4 := ErrorResponse_fourth e
  rw [← h] at h4
  rcases ResultResponse_shape x v with h0 | ⟨body, hb⟩
  · rw [h0] at h4
    exact absurd h4 (by decide)
  · have hlit : ("\x7b \"result\": " : String).data =
        '{' :: ' ' :: '"' :: 'r' :: ("esult\": " : String).data := by decide
    rw [hb] at h4
    simp only [String.data_append, hlit, List.cons_append, List.get?] at h4
    exact absurd (Option.some.inj h4) (by decide)

/-- C14 (what the code does): when the `params` of a request are not read by `StringMap`,
`ExecuteAPI` returns the text of an error object as its result, with a nil error, and
`HandleAPIInput` answers with `ResultResponse` of that text: an object with a `result`
member (or the empty string if the marshalling fails), never the error shape. -/
theorem C14_unparsable_params_answered_as_result (x : Ext) (r : Router)
    (data api nuid rawargs err : String) (smap : GoMap)
    (hparse : StringMap x data = .ok smap) (hapi : smap.get "api" = some api)
    (hnuid : smap.get "nuid" = some nuid) (hparams : smap.get "params" = some rawargs)
    (hbad : StringMap x rawargs = .error err) :
    ExecuteAPI x r api nuid rawargs =
      some ((.str (ErrorResponse ("Router.ExecuteAPI: Unable to interpret value - " ++ rawargs)),
        none), r) ∧
    HandleAPIInput x (ExecuteAPI x) r data =
      some (ResultResponse x
        (.str (ErrorResponse ("Router.ExecuteAPI: Unable to interpret value - " ++ rawargs))), r) ∧
    (∀ out, HandleAPIInput x (ExecuteAPI x) r data = some out →
      (∀ e, out.1 ≠ ErrorResponse e) ∧
      (out.1 = "" ∨ ∃ body, out.1 = "\x7b \"result\": " ++ body ++ " \x7d")) := by
  have hexec : ExecuteAPI x r api nuid rawargs =
      some ((.str (ErrorResponse ("Router.ExecuteAPI: Unable to interpret value - " ++ rawargs)),
        none), r) := by
    unfold ExecuteAPI
    rw [hbad]
  have hin := HandleAPIInput_of_result x r r data api nuid rawargs smap _ hparse hapi hnuid
    hparams hexec
  refine ⟨hexec, hin, ?_⟩
  intro out hout
  rw [hin] at hout
  cases hout
  exact ⟨fun e => ResultResponse_ne_ErrorResponse x _ e, ResultResponse_shape x _⟩

theorem C14_unparsable_params_answered_as_result_witness :
    StringMap requestExt "\x7b\"api\":\"global.echo\",\"nuid\":\"n1\",\"params\":\"oops\"\x7d" =
      .ok [("api", "global.echo"), ("nuid", "n1"), ("params", "oops")] ∧
    StringMap requestExt "oops" = .error "invalid character looking for beginning of value" ∧
    HandleAPIInput requestExt (ExecuteAPI requestExt) (TheRouter false false)
        "\x7b\"api\":\"global.echo\",\"nuid\":\"n1\",\"params\":\"oops\"\x7d" =
      some ("\x7b \"result\": \"\x7b \\\"error\\\": \x7b \\\"code\\\": 999, \\\"message\\\": " ++
        "\\\"Router.ExecuteAPI: Unable to interpret value - oops\\\" \x7d \x7d\" \x7d",
        TheRouter false false) :=
  have h := C14_unparsable_params_answered_as_result requestExt (TheRouter false false)
    "\x7b\"api\":\"global.echo\",\"nuid\":\"n1\",\"params\":\"oops\"\x7d" "global.echo" "n1" "oops"
    "invalid character looking for beginning of value"
    [("api", "global.echo"), ("nuid", "n1"), ("params", "oops")] rfl rfl rfl rfl rfl
  ⟨rfl, rfl, h.2.1.trans (by decide)⟩

/-! ### C15: escaping the error message -/

theorem ReplaceAll_data (s : String) (old : Char) (new : String) :
    (ReplaceAll s old new).data = s.data.flatMap (fun c => if c = old then new.data else [c]) :=
  rfl

theorem escape_one (c : Char) :
    (((((([c].flatMap (fun c => if c = '\\' then ("\\\\" : String).data else [c])).flatMap
      (fun c => if c = Char.ofNat 8 then ("\\b" : String).data else [c])).flatMap
      (fun c => if c = Char.ofNat 12 then ("\\f" : String).data else [c])).flatMap
      (fun c => if c = '\n' then ("\\n" : String).data else [c])).flatMap
      (fun c => if c = '\r' then ("\\r" : String).data else [c])).flatMap
      (fun c => if c = '\t' then ("\\t" : String).data else [c])).flatMap
      (fun c => if c = '"' then ("\\\"" : String).data else [c]) = escapeChar c := by
  unfold escapeChar
  by_cases h1 : c = '\\'
  · subst h1; decide
  by_cases h2 : c = Char.ofNat 8
  · subst h2; decide
  by_cases h3 : c = Char.ofNat 12
  · subst h3; decide
  by_cases h4 : c = '\n'
  · subst h4; decide
  by_cases h5 : c = '\r'
  · subst h5; decide
  by_cases h6 : c = '\t'
  · subst h6; decide
  by_cases h7 : c = '"'
  · subst h7; decide
  simp [h1, h2, h3, h4, h5, h6, h7]

/-- The seven replacements of `jsonEscape` amount to one pass that writes `escapeChar`
for every character. -/
theorem jsonEscape_data (s : String) : (jsonEscape s).data = s.data.flatMap escapeChar := by
  unfold jsonEscape
  simp only [ReplaceAll_data]
  induction s.data with
  | nil => rfl
  | cons c l ih =>
    have hc := escape_one c
    simp only [List.flatMap_cons, List.flatMap_append, List.flatMap_nil, List.append_nil] at hc ih ⊢
    rw [ih, hc]

theorem jsonStringBody_escaped (strict : Bool) (c d : Char) (rest tl : List Char)
    (he : escapeChar c = ['\\', d]) (hu : unescapeChar d = some c)
    (ih : jsonStringBody strict rest = some tl) :
    jsonStringBody strict (escapeChar c ++ rest) = some (c :: tl) := by
  rw [he]
  simp [jsonStringBody, hu, ih]

theorem jsonStringBody_escape (strict : Bool) (l : List Char)
    (h : strict = true → ∀ c ∈ l, c.toNat < 32 →
      c = Char.ofNat 8 ∨ c = Char.ofNat 12 ∨ c = '\n' ∨ c = '\r' ∨ c = '\t') :
    jsonStringBody strict (l.flatMap escapeChar) = some l := by
  induction l with
  | nil => rfl
  | cons c l ih =>
    have ihl := ih (fun hs d hd => h hs d (List.mem_cons_of_mem _ hd))
    rw [List.flatMap_cons]
    by_cases h1 : c = '\\'
    · subst h1; exact jsonStringBody_escaped strict _ '\\' _ _ (by decide) (by decide) ihl
    by_cases h2 : c = Char.ofNat 8
    · subst h2; exact jsonStringBody_escaped strict _ 'b' _ _ (by decide) (by decide) ihl
    by_cases h3 : c = Char.ofNat 12
    · subst h3; exact jsonStringBody_escaped strict _ 'f' _ _ (by decide) (by decide) ihl
    by_cases h4 : c = '\n'
    · subst h4; exact jsonStringBody_escaped strict _ 'n' _ _ (by decide) (by decide) ihl
    by_cases h5 : c = '\r'
    · subst h5; exact jsonStringBody_escaped strict _ 'r' _ _ (by decide) (by decide) ihl
    by_cases h6 : c = '\t'
    · subst h6; exact jsonStringBody_escaped strict _ 't' _ _ (by decide) (by decide) ihl
    by_cases h7 : c = '"'
    · subst h7; exact jsonStringBody_escaped strict _ '"' _ _ (by decide) (by decide) ihl
    have hctl : ¬ (strict = true ∧ c.toNat < 32) := by
      rintro ⟨hs, hlt⟩
      rcases h hs c (List.mem_cons_self _ _) hlt with e | e | e | e | e
      · exact h2 e
      · exact h3 e
      · exact h4 e
      · exact h5 e
      · exact h6 e
    have he : escapeChar c = [c] := by simp [escapeChar, h1, h2, h3, h4, h5, h6, h7]
    rw [he, List.singleton_append]
    unfold jsonStringBody
    simp only [h1, h7, hctl, if_false, or_self, ihl]

/-- C15 (what the code does): `jsonEscape` leaves a control character other than
backspace, form feed, newline, carriage return and tab as it is: for the message that is
the one character U+0001 the escaped text is that raw character, so that the message of
the error object is no JSON string literal.  What the claim says holds for every message
without such a character; and for every message the quotes and backslashes are escaped
and un-escaping gives the message back. -/
theorem C15_jsonEscape_leaves_control_characters :
    jsonEscape (String.singleton (Char.ofNat 1)) = String.singleton (Char.ofNat 1) ∧
    ErrorResponse (String.singleton (Char.ofNat 1)) =
      "\x7b \"error\": \x7b \"code\": 999, \"message\": \"" ++ String.singleton (Char.ofNat 1) ++
        "\" \x7d \x7d" ∧
    jsonStringBody true (jsonEscape (String.singleton (Char.ofNat 1))).data = none ∧
    (∀ s : String, jsonStringBody false (jsonEscape s).data = some s.data) ∧
    (∀ s : String,
      (∀ c ∈ s.data, c.toNat < 32 →
        c = Char.ofNat 8 ∨ c = Char.ofNat 12 ∨ c = '\n' ∨ c = '\r' ∨ c = '\t') →
      jsonStringBody true (jsonEscape s).data = some s.data) := by
  refine ⟨by decide, by decide, by decide, ?_, ?_⟩
  · intro s
    rw [jsonEscape_data]
    exact jsonStringBody_escape false s.data (fun h => absurd h (by decide))
  · intro s hs
    rw [jsonEscape_data]
    exact jsonStringBody_escape true s.data (fun _ => hs)

/-! ### C16: loading any file -/

theorem splitAux_length (sep : Char) (n : Nat) : ∀ (cs acc : List Char),
    (splitAux sep n acc cs).length ≤ n + 1 := by
  induction n with
  | zero =>
    intro cs acc
    cases cs <;> simp [splitAux]
  | succ n ih =>
    intro cs
    induction cs with
    | nil => intro acc; simp [splitAux]
    | cons c cs ihc =>
      intro acc
      unfold splitAux
      split
      · simp only [List.length_cons]
        have := ih cs []
        omega
      · exact ihc (c :: acc)

theorem SplitN_five_length (line : String) : (SplitN line ' ' 5).length ≤ 5 := by
  unfold SplitN
  rw [List.length_map]
  exact splitAux_length ' ' 4 line.data []

/-- The loop of `recordingLoad`, line by line: it panics on a line of four fields with a
time that parses and an accepted type, and otherwise keeps the valid lines, in order. -/
theorem loadLines_cons (x : Ext) (line : String) (rest : List String) :
    loadLines x (line :: rest) =
      if faultLine x line = true then none
      else
        match validLine x line, loadLines x rest with
        | _, none => none
        | some pe, some events => some (pe :: events)
        | none, some events => some events := by
  have h5 := SplitN_five_length line
  rw [loadLines]
  unfold faultLine validLine
  generalize SplitN line ' ' 5 = words at h5 ⊢
  by_cases hlen : words.length < 4
  · have h4 : ¬ words.length = 4 := by omega
    have h5' : ¬ 5 ≤ words.length := by omega
    simp only [hlen, if_true, h4, h5', decide_False, Bool.false_and, false_and, if_false]
    cases loadLines x rest <;> simp
  · by_cases hp : x.ParseFloat (words.getD 0 "") 64 = false
    · simp only [hlen, if_false, hp, if_true, Bool.and_false, Bool.false_and]
      cases loadLines x rest <;> simp
    · have hp' : x.ParseFloat (words.getD 0 "") 64 = true := by simpa using hp
      by_cases ht : words.getD 1 "" ∈ playbackTypes
      · by_cases h4 : words.length = 4
        · have hget : words.get? 4 = none := by
            rw [List.get?_eq_none]
            omega
          simp only [hlen, if_false, hp', ht, h4, hget, decide_True, Bool.and_true,
            Bool.true_and, if_true]
          rfl
        · have hlen5 : words.length = 5 := by omega
          obtain ⟨w, hw⟩ : ∃ w, words.get? 4 = some w := by
            cases hg : words.get? 4 with
            | none =>
              rw [List.get?_eq_none] at hg
              omega
            | some w => exact ⟨w, rfl⟩
          have hgetD : words.getD 4 "" = w := by
            simp only [List.getD, ← List.get?_eq_getElem?, hw, Option.getD_some]
          simp only [hlen, if_false, hp', ht, decide_True, Bool.and_true, h4, decide_False,
            Bool.false_and, hlen5, le_refl, and_self, if_true, hw, hgetD]
          cases StringMap x w with
          | error e => cases loadLines x rest <;> simp
          | ok args => cases loadLines x rest <;> simp
      · have h5' : ¬ (5 ≤ words.length ∧ x.ParseFloat (words.getD 0 "") 64 = true ∧
            words.getD 1 "" ∈ playbackTypes) := fun h => ht h.2.2
        simp only [hlen, if_false, hp', ht, decide_False, Bool.and_false, h5']
        cases loadLines x rest <;> simp

theorem loadLines_eq (x : Ext) (lines : List String) :
    loadLines x lines =
      if lines.any (faultLine x) = true then none else some (lines.filterMap (validLine x)) := by
  induction lines with
  | nil => rfl
  | cons line rest ih =>
    rw [loadLines_cons, ih]
    by_cases hf : faultLine x line = true
    · simp [hf]
    · by_cases hr : rest.any (faultLine x) = true
      · simp only [hf, if_false, hr, if_true, List.any_cons, Bool.or_true]
        cases validLine x line <;> rfl
      · have hf' : faultLine x line = false := by simpa using hf
        have hr' : rest.any (faultLine x) = false := by simpa using hr
        simp only [hf, if_false, hr, List.any_cons, hf', hr', Bool.or_self]
        cases hv : validLine x line with
        | none => simp [List.filterMap_cons, hv]
        | some pe => simp [List.filterMap_cons, hv]

/-- C16 (what the code does): `recordingLoad` panics on a file with a line of exactly four
fields whose time parses and whose event type is an accepted one: `words[4]` is read
although `words` has four elements.  On a file without such a line it returns exactly the
valid lines as events, in file order, and skips the others. -/
theorem C16_four_field_line_panics (x : Ext) (r : Router) (name content : String)
    (hfile : r.files.get (x.recordingsFile (name ++ ".json")) = some content) :
    ((readLines [] content.data).any (faultLine x) = true → recordingLoad x r name = none) ∧
    ((readLines [] content.data).any (faultLine x) = false →
      recordingLoad x r name =
        some (.ok ((readLines [] content.data).filterMap (validLine x)))) := by
  rw [recordingLoad_of_content x r name content hfile, loadLines_eq]
  constructor
  · intro h
    simp [h]
  · intro h
    simp [h]

theorem C16_four_field_line_panics_witness :
    fourFieldRouter.files.get (sampleExt.recordingsFile ("t1" ++ ".json")) =
      some "1.0 global * start\n" ∧
    readLines [] ("1.0 global * start\n" : String).data = ["1.0 global * start\n"] ∧
    SplitN "1.0 global * start\n" ' ' 5 = ["1.0", "global", "*", "start\n"] ∧
    (readLines [] ("1.0 global * start\n" : String).data).any (faultLine sampleExt) = true ∧
    recordingLoad sampleExt fourFieldRouter "t1" = none :=
  ⟨rfl, by decide, by decide, by decide,
    (C16_four_field_line_panics sampleExt fourFieldRouter "t1" "1.0 global * start\n" rfl).1
      (by decide)⟩

/-! ### C17: args that do not begin with a brace -/

/-- C17 (what the code does): with recording on and the file open, `recordEvent` with the
empty string as args panics on `args[0]`.  For every non-empty args that does not begin
with an opening brace it returns and changes nothing, and whenever it returns with the
router changed, recording is on, the file is open and args begins with an opening
brace. -/
theorem C17_empty_args_panics (r : Router) (dt : Nat) (eventType pad method path : String)
    (hon : r.recordingOn = true) (hfile : r.recordingFile = some path) :
    recordEvent r dt eventType pad method "" = none ∧
    (∀ (c : Char) (rest : List Char), c ≠ '{' →
      recordEvent r dt eventType pad method (String.mk (c :: rest)) = some r) ∧
    (∀ (r0 r1 : Router) (args : String), recordEvent r0 dt eventType pad method args = some r1 →
      r1 ≠ r0 →
      r0.recordingOn = true ∧ r0.recordingFile ≠ none ∧ ∃ rest, args.data = '{' :: rest) := by
  refine ⟨?_, ?_, ?_⟩
  · unfold recordEvent
    simp [hon, hfile]
  · intro c rest hc
    unfold recordEvent
    simp [hon, hfile, hc]
  · intro r0 r1 args h hne
    unfold recordEvent at h
    by_cases hon0 : r0.recordingOn = false
    · simp only [hon0, if_true, Option.some.injEq] at h
      exact absurd h.symm hne
    · have hon1 : r0.recordingOn = true := by simpa using hon0
      cases hf : r0.recordingFile with
      | none =>
        simp [hon1, hf] at h
        exact absurd h.symm hne
      | some p =>
        cases hd : args.data with
        | nil => simp [hon1, hf, hd] at h
        | cons c rest =>
          by_cases hc : c = '{'
          · subst hc
            exact ⟨hon1, by simp, rest, rfl⟩
          · simp [hon1, hf, hd, hc] at h
            exact absurd h.symm hne

theorem C17_empty_args_panics_witness :
    (recordingRouter sampleExt).recordingOn = true ∧
    (recordingRouter sampleExt).recordingFile = some "recordings/LastRecording.json" ∧
    recordEvent (recordingRouter sampleExt) 0 "global" "*" "start" "" = none :=
  ⟨rfl, rfl,
    (C17_empty_args_panics (recordingRouter sampleExt) 0 "global" "*" "start"
      "recordings/LastRecording.json" rfl rfl).1⟩

/-! ### C18: an explicit region -/

theorem extends_refl (r : Router) : Extends r r [] := by
  cases r
  simp [Extends]

theorem extends_emit (r : Router) (e : Effect) : Extends r (r.emit e) [e] := rfl

theorem extends_emit_of (r r1 : Router) (added : List Effect) (e : Effect)
    (h : Extends r r1 added) : Extends r (r1.emit e) (added ++ [e]) := by
  unfold Extends at h ⊢
  rw [h]
  simp [Router.emit, List.append_assoc]

theorem targetsOnly_nil (region : String) : TargetsOnly region [] := by
  intro e he
  simp at he

theorem targetsOnly_append (region : String) (l1 l2 : List Effect)
    (h1 : TargetsOnly region l1) (h2 : TargetsOnly region l2) : TargetsOnly region (l1 ++ l2) := by
  intro e he
  rcases List.mem_append.mp he with h | h
  · exact h1 e h
  · exact h2 e h

theorem targetsOnly_reactor (region : String) (op : ReactorOp) :
    TargetsOnly region [.reactor region op] := by
  intro e he rg op2 h
  rw [List.mem_singleton] at he
  rw [he] at h
  cases h
  rfl

theorem targetsOnly_other (region : String) (e : Effect) (h : ∀ rg op, e ≠ .reactor rg op) :
    TargetsOnly region [e] := by
  intro e2 he rg op h2
  rw [List.mem_singleton] at he
  rw [he] at h2
  exact absurd h2 (h rg op)

theorem handleCursorEvent_targets (x : Ext) (r : Router) (nuid region subEvent : String)
    (args : GoMap) :
    ∃ added, Extends r (handleCursorEvent x r nuid region subEvent args).2 added ∧
      TargetsOnly region added := by
  unfold handleCursorEvent
  split
  · exact ⟨[], extends_refl r, targetsOnly_nil _⟩
  · split
    · exact ⟨[], extends_refl r, targetsOnly_nil _⟩
    · split
      · exact ⟨[], extends_refl r, targetsOnly_nil _⟩
      · by_cases hp : r.publishGesture = true
        · simp only [hp, if_true]
          exact ⟨_, extends_emit_of _ _ _ _ (extends_emit r _),
            targetsOnly_append _ _ _ (targetsOnly_other _ _ (by intro rg op h; cases h))
              (targetsOnly_reactor _ _)⟩
        · simp only [hp, if_false]
          exact ⟨_, extends_emit r _, targetsOnly_reactor _ _⟩

theorem handleSpriteEvent_targets (x : Ext) (r : Router) (region : String) (args : GoMap) :
    ∃ added, Extends r (handleSpriteEvent x r region args).2 added ∧
      TargetsOnly region added := by
  unfold handleSpriteEvent
  split
  · exact ⟨[], extends_refl r, targetsOnly_nil _⟩
  · exact ⟨_, extends_emit r _, targetsOnly_reactor _ _⟩

theorem handleMIDIEvent_targets (x : Ext) (r : Router) (nuid region subEvent : String)
    (args : GoMap) :
    ∃ added, Extends r (handleMIDIEvent x r nuid region subEvent args).2 added ∧
      TargetsOnly region added := by
  unfold handleMIDIEvent
  split
  · exact ⟨[], extends_refl r, targetsOnly_nil _⟩
  · split
    · exact ⟨_, extends_emit_of _ _ _ _ (extends_emit r _),
        targetsOnly_append _ _ _ (targetsOnly_reactor _ _) (targetsOnly_reactor _ _)⟩
    · split
      · exact ⟨_, extends_emit r _, targetsOnly_other _ _ (by intro rg op h; cases h)⟩
      · split
        · exact ⟨[], extends_refl r, targetsOnly_nil _⟩
        · split
          · exact ⟨[], extends_refl r, targetsOnly_nil _⟩
          · exact ⟨_, extends_emit r _, targetsOnly_reactor _ _⟩

theorem GoMap.get_delete_self (m : GoMap) (k : String) : (m.delete k).get k = none := by
  induction m with
  | nil => rfl
  | cons e rest ih =>
    obtain ⟨k', v'⟩ := e
    by_cases h : k' = k
    · simp [GoMap.delete, h] at ih ⊢
      exact ih
    · simp [GoMap.delete, h, GoMap.get] at ih ⊢
      exact ih

theorem HandleSubscribedEventArgs_explicit (x : Ext) (r : Router) (args : GoMap)
    (nuid event region : String) (hnuid : args.get "nuid" = some nuid)
    (hevent : args.get "event" = some event) (hreg : args.get "region" = some region)
    (hne : region ≠ "") :
    HandleSubscribedEventArgs x r args =
      if region ∉ r.reactors then (some ("there is no region named " ++ region), r)
      else if (splitEvent event).1 = "cursor" then
        handleCursorEvent x r nuid region (splitEvent event).2 (args.delete "region")
      else if (splitEvent event).1 = "sprite" then
        handleSpriteEvent x r region (args.delete "region")
      else if (splitEvent event).1 = "midi" then
        handleMIDIEvent x r nuid region (splitEvent event).2 (args.delete "region")
      else (none, r) := by
  unfold HandleSubscribedEventArgs
  simp only [NeedStringArg, hnuid, hevent, OptionalStringArg, hreg, hne, if_false]

/-- C18, as stated, fails for a `region` key whose value is the empty string: the value
is taken as absent, so the region comes from the NUID, the assignment table gains an
entry, and `ExecuteAPI` hands the arguments to the Reactor with the `region` key still
among them. -/
theorem C18_counterexample :
    GoMap.get [("nuid", "n1"), ("event", "sprite"), ("region", ""), ("x", "0.5"), ("y", "0.5"),
      ("z", "0.1")] "region" = some "" ∧
    HandleSubscribedEventArgs sampleExt (TheRouter false false)
      [("nuid", "n1"), ("event", "sprite"), ("region", ""), ("x", "0.5"), ("y", "0.5"),
        ("z", "0.1")] =
      (none, { TheRouter false false with
        regionAssignedToNUID := [("n1", "A")]
        trace := [.reactor "A" (.generateSprite "dummy" ⟨"0.5"⟩ ⟨"0.5"⟩ ⟨"0.1"⟩)] }) ∧
    StringMap requestExt "\x7b\"region\":\"\"\x7d" = .ok [("region", "")] ∧
    ExecuteAPI requestExt (TheRouter false false) "region.echo" "n1" "\x7b\"region\":\"\"\x7d" =
      some ((.str "0", none), { TheRouter false false with
        regionAssignedToNUID := [("n1", "A")]
        trace := [.reactor "A" (.ExecuteAPI "echo" [("region", "")] "\x7b\"region\":\"\"\x7d")] }) := by
  refine ⟨by decide, by decide, rfl, by decide⟩

theorem HandleSubscribedEventArgs_assigned (x : Ext) (r : Router) (args : GoMap)
    (nuid event : String) (hnuid : args.get "nuid" = some nuid)
    (hevent : args.get "event" = some event)
    (hreg : OptionalStringArg "region" args "" = "") :
    HandleSubscribedEventArgs x r args =
      if (r.getRegionForNUID nuid).1 ∉ (r.getRegionForNUID nuid).2.reactors then
        (some ("there is no region named " ++ (r.getRegionForNUID nuid).1),
          (r.getRegionForNUID nuid).2)
      else if (splitEvent event).1 = "cursor" then
        handleCursorEvent x (r.getRegionForNUID nuid).2 nuid (r.getRegionForNUID nuid).1
          (splitEvent event).2 args
      else if (splitEvent event).1 = "sprite" then
        handleSpriteEvent x (r.getRegionForNUID nuid).2 (r.getRegionForNUID nuid).1 args
      else if (splitEvent event).1 = "midi" then
        handleMIDIEvent x (r.getRegionForNUID nuid).2 nuid (r.getRegionForNUID nuid).1
          (splitEvent event).2 args
      else (none, (r.getRegionForNUID nuid).2) := by
  unfold HandleSubscribedEventArgs
  simp only [NeedStringArg, hnuid, hevent, hreg, if_true]

theorem handlers_target (x : Ext) (r : Router) (nuid region event : String) (args : GoMap) :
    ∃ added, Extends r
        (if region ∉ r.reactors then (some ("there is no region named " ++ region), r)
         else if (splitEvent event).1 = "cursor" then
           handleCursorEvent x r nuid region (splitEvent event).2 args
         else if (splitEvent event).1 = "sprite" then handleSpriteEvent x r region args
         else if (splitEvent event).1 = "midi" then
           handleMIDIEvent x r nuid region (splitEvent event).2 args
         else (none, r)).2 added ∧
      TargetsOnly region added := by
  split
  · exact ⟨[], extends_refl r, targetsOnly_nil _⟩
  · split
    · exact handleCursorEvent_targets x r nuid region _ _
    · split
      · exact handleSpriteEvent_targets x r region _
      · split
        · exact handleMIDIEvent_targets x r nuid region _ _
        · exact ⟨[], extends_refl r, targetsOnly_nil _⟩

/-- C18 (amended): for every call of `HandleSubscribedEventArgs` whose arguments hold a
`nuid` and an `event`, and of `ExecuteAPI` with prefix `region` whose `rawargs`
`StringMap` reads, with a `region` key among the arguments.  If the value of the key is
not empty: the call fails with `there is no region named` if no Reactor is registered for
the value, and otherwise every Reactor operation of the call goes to the Reactor
registered for it; the NUID assignment table (and all of the router but the trace) is
left unchanged; and the key is removed: the argument set that `ExecuteAPI` passes on to
the Reactor is the given one without the `region` key, and `HandleSubscribedEventArgs`,
which passes no argument set to a Reactor, leaves its caller a map without the key.  If
the value is the empty string the key counts as absent: the region is the one
`getRegionForNUID` gives the NUID, and the router, table included, is the one that call
leaves (so the table gains the NUID when it is new); the call fails with
`there is no region named` if no Reactor is registered for that region, and otherwise
every Reactor operation goes to its Reactor; and the key is not removed:
`ExecuteAPI` passes the arguments on as they are, the `region` key among them, and
`HandleSubscribedEventArgs` leaves its caller the map unchanged. -/
theorem C18_explicit_region (x : Ext) (r : Router) (args : GoMap) (region : String)
    (hreg : args.get "region" = some region) :
    (region ≠ "" →
      (∀ nuid event : String, args.get "nuid" = some nuid → args.get "event" = some event →
        (region ∉ r.reactors →
          HandleSubscribedEventArgs x r args =
            (some ("there is no region named " ++ region), r)) ∧
        (∃ added, Extends r (HandleSubscribedEventArgs x r args).2 added ∧
          TargetsOnly region added) ∧
        (HandleSubscribedEventArgs x r args).2.regionAssignedToNUID = r.regionAssignedToNUID ∧
        subscribedArgsAfter args = args.delete "region") ∧
      (∀ suffix nuid rawargs : String, StringMap x rawargs = .ok args →
        (region ∉ r.reactors →
          ∃ msg, ExecuteAPI x r ("region." ++ suffix) nuid rawargs = some ((.nil, some msg), r) ∧
            Contains msg "there is no region named") ∧
        (region ∈ r.reactors →
          ExecuteAPI x r ("region." ++ suffix) nuid rawargs =
            some (x.reactorExecuteAPI region suffix (args.delete "region") rawargs,
              r.emit (.reactor region (.ExecuteAPI suffix (args.delete "region") rawargs)))) ∧
        (∀ out, ExecuteAPI x r ("region." ++ suffix) nuid rawargs = some out →
          out.2.regionAssignedToNUID = r.regionAssignedToNUID)) ∧
      (args.delete "region").get "region" = none) ∧
    (region = "" →
      (∀ nuid event : String, args.get "nuid" = some nuid → args.get "event" = some event →
        ((r.getRegionForNUID nuid).1 ∉ (r.getRegionForNUID nuid).2.reactors →
          HandleSubscribedEventArgs x r args =
            (some ("there is no region named " ++ (r.getRegionForNUID nuid).1),
              (r.getRegionForNUID nuid).2)) ∧
        (∃ added, Extends (r.getRegionForNUID nuid).2 (HandleSubscribedEventArgs x r args).2 added ∧
          TargetsOnly (r.getRegionForNUID nuid).1 added) ∧
        (HandleSubscribedEventArgs x r args).2.regionAssignedToNUID =
          (r.getRegionForNUID nuid).2.regionAssignedToNUID ∧
        subscribedArgsAfter args = args) ∧
      (∀ suffix nuid rawargs : String, StringMap x rawargs = .ok args →
        ((r.getRegionForNUID nuid).1 ∉ (r.getRegionForNUID nuid).2.reactors →
          ∃ msg, ExecuteAPI x r ("region." ++ suffix) nuid rawargs =
              some ((.nil, some msg), (r.getRegionForNUID nuid).2) ∧
            Contains msg "there is no region named") ∧
        ((r.getRegionForNUID nuid).1 ∈ (r.getRegionForNUID nuid).2.reactors →
          ExecuteAPI x r ("region." ++ suffix) nuid rawargs =
            some (x.reactorExecuteAPI (r.getRegionForNUID nuid).1 suffix args rawargs,
              (r.getRegionForNUID nuid).2.emit
                (.reactor (r.getRegionForNUID nuid).1 (.ExecuteAPI suffix args rawargs)))) ∧
        (∀ out, ExecuteAPI x r ("region." ++ suffix) nuid rawargs = some out →
          out.2.regionAssignedToNUID = (r.getRegionForNUID nuid).2.regionAssignedToNUID)) ∧
      args.get "region" = some "") := by
  constructor
  · intro hne
    refine ⟨?_, ?_, GoMap.get_delete_self _ _⟩
    · intro nuid event hnuid hevent
      have heq := HandleSubscribedEventArgs_explicit x r args nuid event region hnuid hevent hreg hne
      have hadded : ∃ added, Extends r (HandleSubscribedEventArgs x r args).2 added ∧
          TargetsOnly region added := by
        rw [heq]
        exact handlers_target x r nuid region event _
      refine ⟨?_, hadded, ?_, ?_⟩
      · intro hno
        rw [heq]
        simp [hno]
      · obtain ⟨added, hext, _⟩ := hadded
        unfold Extends at hext
        rw [hext]
      · unfold subscribedArgsAfter
        simp [NeedStringArg, hnuid, hevent, OptionalStringArg, hreg, hne]
    · intro suffix nuid rawargs hargs
      have heq := ExecuteAPI_region_explicit x r suffix nuid rawargs region args hargs hreg hne
      refine ⟨?_, ?_, ?_⟩
      · intro hno
        rw [heq]
        simp only [hno, not_false_eq_true, if_true]
        exact ⟨_, rfl, contains_no_region _ _⟩
      · intro hmem
        rw [heq]
        simp [hmem]
      · intro out hout
        rw [heq] at hout
        by_cases hmem : region ∈ r.reactors
        · simp only [hmem, not_true_eq_false, if_false, Option.some.injEq] at hout
          rw [← hout]
          rfl
        · simp only [hmem, not_false_eq_true, if_true, Option.some.injEq] at hout
          rw [← hout]
  · intro hempty
    have hopt : OptionalStringArg "region" args "" = "" := by
      simp [OptionalStringArg, hreg, hempty]
    refine ⟨?_, ?_, hempty ▸ hreg⟩
    · intro nuid event hnuid hevent
      have heq := HandleSubscribedEventArgs_assigned x r args nuid event hnuid hevent hopt
      have hadded : ∃ added,
          Extends (r.getRegionForNUID nuid).2 (HandleSubscribedEventArgs x r args).2 added ∧
          TargetsOnly (r.getRegionForNUID nuid).1 added := by
        rw [heq]
        exact handlers_target x _ nuid _ event _
      refine ⟨?_, hadded, ?_, ?_⟩
      · intro hno
        rw [heq]
        simp [hno]
      · obtain ⟨added, hext, _⟩ := hadded
        unfold Extends at hext
        rw [hext]
      · unfold subscribedArgsAfter
        simp [NeedStringArg, hnuid, hevent, hopt]
    · intro suffix nuid rawargs hargs
      have heq := ExecuteAPI_region_assigned x r suffix nuid rawargs args hargs hopt
      refine ⟨?_, ?_, ?_⟩
      · intro hno
        rw [heq]
        simp only [hno, not_false_eq_true, if_true]
        exact ⟨_, rfl, contains_no_region _ _⟩
      · intro hmem
        rw [heq]
        simp [hmem]
      · intro out hout
        rw [heq] at hout
        by_cases hmem : (r.getRegionForNUID nuid).1 ∈ (r.getRegionForNUID nuid).2.reactors
        · simp only [hmem, not_true_eq_false, if_false, Option.some.injEq] at hout
          rw [← hout]
          rfl
        · simp only [hmem, not_false_eq_true, if_true, Option.some.injEq] at hout
          rw [← hout]

theorem C18_explicit_region_witness :
    GoMap.get [("nuid", "n1"), ("event", "sprite"), ("region", "C"), ("x", "0.5"), ("y", "0.5"),
      ("z", "0.1")] "region" = some "C" ∧
    ("C" : String) ≠ "" ∧
    (HandleSubscribedEventArgs sampleExt (TheRouter false false)
      [("nuid", "n1"), ("event", "sprite"), ("region", "C"), ("x", "0.5"), ("y", "0.5"),
        ("z", "0.1")]).2.regionAssignedToNUID = (TheRouter false false).regionAssignedToNUID ∧
    subscribedArgsAfter [("nuid", "n1"), ("event", "sprite"), ("region", "C"), ("x", "0.5"),
      ("y", "0.5"), ("z", "0.1")] =
      GoMap.delete [("nuid", "n1"), ("event", "sprite"), ("region", "C"), ("x", "0.5"),
        ("y", "0.5"), ("z", "0.1")] "region" ∧
    HandleSubscribedEventArgs sampleExt (TheRouter false false)
      [("nuid", "n1"), ("event", "sprite"), ("region", "C"), ("x", "0.5"), ("y", "0.5"),
        ("z", "0.1")] =
      (none, { TheRouter false false with
        trace := [.reactor "C" (.generateSprite "dummy" ⟨"0.5"⟩ ⟨"0.5"⟩ ⟨"0.1"⟩)] }) ∧
    GoMap.get [("nuid", "n1"), ("event", "sprite"), ("region", ""), ("x", "0.5"), ("y", "0.5"),
      ("z", "0.1")] "region" = some "" ∧
    (HandleSubscribedEventArgs sampleExt (TheRouter false false)
      [("nuid", "n1"), ("event", "sprite"), ("region", ""), ("x", "0.5"), ("y", "0.5"),
        ("z", "0.1")]).2.regionAssignedToNUID = [("n1", "A")] ∧
    subscribedArgsAfter [("nuid", "n1"), ("event", "sprite"), ("region", ""), ("x", "0.5"),
      ("y", "0.5"), ("z", "0.1")] =
      [("nuid", "n1"), ("event", "sprite"), ("region", ""), ("x", "0.5"), ("y", "0.5"),
        ("z", "0.1")] :=
  have h := ((C18_explicit_region sampleExt (TheRouter false false)
      [("nuid", "n1"), ("event", "sprite"), ("region", "C"), ("x", "0.5"), ("y", "0.5"),
        ("z", "0.1")] "C" rfl).1 (by decide)).1 "n1" "sprite" rfl rfl
  have h2 := ((C18_explicit_region sampleExt (TheRouter false false)
      [("nuid", "n1"), ("event", "sprite"), ("region", ""), ("x", "0.5"), ("y", "0.5"),
        ("z", "0.1")] "" rfl).2 rfl).1 "n1" "sprite" rfl rfl
  ⟨rfl, by decide, h.2.2.1, h.2.2.2, by decide, rfl, h2.2.2.1.trans (by decide), h2.2.2.2⟩

/-- An empty `region` value on the sample environment: the NUID gets region `A`, the
sprite goes to its Reactor, and the caller's map keeps the key. -/
theorem empty_region_value_keeps_key :
    (HandleSubscribedEventArgs sampleExt (TheRouter false false)
      [("nuid", "n1"), ("event", "sprite"), ("region", ""), ("x", "0.5"), ("y", "0.5"),
        ("z", "0.1")]).2.regionAssignedToNUID = [("n1", "A")] ∧
    subscribedArgsAfter [("nuid", "n1"), ("event", "sprite"), ("region", ""), ("x", "0.5"),
      ("y", "0.5"), ("z", "0.1")] =
      [("nuid", "n1"), ("event", "sprite"), ("region", ""), ("x", "0.5"), ("y", "0.5"),
        ("z", "0.1")] ∧
    subscribedArgsAfter [("nuid", "n1"), ("event", "sprite"), ("region", "C"), ("x", "0.5"),
      ("y", "0.5"), ("z", "0.1")] =
      [("nuid", "n1"), ("event", "sprite"), ("x", "0.5"), ("y", "0.5"), ("z", "0.1")] := by
  refine ⟨by decide, by decide, by decide⟩

/-! ### C19: the event lock -/

theorem oscEventArgs_brace (x : Ext) (msg : OSCMessage) (rest : List Char) (others : List OSCArg)
    (harg : msg.Arguments = .string (String.mk ('{' :: rest)) :: others) :
    ∃ args, oscEventArgs x msg = some args := by
  unfold oscEventArgs
  rw [harg]
  simp only [ne_eq, not_true_eq_false, if_false]
  cases StringMap x ("\x7b \"nuid\": \"" ++ x.MyNUID ++ "\", " ++ String.mk rest) with
  | ok args => exact ⟨args, rfl⟩
  | error _ => exact ⟨[], rfl⟩

/-- C19 (what the code does): `HandleOSCInput` takes the event lock and, for an `/event`
message whose first argument is a string that begins with an opening brace, calls
`handleOSCEvent`, which calls `HandleSubscribedEventArgs`, whose first statement is a
`Lock()` of the same mutex: started with the lock free, the call acquires it once, tries
to acquire it again while holding it, and never returns.  The other calls take the lock
once and return with it free (or panic, for an executor or an advance that panics): an
OSC message that is dropped before `HandleSubscribedEventArgs`, and
`HandleSubscribedEventArgs`, `HandleAPIInput`, `handleGestureDeviceInput` and
`advanceClickTo` called on their own. -/
theorem C19_osc_event_locks_twice (x : Ext) (r : Router) (e : OSCEvent) (rest : List Char)
    (others : List OSCArg) (haddr : e.Msg.Address = "/event")
    (harg : e.Msg.Arguments = .string (String.mk ('{' :: rest)) :: others) :
    Locked.HandleOSCInput x r e freeMutex = .blocked ∧
    (∀ e2 : OSCEvent, e2.Msg.Address ≠ "/event" ∨ oscEventArgs x e2.Msg = none →
      Locked.HandleOSCInput x r e2 freeMutex = .returned r ⟨false, 1⟩) ∧
    (∀ args : GoMap, Locked.HandleSubscribedEventArgs x r args freeMutex =
      .returned (HandleSubscribedEventArgs x r args) ⟨false, 1⟩) ∧
    (∀ data : String, Locked.HandleAPIInput x (ExecuteAPI x) r data freeMutex =
      match HandleAPIInput x (ExecuteAPI x) r data with
      | none => .panicked
      | some out => .returned out ⟨false, 1⟩) ∧
    (∀ toClick : Int, Locked.advanceClickTo x r toClick freeMutex =
      match advanceClickTo x r toClick with
      | none => .panicked
      | some r1 => .returned r1 ⟨false, 1⟩) ∧
    (∀ (callbacks : List (GestureDeviceEvent → Router → Router)) (ge : GestureDeviceEvent),
      ∃ r1, Locked.handleGestureDeviceInput r callbacks ge freeMutex = .returned r1 ⟨false, 1⟩) := by
  refine ⟨?_, ?_, ?_, ?_, ?_, ?_⟩
  · obtain ⟨args, hargs⟩ := oscEventArgs_brace x e.Msg rest others harg
    have hne : ("/event" : String) ≠ "/api" := by decide
    unfold Locked.HandleOSCInput
    simp only [freeMutex, Mutex.Lock, haddr, hne, if_false, if_true]
    unfold Locked.handleOSCEvent
    simp only [hargs]
    unfold Locked.HandleSubscribedEventArgs
    simp [Mutex.Lock]
  · intro e2 h
    unfold Locked.HandleOSCInput
    simp only [freeMutex, Mutex.Lock, Mutex.Unlock]
    by_cases hapi : e2.Msg.Address = "/api"
    · simp [hapi]
    · by_cases hev : e2.Msg.Address = "/event"
      · rcases h with h | h
        · exact absurd hev h
        · simp only [hapi, hev, if_false, if_true]
          unfold Locked.handleOSCEvent
          simp [h]
      · simp [hapi, hev]
  · intro args
    rfl
  · intro data
    unfold Locked.HandleAPIInput
    simp only [freeMutex, Mutex.Lock, Mutex.Unlock]
    cases HandleAPIInput x (ExecuteAPI x) r data <;> rfl
  · intro toClick
    unfold Locked.advanceClickTo
    simp only [freeMutex, Mutex.Lock, Mutex.Unlock]
    cases advanceClickTo x r toClick <;> rfl
  · intro callbacks ge
    have hl : freeMutex.Lock = some ⟨true, 1⟩ := rfl
    unfold Locked.handleGestureDeviceInput
    simp only [hl, Mutex.Unlock]
    split_ifs <;> exact ⟨_, rfl⟩

theorem C19_osc_event_locks_twice_witness :
    ("/event" : String) = "/event" ∧
    [OSCArg.string "\x7b\"event\":\"cursor_down\"\x7d"] =
      OSCArg.string (String.mk ('{' :: ("\"event\":\"cursor_down\"\x7d" : String).data)) :: [] ∧
    Locked.HandleOSCInput sampleExt (TheRouter false false)
      ⟨⟨"/event", [.string "\x7b\"event\":\"cursor_down\"\x7d"]⟩, "127.0.0.1:3333"⟩ freeMutex =
      .blocked :=
  ⟨rfl, rfl,
    (C19_osc_event_locks_twice sampleExt (TheRouter false false)
      ⟨⟨"/event", [.string "\x7b\"event\":\"cursor_down\"\x7d"]⟩, "127.0.0.1:3333"⟩
      ("\"event\":\"cursor_down\"\x7d" : String).data [] rfl rfl).1⟩

/-! ### C20: gesture-up checks on beat boundaries -/

theorem count_check_clickBlock (x : Ext) (dir : List String) (clk : Int) (region : String)
    (hperm : (x.rangeOrder (.advance clk) dir).Perm dir) (hnodup : dir.Nodup)
    (hmem : region ∈ dir) :
    (clickBlock x dir clk).count (.reactor region .checkGestureUp) =
      if x.oneBeat ∣ clk then 1 else 0 := by
  have key : ∀ l : List String,
      (l.flatMap (fun rg =>
        (if clk.tmod x.oneBeat = 0 then [Effect.reactor rg .checkGestureUp] else []) ++
          [Effect.reactor rg .AdvanceByOneClick])).count (.reactor region .checkGestureUp) =
        if clk.tmod x.oneBeat = 0 then l.count region else 0 := by
    intro l
    induction l with
    | nil => simp
    | cons a rest ih =>
      rw [List.flatMap_cons, List.count_append, ih, List.count_cons]
      by_cases hb : clk.tmod x.oneBeat = 0 <;> by_cases ha : a = region <;>
        simp [hb, ha, List.count_cons, Nat.add_comm]
  unfold clickBlock
  rw [key, hperm.count_eq, List.count_eq_one_of_mem hnodup hmem]
  by_cases hb : clk.tmod x.oneBeat = 0
  · simp [hb, Int.dvd_iff_tmod_eq_zero.mpr hb]
  · have hd : ¬ x.oneBeat ∣ clk := fun h => hb (Int.dvd_iff_tmod_eq_zero.mp h)
    simp [hb, hd]

theorem check_then_advance (x : Ext) (dir : List String) (clk : Int) (region : String)
    (hperm : (x.rangeOrder (.advance clk) dir).Perm dir) (hmem : region ∈ dir)
    (hb : x.oneBeat ∣ clk) :
    ∃ pre post, clickBlock x dir clk =
      pre ++ [.reactor region .checkGestureUp, .reactor region .AdvanceByOneClick] ++ post := by
  have hin : region ∈ x.rangeOrder (.advance clk) dir := hperm.mem_iff.mpr hmem
  obtain ⟨s, t, hst⟩ := List.append_of_mem hin
  have hz : clk.tmod x.oneBeat = 0 := Int.dvd_iff_tmod_eq_zero.mp hb
  unfold clickBlock
  rw [hst, List.flatMap_append, List.flatMap_cons]
  simp only [hz, if_true]
  exact ⟨s.flatMap (fun rg =>
      [Effect.reactor rg .checkGestureUp] ++ [Effect.reactor rg .AdvanceByOneClick]),
    t.flatMap (fun rg =>
      [Effect.reactor rg .checkGestureUp] ++ [Effect.reactor rg .AdvanceByOneClick]),
    by simp [List.append_assoc]⟩

theorem count_check_clickBlocks (x : Ext) (dir : List String) (L : Int) (k : Nat)
    (region : String)
    (h : ∀ i, i < k → (clickBlock x dir (L + (i : Int))).count (.reactor region .checkGestureUp) =
      if x.oneBeat ∣ L + (i : Int) then 1 else 0) :
    (clickBlocks x dir L k).count (.reactor region .checkGestureUp) =
      ((List.range k).filter (fun i => decide (x.oneBeat ∣ L + (i : Int)))).length := by
  induction k with
  | zero => simp [clickBlocks]
  | succ k ih =>
    have hk := ih (fun i hi => h i (Nat.lt_succ_of_lt hi))
    have hlast := h k (Nat.lt_succ_self k)
    unfold clickBlocks at hk ⊢
    simp only [List.range_succ, List.flatMap_append, List.count_append, List.filter_append,
      List.length_append, hk, List.flatMap_cons, List.flatMap_nil, List.append_nil, hlast]
    by_cases hd : x.oneBeat ∣ L + (k : Int) <;> simp [hd, List.filter_cons]

/-- C20: within `advanceClickTo`, for every click `c` of the range from `lastClick` up to
`toClick` and every Reactor, `checkGestureUp` is invoked on the Reactor for `c` exactly
when `c` is a multiple of `oneBeat`, and then it comes right before the Reactor's
`AdvanceByOneClick` for `c`; so every Reactor gets as many gesture-up checks as there are
multiples of `oneBeat` in the range. -/
theorem C20_gesture_up_on_beats (x : Ext) (r : Router) (k : Nat) (hbeat : x.oneBeat ≠ 0)
    (hperm : ∀ clk, (x.rangeOrder (.advance clk) r.reactors).Perm r.reactors)
    (hnodup : r.reactors.Nodup) :
    advanceClickTo x r (r.lastClick + (k : Int)) =
      some { r with lastClick := r.lastClick + (k : Int),
                    trace := r.trace ++ clickBlocks x r.reactors r.lastClick k } ∧
    (∀ i, i < k → ∀ region ∈ r.reactors,
      ((clickBlock x r.reactors (r.lastClick + (i : Int))).count
          (.reactor region .checkGestureUp) =
        if x.oneBeat ∣ r.lastClick + (i : Int) then 1 else 0) ∧
      (.reactor region .checkGestureUp ∈ clickBlock x r.reactors (r.lastClick + (i : Int)) ↔
        x.oneBeat ∣ r.lastClick + (i : Int)) ∧
      (x.oneBeat ∣ r.lastClick + (i : Int) →
        ∃ pre post, clickBlock x r.reactors (r.lastClick + (i : Int)) =
          pre ++ [.reactor region .checkGestureUp, .reactor region .AdvanceByOneClick] ++ post) ∧
      (clickBlock x r.reactors (r.lastClick + (i : Int))).count
          (.reactor region .AdvanceByOneClick) = 1) ∧
    (∀ region ∈ r.reactors,
      (clickBlocks x r.reactors r.lastClick k).count (.reactor region .checkGestureUp) =
        ((List.range k).filter (fun i => decide (x.oneBeat ∣ r.lastClick + (i : Int)))).length) := by
  have hcount : ∀ (i : Nat) (region : String), region ∈ r.reactors →
      (clickBlock x r.reactors (r.lastClick + (i : Int))).count
          (.reactor region .checkGestureUp) =
        if x.oneBeat ∣ r.lastClick + (i : Int) then 1 else 0 :=
    fun i region hmem => count_check_clickBlock x r.reactors _ region (hperm _) hnodup hmem
  refine ⟨advanceClickTo_eq x r k hbeat, ?_, ?_⟩
  · intro i _ region hmem
    refine ⟨hcount i region hmem, ?_, ?_, ?_⟩
    · rw [← List.count_pos_iff, hcount i region hmem]
      by_cases hd : x.oneBeat ∣ r.lastClick + (i : Int) <;> simp [hd]
    · exact check_then_advance x r.reactors _ region (hperm _) hmem
    · exact count_clickBlock x r.reactors _ region (hperm _) hnodup hmem
  · intro region hmem
    exact count_check_clickBlocks x r.reactors r.lastClick k region
      (fun i _ => hcount i region hmem)

theorem C20_gesture_up_on_beats_witness :
    sampleExt.oneBeat ≠ 0 ∧
    (∀ clk, (sampleExt.rangeOrder (.advance clk) (TheRouter false false).reactors).Perm
      (TheRouter false false).reactors) ∧
    (TheRouter false false).reactors.Nodup ∧
    (clickBlocks sampleExt (TheRouter false false).reactors (TheRouter false false).lastClick
        200).count (.reactor "A" .checkGestureUp) =
      ((List.range 200).filter
        (fun i => decide (sampleExt.oneBeat ∣ (TheRouter false false).lastClick + (i : Int)))).length :=
  ⟨by decide, fun _ => List.Perm.refl _, by decide,
    (C20_gesture_up_on_beats sampleExt (TheRouter false false) 200 (by decide)
      (fun _ => List.Perm.refl _) (by decide)).2.2 "A" (by decide)⟩

/-! ### The embedding at work, continued -/

set_option maxRecDepth 100000 in
/-- Two beats from click 0: Reactor `B` is checked for a gesture-up on the clicks 0, 96
and 192 and advanced on each of the 193 clicks. -/
theorem checks_in_two_beats :
    (clickBlocks sampleExt ["A", "B", "C", "D"] 0 193).count (.reactor "B" .checkGestureUp) = 3 ∧
    (clickBlocks sampleExt ["A", "B", "C", "D"] 0 193).count (.reactor "B" .AdvanceByOneClick)
      = 193 := by
  decide

/-- The API `global.recordingPlay` on the saved recording with a line of four fields
panics. -/
theorem recordingPlay_panics_on_four_fields :
    ExecuteAPI sampleExt fourFieldRouter "global.recordingPlay" "n1" "\x7b\"name\":\"t1\"\x7d" =
      none := by
  rfl

/-- An OSC message on `/event` that is dropped before `HandleSubscribedEventArgs` (its
argument does not begin with an opening brace) returns with the lock free; one on another
address too. -/
theorem osc_messages_that_return :
    Locked.HandleOSCInput sampleExt (TheRouter false false)
      ⟨⟨"/event", [.string "cursor_down"]⟩, "127.0.0.1:3333"⟩ freeMutex =
      .returned (TheRouter false false) ⟨false, 1⟩ ∧
    Locked.HandleOSCInput sampleExt (TheRouter false false)
      ⟨⟨"/api", [.string "global.echo", .string "\x7b\x7d"]⟩, "127.0.0.1:3333"⟩ freeMutex =
      .returned (TheRouter false false) ⟨false, 1⟩ := by
  decide

/-! ### C21: cursor events of local OSC messages -/

theorem StringMapLoop_get (err k : String) :
    ∀ (more : Bool) (toks : List (JToken × Bool)) (values args : GoMap),
      StringMapLoop err more toks values = .ok args → k ∉ tokenKeys toks →
      args.get k = values.get k
  | false, _, values, args, h, _ => by
    simp only [StringMapLoop] at h
    cases h
    rfl
  | true, [], _, _, h, _ => by simp [StringMapLoop] at h
  | true, [(_, more)], _, _, h, _ => by
    simp only [StringMapLoop] at h
    split at h <;> cases h
  | true, (name, more) :: (value, more2) :: rest, values, args, h, hk => by
    simp only [StringMapLoop] at h
    split at h
    · cases h
    · simp only [tokenKeys, List.mem_cons, not_or] at hk
      rw [StringMapLoop_get err k more2 rest _ args h hk.2]
      exact GoMap.get_set_other values _ _ k hk.1

theorem HandleSubscribedEventArgs_own_cursor (x : Ext) (r : Router) (args : GoMap)
    (event : String) (hpub : r.publishGesture = true)
    (hnuid : args.get "nuid" = some x.MyNUID) (hevent : args.get "event" = some event)
    (hmain : (splitEvent event).1 = "cursor") :
    (HandleSubscribedEventArgs x r args).2.trace = r.trace := by
  unfold HandleSubscribedEventArgs
  simp only [NeedStringArg, hnuid, hevent, hmain, if_true]
  by_cases hreg : OptionalStringArg "region" args "" = ""
  · simp only [hreg, if_true]
    split
    · exact getRegionForNUID_trace r x.MyNUID
    · rw [handleCursorEvent_self x _ _ _ _
        ((getRegionForNUID_publishGesture r x.MyNUID).trans hpub)]
      exact getRegionForNUID_trace r x.MyNUID
  · simp only [hreg, if_false]
    split
    · rfl
    · rw [handleCursorEvent_self x _ _ _ _ hpub]

theorem HandleSubscribedEventArgs_nil (x : Ext) (r : Router) :
    HandleSubscribedEventArgs x r [] =
      (some "api/event=HandleSubscribeEvent missing value for nuid", r) := rfl

theorem oscEventArgs_injected (x : Ext) (msg : OSCMessage) (body : List Char)
    (others : List OSCArg) (more : Bool) (rest : List (JToken × Bool)) (err : String)
    (harg : msg.Arguments = .string (String.mk ('{' :: body)) :: others)
    (htok : x.jsonTokens ("\x7b \"nuid\": \"" ++ x.MyNUID ++ "\", " ++ String.mk body) =
      ((.delim '{', true) :: (.str "nuid", true) :: (.str x.MyNUID, more) :: rest, err))
    (hown : "nuid" ∉ tokenKeys rest) :
    ∃ args, oscEventArgs x msg = some args ∧ (args = [] ∨ args.get "nuid" = some x.MyNUID) := by
  have hsm : StringMap x ("\x7b \"nuid\": \"" ++ x.MyNUID ++ "\", " ++ String.mk body) =
      StringMapLoop err more rest (GoMap.set [] "nuid" x.MyNUID) := by
    unfold StringMap
    rw [htok]
    simp [StringMapLoop, JToken.fmtV]
  unfold oscEventArgs
  rw [harg]
  simp only [ne_eq, not_true_eq_false, if_false]
  rw [hsm]
  cases hloop : StringMapLoop err more rest (GoMap.set [] "nuid" x.MyNUID) with
  | error e => exact ⟨[], rfl, Or.inl rfl⟩
  | ok args =>
    refine ⟨args, rfl, Or.inr ?_⟩
    rw [StringMapLoop_get err "nuid" more rest _ args hloop hown]
    exact GoMap.get_set_self [] "nuid" x.MyNUID

/-- C21 (what the code does): for every local OSC message with address `/event` whose
first argument is a string that begins with an opening brace, `HandleOSCInput`, started
with the event lock free, never returns: `handleOSCEvent` builds the argument map and
calls `HandleSubscribedEventArgs`, which waits in its `Lock()` for the lock that
`HandleOSCInput` holds, so the self-echo test is not reached and no Reactor operation or
publication follows.  The map that was built does carry the own NUID: if the decoder
reads the built text as the injected `nuid` key with the own NUID followed by tokens
among which no key is `nuid`, the map is the nil map (when `StringMap` fails) or has the
own NUID as `nuid`.  And `HandleSubscribedEventArgs` called with the lock free, as it is
for a notification from the bus, on a map with the own NUID and a `cursor` or
`cursor_<sub>` event, returns with the lock free and, with gesture publishing enabled,
adds nothing to the trace. -/
theorem C21_osc_cursor_blocks (x : Ext) (r : Router) (e : OSCEvent) (body : List Char)
    (others : List OSCArg) (haddr : e.Msg.Address = "/event")
    (harg : e.Msg.Arguments = .string (String.mk ('{' :: body)) :: others) :
    Locked.HandleOSCInput x r e freeMutex = .blocked ∧
    (∀ (more : Bool) (rest : List (JToken × Bool)) (err : String),
      x.jsonTokens ("\x7b \"nuid\": \"" ++ x.MyNUID ++ "\", " ++ String.mk body) =
        ((.delim '{', true) :: (.str "nuid", true) :: (.str x.MyNUID, more) :: rest, err) →
      "nuid" ∉ tokenKeys rest →
      ∃ args, oscEventArgs x e.Msg = some args ∧
        (args = [] ∨ args.get "nuid" = some x.MyNUID)) ∧
    (∀ (args : GoMap) (event : String), r.publishGesture = true →
      args.get "nuid" = some x.MyNUID → args.get "event" = some event →
      (event = "cursor" ∨ ∃ sub, event = "cursor_" ++ sub) →
      Locked.HandleSubscribedEventArgs x r args freeMutex =
        .returned (HandleSubscribedEventArgs x r args) ⟨false, 1⟩ ∧
      (HandleSubscribedEventArgs x r args).2.trace = r.trace) := by
  refine ⟨?_, ?_, ?_⟩
  · obtain ⟨args, hargs⟩ := oscEventArgs_brace x e.Msg body others harg
    have hne : ("/event" : String) ≠ "/api" := by decide
    unfold Locked.HandleOSCInput
    simp only [freeMutex, Mutex.Lock, haddr, hne, if_false, if_true]
    unfold Locked.handleOSCEvent
    simp only [hargs]
    unfold Locked.HandleSubscribedEventArgs
    simp [Mutex.Lock]
  · intro more rest err htok hown
    exact oscEventArgs_injected x e.Msg body others more rest err harg htok hown
  · intro args event hpub hnuid hevent hkind
    have hmain : (splitEvent event).1 = "cursor" := by
      rcases hkind with rfl | ⟨sub, rfl⟩
      · decide
      · rw [show ("cursor_" ++ sub : String) = "cursor" ++ "_" ++ sub from rfl,
          splitEvent_main "cursor" sub (by decide)]
    exact ⟨rfl, HandleSubscribedEventArgs_own_cursor x r args event hpub hnuid hevent hmain⟩

theorem C21_osc_cursor_blocks_witness :
    cursorMessage.Address = "/event" ∧
    cursorMessage.Arguments =
      .string (String.mk ('{' ::
        ("\"event\":\"cursor_down\",\"x\":\"0.5\",\"y\":\"0.5\",\"z\":\"0.1\"\x7d" : String).data)) :: [] ∧
    (TheRouter true false).publishGesture = true ∧
    Locked.HandleOSCInput oscExt (TheRouter true false) ⟨cursorMessage, "127.0.0.1:3333"⟩
      freeMutex = .blocked ∧
    oscEventArgs oscExt cursorMessage =
      some [("nuid", "me"), ("event", "cursor_down"), ("x", "0.5"), ("y", "0.5"),
        ("z", "0.1")] ∧
    (HandleSubscribedEventArgs oscExt (TheRouter true false)
      [("nuid", "me"), ("event", "cursor_down"), ("x", "0.5"), ("y", "0.5"),
        ("z", "0.1")]).2.trace = (TheRouter true false).trace :=
  have h := C21_osc_cursor_blocks oscExt (TheRouter true false)
    ⟨cursorMessage, "127.0.0.1:3333"⟩
    ("\"event\":\"cursor_down\",\"x\":\"0.5\",\"y\":\"0.5\",\"z\":\"0.1\"\x7d" : String).data []
    rfl rfl
  ⟨rfl, rfl, rfl, h.1, by decide,
    (h.2.2 [("nuid", "me"), ("event", "cursor_down"), ("x", "0.5"), ("y", "0.5"), ("z", "0.1")]
      "cursor_down" rfl rfl rfl (Or.inr ⟨"down", rfl⟩)).2⟩

/-- A message whose argument has a `nuid` key of its own: the injected key comes first
in the built text, `StringMap` keeps the later value, so the map that is built carries
the NUID of the message; the call of `HandleOSCInput` blocks all the same. -/
theorem osc_message_with_own_nuid :
    oscEventArgs oscExt cursorMessageWithNuid =
      some [("nuid", "other"), ("event", "cursor_down"), ("x", "0.5"), ("y", "0.5"),
        ("z", "0.1")] ∧
    Locked.HandleOSCInput oscExt (TheRouter true false)
      ⟨cursorMessageWithNuid, "127.0.0.1:3333"⟩ freeMutex = .blocked := by
  refine ⟨by decide, by decide⟩

/-! ### C22: the recording flag and the recording file -/

theorem recordEvent_braces (r : Router) (dt : Nat) (method : String) :
    ∃ r1, recordEvent r dt "global" "*" method "\x7b\x7d" = some r1 ∧
      r1.recordingOn = r.recordingOn ∧ r1.recordingFile = r.recordingFile := by
  unfold recordEvent
  by_cases hon : r.recordingOn = false
  · exact ⟨r, by simp [hon], rfl, rfl⟩
  · cases hf : r.recordingFile with
    | none => exact ⟨r, by simp [hon], rfl, hf⟩
    | some path =>
      have hd : ("\x7b\x7d" : String).data = ['{', '}'] := rfl
      have hon1 : r.recordingOn = true := by simpa using hon
      let content := (r.files.get path).getD "" ++ recordLine dt "global" "*" method "\x7b\x7d"
      refine ⟨{ r with files := r.files.set path content }, ?_, rfl, hf⟩
      simp [hon1, hf, hd]

theorem recordingSave_file (x : Ext) (r : Router) (name : String) :
    (recordingSave x r name).2.recordingOn = r.recordingOn ∧
    (recordingSave x r name).2.recordingFile = none := by
  unfold recordingSave
  simp only
  split
  · exact ⟨rfl, rfl⟩
  · split <;> exact ⟨rfl, rfl⟩

/-- C22 (what the code does): for every router and every call whose raw arguments
`StringMap` reads, `global.recordingStart` sets the recording flag before it creates the
file: when the creation fails the call returns the error with the flag on and no file
open, and when it succeeds the flag is on and the file is open; `global.recordingStop`
leaves the flag off and no file open; `global.recordingSave` with a `name` argument
closes the file and leaves the flag as it was, so that issued while recording is on it
leaves the flag on and no file open; without a `name` argument it changes nothing. -/
theorem C22_recording_flag_without_file (x : Ext) (r : Router) (nuid rawargs : String)
    (args : GoMap) (hargs : StringMap x rawargs = .ok args) :
    (∀ err, x.createError (x.recordingsFile "LastRecording.json") = some err →
      ExecuteAPI x r "global.recordingStart" nuid rawargs =
        some ((.nil, some err), { r with recordingOn := true, recordingFile := none })) ∧
    (x.createError (x.recordingsFile "LastRecording.json") = none →
      ∃ out r1, ExecuteAPI x r "global.recordingStart" nuid rawargs = some (out, r1) ∧
        r1.recordingOn = true ∧
        r1.recordingFile = some (x.recordingsFile "LastRecording.json")) ∧
    (∃ out r1, ExecuteAPI x r "global.recordingStop" nuid rawargs = some (out, r1) ∧
      r1.recordingOn = false ∧ r1.recordingFile = none) ∧
    (∀ name, args.get "name" = some name →
      ∃ out r1, ExecuteAPI x r "global.recordingSave" nuid rawargs = some (out, r1) ∧
        r1.recordingOn = r.recordingOn ∧ r1.recordingFile = none) ∧
    (args.get "name" = none →
      ExecuteAPI x r "global.recordingSave" nuid rawargs = some ((.str "0", none), r)) := by
  have hstart : ("global." ++ "recordingStart" : String) = "global.recordingStart" := by decide
  have hstop : ("global." ++ "recordingStop" : String) = "global.recordingStop" := by decide
  have hsave : ("global." ++ "recordingSave" : String) = "global.recordingSave" := by decide
  have h1 := ExecuteAPI_global x r "recordingStart" nuid rawargs args hargs
  have h2 := ExecuteAPI_global x r "recordingStop" nuid rawargs args hargs
  have h3 := ExecuteAPI_global x r "recordingSave" nuid rawargs args hargs
  rw [hstart] at h1
  rw [hstop] at h2
  rw [hsave] at h3
  refine ⟨?_, ?_, ?_, ?_, ?_⟩
  · intro err herr
    rw [h1]
    unfold executeGlobalAPI
    simp [herr]
  · intro hok
    rw [h1]
    obtain ⟨r3, hr3, hon, hfile⟩ := recordEvent_braces
      { r with recordingOn := true,
               recordingFile := some (x.recordingsFile "LastRecording.json"),
               files := r.files.set (x.recordingsFile "LastRecording.json") "" } x.elapsed "start"
    refine ⟨(.str "0", none), r3, ?_, hon, hfile⟩
    unfold executeGlobalAPI
    simp [hok, hr3]
  · rw [h2]
    unfold executeGlobalAPI
    by_cases hon : r.recordingOn = true
    · obtain ⟨r1, hr1, _, _⟩ := recordEvent_braces r x.elapsed "stop"
      exact ⟨(.str "0", none), { r1 with recordingFile := none, recordingOn := false },
        by simp [hon, hr1], rfl, rfl⟩
    · exact ⟨(.str "0", none), { r with recordingFile := none, recordingOn := false },
        by simp [hon], rfl, rfl⟩
  · intro name hname
    rw [h3]
    refine ⟨(.str "0", none), (recordingSave x r name).2, ?_, recordingSave_file x r name⟩
    unfold executeGlobalAPI
    simp [NeedStringArg, hname]
  · intro hname
    rw [h3]
    unfold executeGlobalAPI
    simp [NeedStringArg, hname]

theorem C22_recording_flag_without_file_witness :
    StringMap readOnlyExt "\x7b\x7d" = .ok [] ∧
    readOnlyExt.createError (readOnlyExt.recordingsFile "LastRecording.json") =
      some "open recordings/LastRecording.json: permission denied" ∧
    (TheRouter false false).recordingOn = false ∧
    (TheRouter false false).recordingFile = none ∧
    ExecuteAPI readOnlyExt (TheRouter false false) "global.recordingStart" "me" "\x7b\x7d" =
      some ((.nil, some "open recordings/LastRecording.json: permission denied"),
        { TheRouter false false with recordingOn := true, recordingFile := none }) :=
  ⟨rfl, by decide, rfl, rfl,
    (C22_recording_flag_without_file readOnlyExt (TheRouter false false) "me" "\x7b\x7d" []
      rfl).1 "open recordings/LastRecording.json: permission denied" (by decide)⟩

/-- Two runs from a router with recording off and no file open that end with the flag on
and no file open: a `recordingStart` whose file cannot be created, and a `recordingStart`
followed by a `recordingSave`.  After either, `recordPadAPI` records nothing. -/
theorem recording_flag_on_without_file :
    (executeAPIs (TheRouter false false)
      [(readOnlyExt, "global.recordingStart", "me", "\x7b\x7d")]).map
        (fun r => (r.recordingOn, r.recordingFile)) = some (true, none) ∧
    (executeAPIs (TheRouter false false)
      [(sampleExt, "global.recordingStart", "me", "\x7b\x7d"),
       (sampleExt, "global.recordingSave", "me", "\x7b\"name\":\"t1\"\x7d")]).map
        (fun r => (r.recordingOn, r.recordingFile)) = some (true, none) ∧
    (executeAPIs (TheRouter false false)
      [(sampleExt, "global.recordingStart", "me", "\x7b\x7d"),
       (sampleExt, "global.recordingSave", "me", "\x7b\"name\":\"t1\"\x7d")]).map
        (fun r => (recordPadAPI r 500000 "\x7b\"value\":\"hi\"\x7d").map
          (fun r1 => decide (r1.files = r.files))) = some (some true) ∧
    (executeAPIs (TheRouter false false)
      [(sampleExt, "global.recordingStart", "me", "\x7b\x7d"),
       (sampleExt, "global.recordingStop", "me", "\x7b\x7d"),
       (sampleExt, "global.recordingSave", "me", "\x7b\"name\":\"t1\"\x7d")]).map
        (fun r => (r.recordingOn, r.recordingFile)) = some (false, none) := by
  refine ⟨by decide, by decide, by decide, by decide⟩

end Montage
